import Mathlib

/-! minetext: the access-control core of `server.js`.

A shallow embedding of the Express server of the repository: the token gate
(`authenticateToken`, `authorizeSpace`, `requireAdmin`), space creation, login
and the content routes, as state-passing functions over an explicit store.

The third-party libraries (`jsonwebtoken`, `bcrypt`, `path`, the ObjectId cast
of mongoose) and the process configuration are the fields of `Env`; the clock,
the random salts and the fresh identifiers a request consumes are the fields
of `Ambient`.
-/

namespace Minetext

/-! ## JavaScript values and helpers -/

/-- Length of a JavaScript string: the number of UTF-16 code units. -/
def jsLength (s : String) : Nat :=
  (s.data.map fun c => if c.toNat < 0x10000 then 1 else 2).sum

/-- Truthiness of a body field or header that is a string or undefined:
`undefined` and the empty string are falsy. -/
def truthy : Option String → Bool
  | none => false
  | some s => s != ""

/-- The JavaScript `s.split(sep)` for a one-character separator, on characters. -/
def jsSplit (sep : Char) : List Char → List (List Char)
  | [] => [[]]
  | c :: cs =>
    if c = sep then [] :: jsSplit sep cs
    else
      match jsSplit sep cs with
      | [] => [[c]]
      | w :: ws => (c :: w) :: ws

/-- White space and line terminators removed by `String.prototype.trim`. -/
def jsIsSpace (c : Char) : Bool :=
  let n := c.toNat
  n = 0x09 || n = 0x0A || n = 0x0B || n = 0x0C || n = 0x0D || n = 0x20 || n = 0xA0
    || n = 0x1680 || (0x2000 ≤ n && n ≤ 0x200A) || n = 0x2028 || n = 0x2029
    || n = 0x202F || n = 0x205F || n = 0x3000 || n = 0xFEFF

/-- The JavaScript `s.trim()`. -/
def jsTrim (s : String) : String :=
  ⟨((s.data.dropWhile jsIsSpace).reverse.dropWhile jsIsSpace).reverse⟩

/-- One character of the class `[a-zA-Z0-9-_]`, by code point: `a`..`z` are
97..122, `A`..`Z` are 65..90, `0`..`9` are 48..57, `-` is 45 and `_` is 95. -/
def nameChar (c : Char) : Bool :=
  let n := c.toNat
  (97 ≤ n && n ≤ 122) || (65 ≤ n && n ≤ 90) || (48 ≤ n && n ≤ 57) || n = 45 || n = 95

/-- Greedy match of at most `hi` characters of a class: the number matched and
the rest of the input. -/
def matchClass (cls : Char → Bool) : Nat → List Char → Nat × List Char
  | 0, cs => (0, cs)
  | _ + 1, [] => (0, [])
  | hi + 1, c :: cs =>
    if cls c then
      let r := matchClass cls hi cs
      (r.1 + 1, r.2)
    else (0, c :: cs)

/-- The test `/^[a-zA-Z0-9-_]{3,40}$/.test(name)` of the creation route. -/
def nameRegexTest (name : String) : Bool :=
  let r := matchClass nameChar 40 name.data
  decide (3 ≤ r.1) && r.2.isEmpty

/-! ## Data model -/

abbrev ObjectId := Nat

/-- The payload signed into a token by `createToken`: `{ spaceName, role }`. -/
structure Claims where
  spaceName : String
  role : String
deriving DecidableEq, Repr

/-- A document of the `Space` model. -/
structure Space where
  _id : ObjectId
  name : String
  viewPasswordHash : String
  adminPasswordHash : String
  createdAt : Nat
deriving DecidableEq, Repr

/-- An element of `Content.images`, restricted to the fields the schema declares. -/
structure Image where
  filename : Option String
  originalName : Option String
  storedName : Option String
  mimeType : Option String
  size : Option Nat
deriving DecidableEq, Repr

/-- A document of the `Content` model. -/
structure Content where
  _id : ObjectId
  spaceId : ObjectId
  text : String
  images : List Image
  createdAt : Nat
deriving DecidableEq, Repr

/-- The persistent state of the server: the two collections and the files on disk
(by path). -/
structure ServerState where
  spaces : List Space
  contents : List Content
  files : List String
deriving DecidableEq, Repr

/-- The libraries and the configuration the server is run with. -/
structure Env where
  /-- The variable `process.env.JWT_SECRET`. -/
  JWT_SECRET : String
  /-- The variable `process.env.UPLOAD_DIR`. -/
  UPLOAD_DIR : Option String
  /-- The directory `__dirname` of `server.js`. -/
  dirname : String
  /-- The call `jwt.sign(payload, secret, { expiresIn })` at a time in ms;
  `expiresIn` in seconds. -/
  jwtSign : Claims → String → Nat → Nat → String
  /-- The call `jwt.verify(token, secret, cb)` at a time in ms: `none` when the
  callback receives an error, the payload otherwise. -/
  jwtVerify : String → String → Nat → Option Claims
  /-- The call `bcrypt.hash(data, rounds)`, with the salt it draws. -/
  bcryptHash : String → Nat → Nat → String
  /-- The call `bcrypt.compare(data, encrypted)`. -/
  bcryptCompare : String → String → Bool
  /-- The call `path.join(a, b)`. -/
  pathJoin : String → String → String
  /-- The call `path.extname(p)`. -/
  pathExtname : String → String
  /-- The cast of a string to an ObjectId in a mongoose filter; `none` is a
  CastError. -/
  castObjectId : String → Option ObjectId
  /-- The query `Content.find({ spaceId }).sort({ createdAt: -1 }).skip(skip).limit(limit)`
  on the stored contents; the numbers are `none` for NaN, the result is `none`
  when the driver rejects the query. -/
  findContents : List Content → ObjectId → Option Int → Option Int → Option (List Content)

/-- What a request draws from the outside while it is handled. -/
structure Ambient where
  /-- The clock `Date.now()`, in ms. -/
  now : Nat
  /-- The `_id` given to a document constructed by this request. -/
  objectId : ObjectId
  /-- The salt drawn by the first `bcrypt.hash`. -/
  viewSalt : Nat
  /-- The salt drawn by the second `bcrypt.hash`. -/
  adminSalt : Nat
  /-- The strings `Math.random().toString(36).slice(2, 9)`, one per uploaded file. -/
  random : List String

/-! ## Requests and responses -/

/-- The routes of the API with their path parameters (`req.params`). -/
inductive Route where
  | createSpace
  | spaceExists (spaceName : String)
  | login (spaceName : String)
  | getSpace (spaceName : String)
  | addContent (spaceName : String)
  | updateContent (spaceName contentId : String)
  | deleteContent (spaceName contentId : String)
  | addImages (spaceName contentId : String)
  | deleteImage (spaceName contentId imageName : String)
deriving DecidableEq, Repr

/-- The parameter `req.params.spaceName`. -/
def Route.spaceName : Route → Option String
  | .createSpace => none
  | .spaceExists s | .login s | .getSpace s | .addContent s => some s
  | .updateContent s _ | .deleteContent s _ | .addImages s _ => some s
  | .deleteImage s _ _ => some s

/-- The routes registered with `authenticateToken, authorizeSpace`. -/
def Route.gated : Route → Bool
  | .createSpace | .spaceExists _ | .login _ => false
  | _ => true

/-- The routes registered with `requireAdmin` as well: those that change content. -/
def Route.mutating : Route → Bool
  | .addContent _ | .updateContent _ _ | .deleteContent _ _ => true
  | .addImages _ _ | .deleteImage _ _ _ => true
  | _ => false

/-- A file part of a multipart request, with the name of its form field. -/
structure UploadFile where
  originalname : String
  mimetype : String
  size : Nat
  fieldname : String := "images"
deriving DecidableEq, Repr

/-- A file as multer leaves it in `req.files`. -/
structure StoredFile where
  originalname : String
  mimetype : String
  size : Nat
  filename : String
deriving DecidableEq, Repr

/-- The request object `req`, with the fields the server reads; a body field is a
string or absent. -/
structure Req where
  route : Route
  /-- The header `req.headers['authorization']`. -/
  authorization : Option String := none
  /-- Body fields. -/
  name : Option String := none
  viewPassword : Option String := none
  adminPassword : Option String := none
  password : Option String := none
  text : Option String := none
  /-- Query fields after `parseInt`; the inner `none` is NaN. -/
  page : Option (Option Int) := none
  limit : Option (Option Int) := none
  /-- File parts of the multipart body. -/
  uploads : List UploadFile := []
  /-- The field `req.tokenPayload`, set by `authenticateToken`. -/
  tokenPayload : Option Claims := none
  /-- The field `req.files`, set by multer. -/
  files : List StoredFile := []
deriving DecidableEq, Repr

/-- The JSON body of a response. -/
inductive Body where
  | error (msg : String)
  | created (token : String) (name : String) (id : ObjectId) (createdAt : Nat)
  | spaceExists (b : Bool)
  | login (token : String) (role : String)
  | space (name : String) (createdAt : Nat) (contents : List Content)
      (page limit : Option Int) (hasMore : Bool)
  | newContent (id : ObjectId) (text : String) (images : List Image) (createdAt : Nat)
  | content (c : Content)
  | message (msg : String)
deriving DecidableEq, Repr

/-- A response: `res.status(status).json(body)`. -/
structure Response where
  status : Nat
  body : Body
deriving DecidableEq, Repr

/-! ## Tokens and the gate -/

/-- The function `createToken(spaceName, role)`: signs `{ spaceName, role }`
with one hour of validity. -/
def createToken (env : Env) (now : Nat) (spaceName : String) (role : String := "admin") :
    String :=
  env.jwtSign { spaceName := spaceName, role := role } env.JWT_SECRET 3600 now

/-- The expression `authHeader && authHeader.split(' ')[1]`. -/
def bearerToken (authHeader : Option String) : Option String :=
  match authHeader with
  | none => none
  | some h => if h = "" then some "" else ((jsSplit ' ' h.data)[1]?).map String.mk

/-- The middleware `authenticateToken`: the response it sends, or the request
passed to `next()`. -/
def authenticateToken (env : Env) (now : Nat) (req : Req) : Except Response Req :=
  let token := bearerToken req.authorization
  match token with
  | none => .error ⟨401, .error "Access token required"⟩
  | some t =>
    if t = "" then .error ⟨401, .error "Access token required"⟩
    else
      match env.jwtVerify t env.JWT_SECRET now with
      | none => .error ⟨403, .error "Invalid or expired token"⟩
      | some payload => .ok { req with tokenPayload := some payload }

/-- The middleware `authorizeSpace`. Reading `req.tokenPayload.spaceName` of an
undefined payload throws, which Express answers through the error handler. -/
def authorizeSpace (req : Req) : Except Response Req :=
  match req.tokenPayload with
  | none => .error ⟨500, .error "Internal server error"⟩
  | some payload =>
    if some payload.spaceName ≠ req.route.spaceName then
      .error ⟨403, .error "Unauthorized for this space"⟩
    else .ok req

/-- The middleware `requireAdmin`. -/
def requireAdmin (req : Req) : Except Response Req :=
  match req.tokenPayload with
  | none => .error ⟨500, .error "Internal server error"⟩
  | some payload =>
    if payload.role ≠ "admin" then .error ⟨403, .error "Admin access required"⟩
    else .ok req

/-- Express runs the middlewares of a route in order; the first that responds
ends the request. -/
def runChain : List (Req → Except Response Req) → Req → Except Response Req
  | [], req => .ok req
  | m :: ms, req =>
    match m req with
    | .error res => .error res
    | .ok req1 => runChain ms req1

/-- The gate middlewares registered on each route, in registration order. -/
def gateOf (env : Env) (now : Nat) : Route → List (Req → Except Response Req)
  | .createSpace | .spaceExists _ | .login _ => []
  | .getSpace _ => [authenticateToken env now, authorizeSpace]
  | .addContent _ => [authenticateToken env now, authorizeSpace, requireAdmin]
  | .updateContent _ _ => [authenticateToken env now, authorizeSpace, requireAdmin]
  | .deleteContent _ _ => [authenticateToken env now, authorizeSpace, requireAdmin]
  | .addImages _ _ => [authenticateToken env now, authorizeSpace, requireAdmin]
  | .deleteImage _ _ _ => [authenticateToken env now, authorizeSpace, requireAdmin]

/-! ## The store -/

/-- The query `Space.findOne({ name })`. -/
def findSpace (st : ServerState) (name : String) : Option Space :=
  st.spaces.find? fun s => s.name = name

/-- Validation of a Space document by its schema: `name` required, of 3 to 40
code units and matching `/^[a-zA-Z0-9-_]+$/`; both hashes required. -/
def spaceValid (s : Space) : Bool :=
  s.name != "" && decide (3 ≤ jsLength s.name) && decide (jsLength s.name ≤ 40)
    && s.name.data.all nameChar
    && s.viewPasswordHash != "" && s.adminPasswordHash != ""

/-- The call `space.save()` of a new document: schema validation, then the
insert under the unique index on `name`; `none` when it throws. -/
def saveSpace (st : ServerState) (s : Space) : Option ServerState :=
  if spaceValid s && (findSpace st s.name).isNone then
    some { st with spaces := st.spaces ++ [s] }
  else none

/-- The query `Content.findOne({ _id, spaceId })`. -/
def findContent (st : ServerState) (id spaceId : ObjectId) : Option Content :=
  st.contents.find? fun c => c._id = id ∧ c.spaceId = spaceId

/-- The stored contents with one document written back by `content.save()` or by
`findOneAndUpdate`. -/
def putContent (st : ServerState) (c : Content) : ServerState :=
  { st with contents := st.contents.map fun d => if d._id = c._id then c else d }

/-- A value of a field of a plain object. -/
inductive JsVal where
  | str (s : String)
  | num (n : Nat)
deriving DecidableEq, Repr

/-- The string field `k` of a plain object, when it has one. -/
def strField (o : List (String × JsVal)) (k : String) : Option String :=
  match o.lookup k with
  | some (.str s) => some s
  | _ => none

/-- The number field `k` of a plain object, when it has one. -/
def numField (o : List (String × JsVal)) (k : String) : Option Nat :=
  match o.lookup k with
  | some (.num n) => some n
  | _ => none

/-- The cast of a plain object to the `images` subdocument schema: the declared
paths are kept, every other key is dropped. -/
def castImage (o : List (String × JsVal)) : Image :=
  { filename := strField o "filename"
    originalName := strField o "originalName"
    storedName := strField o "storedName"
    mimeType := strField o "mimeType"
    size := numField o "size" }

/-! ## Uploads -/

/-- The constant `UPLOAD_DIR`. -/
def uploadDir (env : Env) : String :=
  match env.UPLOAD_DIR with
  | some d => if d = "" then env.pathJoin env.dirname "uploads" else d
  | none => env.pathJoin env.dirname "uploads"

/-- The path `path.join(__dirname, 'uploads', name)` the delete routes unlink. -/
def unlinkPath (env : Env) (name : String) : String :=
  env.pathJoin (env.pathJoin env.dirname "uploads") name

/-- The call `fs.unlink(path, cb)`: the file is gone afterwards; a missing file is
only logged. -/
def unlink (files : List String) (path : String) : List String :=
  files.filter fun p => p ≠ path

/-- The list `allowedTypes` of the file filter. -/
def allowedTypes : List String := ["image/jpeg", "image/png", "image/webp", "image/gif"]

/-- An error passed to `next`, with what the error-handling middleware reads of it:
whether it is a `multer.MulterError`, its `code` and its `message`. -/
structure ServerError where
  isMulterError : Bool
  code : String
  message : String
deriving DecidableEq, Repr

/-- The `MulterError` of a file larger than `limits.fileSize`. -/
def limitFileSize : ServerError := ⟨true, "LIMIT_FILE_SIZE", "File too large"⟩

/-- The `MulterError` of more files than `limits.files`. -/
def limitFileCount : ServerError := ⟨true, "LIMIT_FILE_COUNT", "Too many files"⟩

/-- The `MulterError` of a file in a field that `upload.array('images', 6)` does not
expect. -/
def limitUnexpectedFile : ServerError := ⟨true, "LIMIT_UNEXPECTED_FILE", "Unexpected field"⟩

/-- The error of the file filter, `new Error('Only image files are allowed')`. -/
def notImage : ServerError := ⟨false, "", "Only image files are allowed"⟩

/-- The `filename` callback of the disk storage. -/
def storageFilename (env : Env) (now : Nat) (rand : String) (f : UploadFile) : String :=
  toString now ++ "-" ++ rand ++ env.pathExtname f.originalname

/-- The files of a request through multer, the `n`-th part first: at most 6
files, each in the field `images`, passing the filter and of at most 5 MB. -/
def storeFiles (env : Env) (now : Nat) :
    Nat → List UploadFile → List String → Except ServerError (List StoredFile)
  | _, [], _ => .ok []
  | n, f :: fs, rs =>
    if 6 ≤ n then .error limitFileCount
    else if f.fieldname ≠ "images" then .error limitUnexpectedFile
    else if f.mimetype ∉ allowedTypes then .error notImage
    else if 5 * 1024 * 1024 < f.size then .error limitFileSize
    else
      match storeFiles env now (n + 1) fs rs.tail with
      | .error e => .error e
      | .ok out =>
        .ok ({ originalname := f.originalname, mimetype := f.mimetype, size := f.size,
               filename := storageFilename env now (rs.headD "") f } :: out)

/-- The error-handling middleware `app.use((error, req, res, next) => ...)`: two
multer codes and the message of the file filter are answered 400, every other error
500. -/
def errorHandler (error : ServerError) : Response :=
  if error.isMulterError = true ∧ error.code = "LIMIT_FILE_SIZE" then
    ⟨400, .error "File too large. Maximum size is 5MB."⟩
  else if error.isMulterError = true ∧ error.code = "LIMIT_FILE_COUNT" then
    ⟨400, .error "Too many files. Maximum is 6 files."⟩
  else if error.message = "Only image files are allowed" then
    ⟨400, .error "Only image files are allowed"⟩
  else ⟨500, .error "Internal server error"⟩

/-- The middleware `upload.array('images', 6)`: on success the files are on disk
under `UPLOAD_DIR` and listed in `req.files`; on error nothing is kept. -/
def uploadArray (env : Env) (amb : Ambient) (st : ServerState) (req : Req) :
    Except Response (Req × ServerState) :=
  match storeFiles env amb.now 0 req.uploads amb.random with
  | .error e => .error (errorHandler e)
  | .ok stored =>
    .ok ({ req with files := stored },
         { st with files := st.files ++ stored.map fun f => env.pathJoin (uploadDir env) f.filename })

/-! ## Route handlers -/

/-- The response `res.status(500).json({ error: 'Internal server error' })` of every
`catch` block. -/
def internalError : Response := ⟨500, .error "Internal server error"⟩

/-- The response 404 `Space not found`. -/
def spaceNotFound : Response := ⟨404, .error "Space not found"⟩

/-- The response 404 `Content not found`. -/
def contentNotFound : Response := ⟨404, .error "Content not found"⟩

/-- The handler of `POST /api/spaces`. -/
def createSpaceHandler (env : Env) (amb : Ambient) (st : ServerState) (req : Req) :
    Response × ServerState :=
  if !truthy req.name || !truthy req.viewPassword || !truthy req.adminPassword then
    (⟨400, .error "Space name, view password, and admin password are required"⟩, st)
  else
    let name := req.name.getD ""
    let viewPassword := req.viewPassword.getD ""
    let adminPassword := req.adminPassword.getD ""
    if !nameRegexTest name then
      (⟨400, .error "Space name must be 3-40 characters, letters/numbers/-/_ only"⟩, st)
    else if jsLength viewPassword < 6 then
      (⟨400, .error "View password must be at least 6 characters"⟩, st)
    else if jsLength adminPassword < 6 then
      (⟨400, .error "Admin password must be at least 6 characters"⟩, st)
    else
      match findSpace st name with
      | some _ => (⟨409, .error "Space name already taken"⟩, st)
      | none =>
        let viewPasswordHash := env.bcryptHash viewPassword 12 amb.viewSalt
        let adminPasswordHash := env.bcryptHash adminPassword 12 amb.adminSalt
        let space : Space :=
          { _id := amb.objectId, name := jsTrim name, viewPasswordHash := viewPasswordHash,
            adminPasswordHash := adminPasswordHash, createdAt := amb.now }
        match saveSpace st space with
        | none => (internalError, st)
        | some st1 =>
          let token := createToken env amb.now name "admin"
          (⟨201, .created token space.name space._id space.createdAt⟩, st1)

/-- The handler of `GET /api/spaces/:spaceName/exists`. -/
def existsHandler (st : ServerState) (spaceName : String) : Response × ServerState :=
  (⟨200, .spaceExists (findSpace st spaceName).isSome⟩, st)

/-- The handler of `POST /api/spaces/:spaceName/login`. -/
def loginHandler (env : Env) (amb : Ambient) (st : ServerState) (req : Req)
    (spaceName : String) : Response × ServerState :=
  if !truthy req.password then (⟨400, .error "Password is required"⟩, st)
  else
    let password := req.password.getD ""
    match findSpace st spaceName with
    | none => (spaceNotFound, st)
    | some space =>
      if env.bcryptCompare password space.adminPasswordHash then
        (⟨200, .login (createToken env amb.now spaceName "admin") "admin"⟩, st)
      else if env.bcryptCompare password space.viewPasswordHash then
        (⟨200, .login (createToken env amb.now spaceName "viewer") "viewer"⟩, st)
      else (⟨401, .error "Invalid password"⟩, st)

/-- The handler of `GET /api/spaces/:spaceName`. -/
def getSpaceHandler (env : Env) (st : ServerState) (req : Req) (spaceName : String) :
    Response × ServerState :=
  match findSpace st spaceName with
  | none => (spaceNotFound, st)
  | some space =>
    let page := req.page.getD (some 1)
    let limit := req.limit.getD (some 10)
    let skip : Option Int := do
      let p ← page
      let l ← limit
      pure ((p - 1) * l)
    match env.findContents st.contents space._id skip limit with
    | none => (internalError, st)
    | some contents =>
      let hasMore := decide (limit = some (contents.length : Int))
      (⟨200, .space space.name space.createdAt contents page limit hasMore⟩, st)

/-- The expression `text?.trim() || ''`. -/
def textOrEmpty (text : Option String) : String :=
  match text with
  | none => ""
  | some t => jsTrim t

/-- The handler of `POST /api/spaces/:spaceName/content`, after the upload. -/
def addContentHandler (amb : Ambient) (st : ServerState) (req : Req)
    (spaceName : String) : Response × ServerState :=
  match findSpace st spaceName with
  | none => (spaceNotFound, st)
  | some space =>
    let images := req.files.map fun file =>
      castImage [("filename", .str file.filename), ("originalName", .str file.originalname),
        ("storedName", .str file.filename), ("mimeType", .str file.mimetype),
        ("size", .num file.size)]
    let content : Content :=
      { _id := amb.objectId, spaceId := space._id, text := jsTrim (textOrEmpty req.text),
        images := images, createdAt := amb.now }
    if 5000 < jsLength content.text then (internalError, st)
    else
      (⟨201, .newContent content._id content.text content.images content.createdAt⟩,
       { st with contents := st.contents ++ [content] })

/-- The handler of `PUT /api/spaces/:spaceName/content/:contentId`. -/
def updateContentHandler (env : Env) (st : ServerState) (req : Req)
    (spaceName contentId : String) : Response × ServerState :=
  match findSpace st spaceName with
  | none => (spaceNotFound, st)
  | some space =>
    match env.castObjectId contentId with
    | none => (internalError, st)
    | some id =>
      match findContent st id space._id with
      | none => (contentNotFound, st)
      | some content =>
        let updated := { content with text := jsTrim (textOrEmpty req.text) }
        (⟨200, .content updated⟩, putContent st updated)

/-- The calls `fs.unlink` of the delete-content handler, one per image, in order;
`path.join` throws on an image without `storedName`: the files left at that point
come back as an error. -/
def unlinkImages (env : Env) : List Image → List String → Except (List String) (List String)
  | [], files => .ok files
  | image :: rest, files =>
    match image.storedName with
    | none => .error files
    | some n => unlinkImages env rest (unlink files (unlinkPath env n))

/-- The handler of `DELETE /api/spaces/:spaceName/content/:contentId`. -/
def deleteContentHandler (env : Env) (st : ServerState)
    (spaceName contentId : String) : Response × ServerState :=
  match findSpace st spaceName with
  | none => (spaceNotFound, st)
  | some space =>
    match env.castObjectId contentId with
    | none => (internalError, st)
    | some id =>
      match findContent st id space._id with
      | none => (contentNotFound, st)
      | some content =>
        let contents := st.contents.erase content
        match unlinkImages env content.images st.files with
        | .error files => (internalError, { st with contents := contents, files := files })
        | .ok files =>
          (⟨200, .message "Content deleted"⟩, { st with contents := contents, files := files })

/-- The handler of `POST /api/spaces/:spaceName/content/:contentId/images`, after the
upload. -/
def addImagesHandler (env : Env) (st : ServerState) (req : Req)
    (spaceName contentId : String) : Response × ServerState :=
  match findSpace st spaceName with
  | none => (spaceNotFound, st)
  | some space =>
    match env.castObjectId contentId with
    | none => (internalError, st)
    | some id =>
      match findContent st id space._id with
      | none => (contentNotFound, st)
      | some content =>
        if req.files.isEmpty then (⟨400, .error "No images uploaded"⟩, st)
        else
          let newImages := req.files.map fun file =>
            castImage [("originalName", .str file.originalname),
              ("storedName", .str file.filename), ("size", .num file.size),
              ("mimetype", .str file.mimetype)]
          let updated := { content with images := content.images ++ newImages }
          (⟨200, .content updated⟩, putContent st updated)

/-- The handler of
`DELETE /api/spaces/:spaceName/content/:contentId/images/:imageName`. -/
def deleteImageHandler (env : Env) (st : ServerState)
    (spaceName contentId imageName : String) : Response × ServerState :=
  match findSpace st spaceName with
  | none => (spaceNotFound, st)
  | some space =>
    match env.castObjectId contentId with
    | none => (internalError, st)
    | some id =>
      match findContent st id space._id with
      | none => (contentNotFound, st)
      | some content =>
        let updated :=
          { content with images := content.images.filter fun img => img.storedName ≠ some imageName }
        let st1 := putContent st updated
        (⟨200, .message "Image deleted"⟩,
         { st1 with files := unlink st1.files (unlinkPath env imageName) })

/-- The handler of a route together with the upload middleware registered before
it, run once the gate has let the request through. -/
def routeHandler (env : Env) (amb : Ambient) (st : ServerState) (req : Req) :
    Response × ServerState :=
  match req.route with
  | .createSpace => createSpaceHandler env amb st req
  | .spaceExists s => existsHandler st s
  | .login s => loginHandler env amb st req s
  | .getSpace s => getSpaceHandler env st req s
  | .addContent s =>
    match uploadArray env amb st req with
    | .error res => (res, st)
    | .ok (req1, st1) => addContentHandler amb st1 req1 s
  | .updateContent s c => updateContentHandler env st req s c
  | .deleteContent s c => deleteContentHandler env st s c
  | .addImages s c =>
    match uploadArray env amb st req with
    | .error res => (res, st)
    | .ok (req1, st1) => addImagesHandler env st1 req1 s c
  | .deleteImage s c i => deleteImageHandler env st s c i

/-- The request as the first middleware sees it: `req.tokenPayload` and `req.files`
are not under the control of the client. -/
def arriving (req : Req) : Req := { req with tokenPayload := none, files := [] }

/-- The request a handler receives when the gate lets a token with claims `c` through. -/
def passed (req : Req) (c : Claims) : Req := { req with tokenPayload := some c, files := [] }

/-- The gate of a route applied to an arriving request. -/
def gate (env : Env) (now : Nat) (req : Req) : Except Response Req :=
  runChain (gateOf env now req.route) (arriving req)

/-- One request through the server: the gate of its route, then the handler. -/
def app (env : Env) (amb : Ambient) (st : ServerState) (req : Req) :
    Response × ServerState :=
  match gate env amb.now req with
  | .error res => (res, st)
  | .ok req1 => routeHandler env amb st req1

/-! ## A reference environment

A small executable instance of `Env`, used to run the model on concrete
requests: tokens and hashes are readable strings instead of signatures and
digests. -/

/-- The decimal number written by a list of digits, `none` if one is not a digit. -/
def readNat : List Char → Option Nat
  | [] => none
  | cs => cs.foldl (fun acc c => acc.bind fun n =>
      if c.isDigit then some (10 * n + (c.toNat - 48)) else none) (some 0)

/-- The rest of `cs` after the leading `pre`, if `cs` starts with it. -/
def dropLeading : List Char → List Char → Option (List Char)
  | [], cs => some cs
  | _ :: _, [] => none
  | p :: ps, c :: cs => if p = c then dropLeading ps cs else none

/-- Reference signer: `secret.expiry.role.spaceName`, the expiry in seconds. -/
def refSign (c : Claims) (secret : String) (expiresIn now : Nat) : String :=
  secret ++ "." ++ toString (now / 1000 + expiresIn) ++ "." ++ c.role ++ "." ++ c.spaceName

/-- Reference verifier: the token must start with the secret and not be expired. -/
def refVerify (token secret : String) (now : Nat) : Option Claims :=
  match dropLeading (secret.data ++ ['.']) token.data with
  | none => none
  | some rest =>
    let (e, r1) := rest.span fun c => c ≠ '.'
    let (role, r2) := r1.tail.span fun c => c ≠ '.'
    match readNat e, r1, r2 with
    | some exp, _ :: _, _ :: spaceName =>
      if now / 1000 < exp then some { spaceName := ⟨spaceName⟩, role := ⟨role⟩ } else none
    | _, _, _ => none

/-- Reference hash: the salt in unary, a separator, the password. -/
def refHash (password : String) (_rounds salt : Nat) : String :=
  ⟨List.replicate salt 's' ++ '$' :: password.data⟩

/-- Reference comparison: the part after the salt is the password. -/
def refCompare (password hash : String) : Bool :=
  match hash.data.dropWhile fun c => c = 's' with
  | '$' :: rest => rest = password.data
  | _ => false

/-- Reference extension: from the last dot of the name, if any. -/
def refExtname (p : String) : String :=
  if '.' ∈ p.data then ⟨'.' :: (p.data.reverse.takeWhile fun c => c ≠ '.').reverse⟩ else ""

/-- Reference listing: newest first, then skip and limit. -/
def refFindContents (cs : List Content) (spaceId : ObjectId) (skip limit : Option Int) :
    Option (List Content) :=
  match skip, limit with
  | some s, some l =>
    if s < 0 ∨ l < 0 then none
    else
      let sorted := (cs.filter fun c => c.spaceId = spaceId).insertionSort
        fun a b => b.createdAt ≤ a.createdAt
      some ((sorted.drop s.toNat).take l.toNat)
  | _, _ => none

/-- The reference environment. -/
def refEnv : Env :=
  { JWT_SECRET := "k"
    UPLOAD_DIR := none
    dirname := "/app"
    jwtSign := refSign
    jwtVerify := refVerify
    bcryptHash := refHash
    bcryptCompare := refCompare
    pathJoin := fun a b => a ++ "/" ++ b
    pathExtname := refExtname
    castObjectId := fun s => readNat s.data
    findContents := refFindContents }

/-- A reference ambient: the clock at 1 000 s. -/
def refAmbient : Ambient :=
  { now := 1000000, objectId := 1, viewSalt := 1, adminSalt := 2, random := ["r1", "r2"] }

/-- The empty store. -/
def emptyState : ServerState := { spaces := [], contents := [], files := [] }

/-- A viewer token for space `A`, valid under `refEnv` at `refAmbient.now`. -/
def viewerTokenA : String := "k.4600.viewer.A"

/-- An admin token for space `A`, valid under `refEnv` at `refAmbient.now`. -/
def adminTokenA : String := "k.4600.admin.A"

/-- A delete-content request for space `B` with the admin token of space `A`. -/
def reqCrossSpace : Req :=
  { route := .deleteContent "B" "1", authorization := some "Bearer k.4600.admin.A" }

/-- A delete-content request for space `A` with the viewer token of space `A`. -/
def reqViewerDelete : Req :=
  { route := .deleteContent "A" "1", authorization := some "Bearer k.4600.viewer.A" }

/-- An update request for space `B` with the viewer token of space `A`. -/
def reqViewerCross : Req :=
  { route := .updateContent "B" "1", authorization := some "Bearer k.4600.viewer.A",
    text := some "x" }

/-- A delete-content request for space `A` with the admin token of space `A`. -/
def reqAdminDelete : Req :=
  { route := .deleteContent "A" "1", authorization := some "Bearer k.4600.admin.A" }

/-- A delete-content request without an Authorization header. -/
def reqNoToken : Req := { route := .deleteContent "A" "1" }

/-- A store with one space `A`, one content with an image, and its file. -/
def stateA : ServerState :=
  { spaces := [{ _id := 1, name := "A", viewPasswordHash := "s$viewpass1",
                 adminPasswordHash := "ss$adminpass1", createdAt := 0 }]
    contents := [{ _id := 1, spaceId := 1, text := "hello",
                   images := [{ filename := some "1-r.png", originalName := some "a.png",
                                storedName := some "1-r.png", mimeType := some "image/png",
                                size := some 10 }],
                   createdAt := 5 }]
    files := ["/app/uploads/1-r.png"] }

/-- A creation request `POST /api/spaces` with the three body fields. -/
def createReq (name viewPassword adminPassword : String) : Req :=
  { route := .createSpace, name := some name, viewPassword := some viewPassword,
    adminPassword := some adminPassword }

/-- A login request `POST /api/spaces/:spaceName/login`. -/
def loginReq (spaceName password : String) : Req :=
  { route := .login spaceName, password := some password }

/-- The document a successful creation request stores. -/
def newSpace (env : Env) (amb : Ambient) (name viewPassword adminPassword : String) : Space :=
  { _id := amb.objectId, name := name,
    viewPasswordHash := env.bcryptHash viewPassword 12 amb.viewSalt,
    adminPasswordHash := env.bcryptHash adminPassword 12 amb.adminSalt,
    createdAt := amb.now }

/-- The store after a sequence of requests, each with what it draws from outside. -/
def run (env : Env) : ServerState → List (Ambient × Req) → ServerState
  | st, [] => st
  | st, (amb, req) :: rest => run env (app env amb st req).2 rest

/-- An exists request `GET /api/spaces/:spaceName/exists`. -/
def existsReq (spaceName : String) : Req := { route := .spaceExists spaceName }

/-- Whether the sequence of requests, run from `st`, holds a creation request for
`name` that was answered 201. -/
def createdIn (env : Env) (name : String) : ServerState → List (Ambient × Req) → Bool
  | _, [] => false
  | st, (amb, req) :: rest =>
    (decide (req.route = .createSpace) && decide (req.name = some name)
        && decide ((app env amb st req).1.status = 201))
      || createdIn env name (app env amb st req).2 rest

/-- The name rule in the words of the specification: 3 to 40 characters, each an
ASCII letter, a digit, a hyphen or an underscore. -/
def specNameOk (name : String) : Bool :=
  decide (3 ≤ name.length) && decide (name.length ≤ 40)
    && name.data.all fun c => c.isAlpha || c.isDigit || c = '-' || c = '_'

/-- The header `Authorization: Bearer <token>` the clients send. -/
def bearerHeader (token : String) : String := "Bearer " ++ token

/-- A token in compact serialization: not empty and without a space. -/
def compact (token : String) : Bool := token != "" && !token.data.contains ' '

/-- Modelled from the spec: the behaviour of the `jsonwebtoken` library, which is not
among the sources, on one payload signed at clock `t0` (in ms) with `expiresIn`
seconds. The token encodes the payload with issued-at and expires-at timestamps,
`iat = floor(t0 / 1000)` and `exp = iat + expiresIn`; under the signing secret
`jwt.verify` run at clock `t` returns the payload while `floor(t / 1000) < exp` and
fails from the expiry instant on (exclusive upper bound). -/
def JwtContract (env : Env) (c : Claims) (expiresIn t0 : Nat) : Prop :=
  ∀ t, env.jwtVerify (env.jwtSign c env.JWT_SECRET expiresIn t0) env.JWT_SECRET t
    = if t / 1000 < t0 / 1000 + expiresIn then some c else none

/-- A space stored by a successful creation request: its hashes come from two
passwords of at least 6 code units and its name passed the test of the route. -/
def CreatedBy (env : Env) (sp : Space) : Prop :=
  ∃ amb name v a, sp = newSpace env amb name v a ∧ nameRegexTest name = true
    ∧ 6 ≤ jsLength v ∧ 6 ≤ jsLength a

/-- The response of the name check. -/
def nameRejected : Response :=
  ⟨400, .error "Space name must be 3-40 characters, letters/numbers/-/_ only"⟩

/-! ## Responses: shape of failures -/

/-- The messages of the failure responses written in `server.js`. -/
def failureMessages : List String :=
  ["Access token required", "Invalid or expired token", "Unauthorized for this space",
   "Admin access required", "Space name, view password, and admin password are required",
   "Space name must be 3-40 characters, letters/numbers/-/_ only",
   "View password must be at least 6 characters",
   "Admin password must be at least 6 characters", "Space name already taken",
   "Password is required", "Space not found", "Invalid password", "Content not found",
   "No images uploaded", "File too large. Maximum size is 5MB.",
   "Too many files. Maximum is 6 files.", "Only image files are allowed",
   "Internal server error"]

/-- A response is a success (200 or 201) without an error body, or a failure status
with an error body holding one of the fixed messages, the 500 one on status 500. -/
def wellShaped (r : Response) : Bool :=
  match r.body with
  | .error msg =>
    if r.status = 500 then decide (msg = "Internal server error")
    else decide (r.status ∈ [400, 401, 403, 404, 409]) && decide (msg ∈ failureMessages)
  | _ => decide (r.status = 200 ∨ r.status = 201)

/-- The outcome of a login: the status and the role resolved, if any. -/
def loginOutcome (r : Response) : Nat × Option String :=
  (r.status,
    match r.body with
    | .login _ role => some role
    | _ => none)

/-! ## The browser client (`script.js`, `script_old.js`, `script_old2.js`) -/

/-- The function `validateSpaceName` of `script_old.js`:
`/^[a-zA-Z0-9-_]{3,40}$/.test(name)`. -/
def validateSpaceName (name : String) : Bool :=
  let r := matchClass nameChar 40 name.data
  decide (3 ≤ r.1) && r.2.isEmpty

/-- The checks of `handleGo` of `script.js` on the value of the input field: the
error it shows, or the space name it goes on with. -/
def handleGoName (input : String) : Except String String :=
  let spaceName := jsTrim input
  if spaceName = "" then .error "Please enter a space name"
  else
    let r := matchClass nameChar 40 spaceName.data
    if !(decide (3 ≤ r.1) && r.2.isEmpty) then
      .error "Space name must be 3-40 characters (letters, numbers, hyphens, underscores)"
    else .ok spaceName

/-- The global state of the client, with the messages it has shown, the requests
it has sent and its session storage. -/
structure ClientState where
  currentSpace : Option String
  userToken : Option String
  userRole : Option String
  messages : List (String × String)
  requests : List Req
  session : List (String × String)
deriving DecidableEq, Repr

/-- The call `showMessage(text, type)`. -/
def showMessage (cs : ClientState) (text type : String) : ClientState :=
  { cs with messages := cs.messages ++ [(text, type)] }

/-- The property `response.ok`. -/
def responseOk (r : Response) : Bool := decide (200 ≤ r.status) && decide (r.status ≤ 299)

/-- The field `result.error` of a response body. -/
def resultError (r : Response) : Option String :=
  match r.body with
  | .error msg => some msg
  | _ => none

/-- The field `result.token` of a response body. -/
def resultToken (r : Response) : Option String :=
  match r.body with
  | .created token _ _ _ => some token
  | .login token _ => some token
  | _ => none

/-- The expression `a || b` on a string that may be undefined. -/
def orElse (a : Option String) (b : String) : String :=
  match a with
  | some s => if s = "" then b else s
  | none => b

/-- The text of a value that may be null in a template literal. -/
def templ (a : Option String) : String := a.getD "null"

/-- The function `loadSpace` of `script.js`, `fetch` being the server as the client
sees it (`none` when the call throws). -/
def loadSpace (fetch : Req → Option Response) (cs0 : ClientState) (spaceName : Option String) :
    ClientState :=
  let cs := { cs0 with currentSpace := spaceName }
  let token :=
    if truthy cs.userToken then cs.userToken else cs.session.lookup ("token:" ++ templ spaceName)
  if !truthy token then showMessage cs "Please login to view this space" "error"
  else
    let req : Req :=
      { route := .getSpace (templ spaceName),
        authorization := some ("Bearer " ++ token.getD "") }
    let cs1 := { cs with requests := cs.requests ++ [req] }
    match fetch req with
    | none => showMessage cs1 "Failed to load space" "error"
    | some res =>
      if responseOk res then cs1
      else showMessage cs1 (orElse (resultError res) "Space not found") "error"

/-- The function `handleCreateSpace` of `script.js` and `script_old2.js`, on the
values of the two password fields. -/
def handleCreateSpace (fetch : Req → Option Response) (cs : ClientState)
    (viewPassword adminPassword : String) : ClientState :=
  if jsLength viewPassword < 6 ∨ jsLength adminPassword < 6 then
    showMessage cs "Passwords must be at least 6 characters" "error"
  else if viewPassword = adminPassword then
    showMessage cs "View and Admin passwords should be different" "error"
  else
    let req : Req :=
      { route := .createSpace, name := cs.currentSpace, viewPassword := some viewPassword,
        adminPassword := some adminPassword }
    let cs1 := { cs with requests := cs.requests ++ [req] }
    match fetch req with
    | none => showMessage cs1 "Failed to create space" "error"
    | some res =>
      if responseOk res then
        let cs2 := showMessage cs1 "Space created successfully!" "success"
        let cs3 :=
          { cs2 with
            userToken := resultToken res
            userRole := some "admin"
            session := cs2.session
              ++ [("token:" ++ templ cs2.currentSpace, templ (resultToken res)),
                  ("role:" ++ templ cs2.currentSpace, "admin")] }
        loadSpace fetch cs3 cs3.currentSpace
      else showMessage cs1 (orElse (resultError res) "Failed to create space") "error"

/-- The global replacement `s.replace(/c/g, r)` of one character by a string without
replacement patterns. -/
def replaceAll (c : Char) (r : List Char) (s : List Char) : List Char :=
  s.flatMap fun x => if x = c then r else [x]

/-- The function `escapeHtml` of `script_old.js`: five global replacements in
sequence, the ampersand first. -/
def escapeHtml (unsafeText : String) : String :=
  ⟨replaceAll '\'' "&#039;".data
    (replaceAll '"' "&quot;".data
      (replaceAll '>' "&gt;".data
        (replaceAll '<' "&lt;".data
          (replaceAll '&' "&amp;".data unsafeText.data))))⟩

/-- The entity written for one character, or the character itself. -/
def escapeChar (c : Char) : List Char :=
  if c = '&' then "&amp;".data
  else if c = '<' then "&lt;".data
  else if c = '>' then "&gt;".data
  else if c = '"' then "&quot;".data
  else if c = '\'' then "&#039;".data
  else [c]

/-- Whether one of the five entities, without its ampersand, starts the list. -/
def entityFollows (cs : List Char) : Bool :=
  (dropLeading "amp;".data cs).isSome || (dropLeading "lt;".data cs).isSome
    || (dropLeading "gt;".data cs).isSome || (dropLeading "quot;".data cs).isSome
    || (dropLeading "#039;".data cs).isSome

/-- Whether every ampersand of the list starts one of the five entities. -/
def ampersandsOk : List Char → Bool
  | [] => true
  | c :: cs => (c != '&' || entityFollows cs) && ampersandsOk cs

/-- The character that an entity at the head of the list stands for, and the rest. -/
def readEntity (cs : List Char) : Option (Char × List Char) :=
  match dropLeading "&amp;".data cs with
  | some rest => some ('&', rest)
  | none =>
    match dropLeading "&lt;".data cs with
    | some rest => some ('<', rest)
    | none =>
      match dropLeading "&gt;".data cs with
      | some rest => some ('>', rest)
      | none =>
        match dropLeading "&quot;".data cs with
        | some rest => some ('"', rest)
        | none =>
          match dropLeading "&#039;".data cs with
          | some rest => some ('\'', rest)
          | none => none

/-- The five entities replaced back by their characters, reading from the left, in
at most `n` steps. -/
def unescapeAux : Nat → List Char → List Char
  | 0, _ => []
  | _ + 1, [] => []
  | n + 1, c :: cs =>
    match readEntity (c :: cs) with
    | some (x, rest) => x :: unescapeAux n rest
    | none => c :: unescapeAux n cs

/-- The five entities replaced back by their characters, reading from the left. -/
def unescapeHtml (l : List Char) : List Char := unescapeAux l.length l

/-- The reference environment with `UPLOAD_DIR` set to another directory. -/
def refEnvData : Env := { refEnv with UPLOAD_DIR := some "/data" }

/-- The store `stateA` with one more file on disk, which no content lists. -/
def stateB : ServerState := { stateA with files := stateA.files ++ ["/app/uploads/other.png"] }

/-- A delete-image request on content `1` of space `A` with the admin token. -/
def reqDeleteImage (imageName : String) : Req :=
  { route := .deleteImage "A" "1" imageName, authorization := some "Bearer k.4600.admin.A" }

/-- A client in the new-space form of `demo-space`, nothing sent yet. -/
def clientFresh : ClientState :=
  { currentSpace := some "demo-space", userToken := none, userRole := none, messages := [],
    requests := [], session := [] }

/-- The reference server as the client sees it, on the empty store. -/
def refFetch (req : Req) : Option Response := some (app refEnv refAmbient emptyState req).1

/-- An add-images request on content `1` of space `A` with the admin token and one
PNG file. -/
def reqAddImages : Req :=
  { route := .addImages "A" "1", authorization := some "Bearer k.4600.admin.A",
    uploads := [{ originalname := "b.png", mimetype := "image/png", size := 20 }] }

/-- An add-content request on space `A` with the admin token, a text and one PNG
file. -/
def reqAddContent : Req :=
  { route := .addContent "A", authorization := some "Bearer k.4600.admin.A",
    text := some "two",
    uploads := [{ originalname := "b.png", mimetype := "image/png", size := 20 }] }

/-- A delete-content request on content `2` of space `A` with the admin token. -/
def reqDeleteContent2 : Req :=
  { route := .deleteContent "A" "2", authorization := some "Bearer k.4600.admin.A" }

/-- The reference ambient with another fresh identifier. -/
def refAmbient2 : Ambient := { refAmbient with objectId := 2 }

/-- The image record the add-images route builds from a stored file, after the cast
to the schema. -/
def addedImage (f : StoredFile) : Image :=
  castImage [("originalName", .str f.originalname), ("storedName", .str f.filename),
    ("size", .num f.size), ("mimetype", .str f.mimetype)]

/-- The image record the add-content route builds from a stored file, after the cast
to the schema. -/
def createdImage (f : StoredFile) : Image :=
  castImage [("filename", .str f.filename), ("originalName", .str f.originalname),
    ("storedName", .str f.filename), ("mimeType", .str f.mimetype), ("size", .num f.size)]

/-- A delete-image request on space `A` with the admin token and a `contentId` that
is not an ObjectId. -/
def reqDeleteImageBadId : Req :=
  { route := .deleteImage "A" "not-an-id" "1-r.png",
    authorization := some "Bearer k.4600.admin.A" }

/-- An add-images request on content `1` of space `A` with the admin token and one
PNG file sent in a field named `photo`. -/
def reqUnexpectedField : Req :=
  { route := .addImages "A" "1", authorization := some "Bearer k.4600.admin.A",
    uploads := [{ originalname := "b.png", mimetype := "image/png", size := 20,
                  fieldname := "photo" }] }

/-! ## The gate: lemmas -/

theorem arriving_route (req : Req) : (arriving req).route = req.route := rfl

theorem arriving_authorization (req : Req) :
    (arriving req).authorization = req.authorization := rfl

theorem runChain_two (a b : Req → Except Response Req) (r : Req) :
    runChain [a, b] r = (a r >>= b) := by
  simp only [runChain, bind, Except.bind]
  cases a r with
  | error e => rfl
  | ok r1 =>
    dsimp only
    cases b r1 <;> rfl

theorem runChain_three (a b c : Req → Except Response Req) (r : Req) :
    runChain [a, b, c] r = (a r >>= b >>= c) := by
  simp only [runChain, bind, Except.bind]
  cases a r with
  | error e => rfl
  | ok r1 =>
    dsimp only
    cases b r1 with
    | error e => rfl
    | ok r2 =>
      dsimp only
      cases c r2 <;> rfl

theorem gateOf_mutating (env : Env) (now : Nat) (r : Route) (h : r.mutating = true) :
    gateOf env now r = [authenticateToken env now, authorizeSpace, requireAdmin] := by
  cases r <;> first | rfl | (simp [Route.mutating] at h)

/-- On a route that changes content the gate is the three stages in sequence. -/
theorem gate_mutating (env : Env) (now : Nat) (req : Req) (h : req.route.mutating = true) :
    gate env now req =
      (authenticateToken env now (arriving req) >>= authorizeSpace >>= requireAdmin) := by
  show runChain (gateOf env now req.route) (arriving req) = _
  rw [gateOf_mutating env now req.route h, runChain_three]

/-- On the read route the gate is the first two stages in sequence. -/
theorem gate_getSpace (env : Env) (now : Nat) (req : Req) (s : String)
    (h : req.route = .getSpace s) :
    gate env now req = (authenticateToken env now (arriving req) >>= authorizeSpace) := by
  show runChain (gateOf env now req.route) (arriving req) = _
  rw [h]
  show runChain [authenticateToken env now, authorizeSpace] (arriving req) = _
  rw [runChain_two]

/-- A route is gated exactly when it is the read route or changes content. -/
theorem gated_cases (r : Route) (h : r.gated = true) :
    (∃ s, r = .getSpace s) ∨ r.mutating = true := by
  cases r <;> simp [Route.gated, Route.mutating] at h ⊢

/-- The first stage on a request whose token verifies. -/
theorem authenticateToken_ok (env : Env) (now : Nat) (req : Req) (t : String) (c : Claims)
    (ht : bearerToken req.authorization = some t) (hne : t ≠ "")
    (hv : env.jwtVerify t env.JWT_SECRET now = some c) :
    authenticateToken env now req = .ok { req with tokenPayload := some c } := by
  simp [authenticateToken, ht, hne, hv]

theorem authenticate_arriving (env : Env) (now : Nat) (req : Req) (t : String) (c : Claims)
    (ht : bearerToken req.authorization = some t) (hne : t ≠ "")
    (hv : env.jwtVerify t env.JWT_SECRET now = some c) :
    authenticateToken env now (arriving req) = .ok (passed req c) :=
  authenticateToken_ok env now (arriving req) t c ht hne hv

theorem authenticate_missing (env : Env) (now : Nat) (req : Req)
    (h : bearerToken req.authorization = none ∨ bearerToken req.authorization = some "") :
    authenticateToken env now req = .error ⟨401, .error "Access token required"⟩ := by
  rcases h with h | h <;> simp [authenticateToken, h]

theorem authenticate_invalid (env : Env) (now : Nat) (req : Req) (t : String)
    (ht : bearerToken req.authorization = some t) (hne : t ≠ "")
    (hv : env.jwtVerify t env.JWT_SECRET now = none) :
    authenticateToken env now req = .error ⟨403, .error "Invalid or expired token"⟩ := by
  simp [authenticateToken, ht, hne, hv]

theorem authorizeSpace_mismatch (req : Req) (c : Claims)
    (hm : req.route.spaceName ≠ some c.spaceName) :
    authorizeSpace (passed req c) = .error ⟨403, .error "Unauthorized for this space"⟩ := by
  have h : ¬ some c.spaceName = req.route.spaceName := fun e => hm e.symm
  simp [authorizeSpace, passed, h]

theorem authorizeSpace_match (req : Req) (c : Claims)
    (hs : req.route.spaceName = some c.spaceName) :
    authorizeSpace (passed req c) = .ok (passed req c) := by
  simp [authorizeSpace, passed, hs]

theorem requireAdmin_other (req : Req) (c : Claims) (hr : c.role ≠ "admin") :
    requireAdmin (passed req c) = .error ⟨403, .error "Admin access required"⟩ := by
  simp [requireAdmin, passed, hr]

theorem requireAdmin_admin (req : Req) (c : Claims) (hr : c.role = "admin") :
    requireAdmin (passed req c) = .ok (passed req c) := by
  simp [requireAdmin, passed, hr]

/-- The gate of a gated route: stage 1, then stage 2, then stage 3 where it is
registered. -/
theorem gate_gated (env : Env) (now : Nat) (req : Req) (hg : req.route.gated = true) :
    gate env now req =
      (authenticateToken env now (arriving req) >>= authorizeSpace >>= fun r =>
        if req.route.mutating then requireAdmin r else .ok r) := by
  rcases gated_cases req.route hg with ⟨s, hs⟩ | hm
  · rw [gate_getSpace env now req s hs]
    have : req.route.mutating = false := by rw [hs]; rfl
    simp only [this, bind, Except.bind]
    cases authenticateToken env now (arriving req) with
    | error e => rfl
    | ok r1 =>
      dsimp only
      cases authorizeSpace r1 <;> rfl
  · rw [gate_mutating env now req hm]
    simp [hm]

theorem app_of_gate_error (env : Env) (amb : Ambient) (st : ServerState) (req : Req)
    (res : Response) (h : gate env amb.now req = .error res) :
    app env amb st req = (res, st) := by
  simp [app, h]

theorem app_of_gate_ok (env : Env) (amb : Ambient) (st : ServerState) (req req1 : Req)
    (h : gate env amb.now req = .ok req1) :
    app env amb st req = routeHandler env amb st req1 := by
  simp [app, h]

/-! ## The gate: claims -/

/-- C1: on a gated route, a token that verifies but whose `spaceName` claim differs
from the `spaceName` of the path is answered by `authorizeSpace` with 403
`Unauthorized for this space`, whatever its role, and the handler is not run: the
response of the server is that one and the store is untouched. -/
theorem C1_space_mismatch_rejected (env : Env) (amb : Ambient) (st : ServerState)
    (req : Req) (t : String) (c : Claims)
    (hg : req.route.gated = true)
    (ht : bearerToken req.authorization = some t) (hne : t ≠ "")
    (hv : env.jwtVerify t env.JWT_SECRET amb.now = some c)
    (hm : req.route.spaceName ≠ some c.spaceName) :
    authorizeSpace (passed req c) = .error ⟨403, .error "Unauthorized for this space"⟩
      ∧ gate env amb.now req = .error ⟨403, .error "Unauthorized for this space"⟩
      ∧ app env amb st req = (⟨403, .error "Unauthorized for this space"⟩, st) := by
  have h2 := authorizeSpace_mismatch req c hm
  have hgate : gate env amb.now req
      = .error ⟨403, .error "Unauthorized for this space"⟩ := by
    rw [gate_gated env amb.now req hg, authenticate_arriving env amb.now req t c ht hne hv]
    simp only [bind, Except.bind, h2]
  exact ⟨h2, hgate, app_of_gate_error env amb st req _ hgate⟩

theorem C1_space_mismatch_rejected_witness :
    reqCrossSpace.route.gated = true
      ∧ refEnv.jwtVerify adminTokenA refEnv.JWT_SECRET refAmbient.now = some ⟨"A", "admin"⟩
      ∧ app refEnv refAmbient emptyState reqCrossSpace
          = (⟨403, .error "Unauthorized for this space"⟩, emptyState) :=
  ⟨by decide, by decide,
    (C1_space_mismatch_rejected refEnv refAmbient emptyState reqCrossSpace adminTokenA
      ⟨"A", "admin"⟩ (by decide) (by decide) (by decide) (by decide) (by decide)).2.2⟩

/-- C2: on every route that changes content, a token that verifies, is bound to the
space of the path and has a role other than `admin` (for instance `viewer`) is
answered by `requireAdmin` with 403 `Admin access required`. -/
theorem C2_non_admin_rejected (env : Env) (amb : Ambient) (st : ServerState)
    (req : Req) (t : String) (c : Claims)
    (hmut : req.route.mutating = true)
    (ht : bearerToken req.authorization = some t) (hne : t ≠ "")
    (hv : env.jwtVerify t env.JWT_SECRET amb.now = some c)
    (hs : req.route.spaceName = some c.spaceName)
    (hr : c.role ≠ "admin") :
    requireAdmin (passed req c) = .error ⟨403, .error "Admin access required"⟩
      ∧ gate env amb.now req = .error ⟨403, .error "Admin access required"⟩
      ∧ app env amb st req = (⟨403, .error "Admin access required"⟩, st) := by
  have h3 := requireAdmin_other req c hr
  have hgate : gate env amb.now req = .error ⟨403, .error "Admin access required"⟩ := by
    rw [gate_mutating env amb.now req hmut,
      authenticate_arriving env amb.now req t c ht hne hv]
    simp only [bind, Except.bind, authorizeSpace_match req c hs, h3]
  exact ⟨h3, hgate, app_of_gate_error env amb st req _ hgate⟩

theorem C2_non_admin_rejected_witness :
    reqViewerDelete.route.mutating = true
      ∧ refEnv.jwtVerify viewerTokenA refEnv.JWT_SECRET refAmbient.now = some ⟨"A", "viewer"⟩
      ∧ app refEnv refAmbient emptyState reqViewerDelete
          = (⟨403, .error "Admin access required"⟩, emptyState) :=
  ⟨by decide, by decide,
    (C2_non_admin_rejected refEnv refAmbient emptyState reqViewerDelete viewerTokenA
      ⟨"A", "viewer"⟩ (by decide) (by decide) (by decide) (by decide) (by decide)
      (by decide)).2.2⟩

/-- C3: `authenticateToken` answers 401 `Access token required` when the header
carries no token, 403 `Invalid or expired token` when the token does not verify,
and calls `next()` exactly when the token verifies, with the verified claims
attached to the request; on a gated route a response of this stage is the response
of the gate. -/
theorem C3_authenticate_outcomes (env : Env) (now : Nat) (req : Req) :
    ((bearerToken req.authorization = none ∨ bearerToken req.authorization = some "") →
        authenticateToken env now req = .error ⟨401, .error "Access token required"⟩)
      ∧ (∀ t, bearerToken req.authorization = some t → t ≠ "" →
          env.jwtVerify t env.JWT_SECRET now = none →
          authenticateToken env now req = .error ⟨403, .error "Invalid or expired token"⟩)
      ∧ (∀ req1, authenticateToken env now req = .ok req1 ↔
          ∃ t c, bearerToken req.authorization = some t ∧ t ≠ ""
            ∧ env.jwtVerify t env.JWT_SECRET now = some c
            ∧ req1 = { req with tokenPayload := some c })
      ∧ (req.route.gated = true → ∀ res,
          authenticateToken env now (arriving req) = .error res →
          gate env now req = .error res) := by
  refine ⟨authenticate_missing env now req, authenticate_invalid env now req, ?_, ?_⟩
  · intro req1
    constructor
    · intro h
      unfold authenticateToken at h
      cases hb : bearerToken req.authorization with
      | none => simp [hb] at h
      | some t =>
        by_cases hne : t = ""
        · simp [hb, hne] at h
        · cases hv : env.jwtVerify t env.JWT_SECRET now with
          | none => simp [hb, hne, hv] at h
          | some c =>
            simp [hb, hne, hv] at h
            exact ⟨t, c, rfl, hne, hv, h.symm⟩
    · rintro ⟨t, c, ht, hne, hv, rfl⟩
      exact authenticateToken_ok env now req t c ht hne hv
  · intro hg res h
    rw [gate_gated env now req hg, h]
    rfl

theorem C3_authenticate_outcomes_witness :
    authenticateToken refEnv refAmbient.now reqNoToken
        = .error ⟨401, .error "Access token required"⟩
      ∧ gate refEnv refAmbient.now reqNoToken
        = .error ⟨401, .error "Access token required"⟩ :=
  ⟨(C3_authenticate_outcomes refEnv refAmbient.now reqNoToken).1 (Or.inl (by decide)),
    (C3_authenticate_outcomes refEnv refAmbient.now reqNoToken).2.2.2 (by decide) _ rfl⟩

/-- C4: a request to a route that changes content and that one of the three gate
stages rejects (the first with a response, or the first passes and the second
rejects, or the first two pass and the third rejects) gets that response and leaves
the stored spaces, the stored contents and the files as they were. -/
theorem C4_rejected_request_no_mutation (env : Env) (amb : Ambient) (st : ServerState)
    (req : Req) (res : Response)
    (hmut : req.route.mutating = true)
    (hrej : authenticateToken env amb.now (arriving req) = .error res
      ∨ (∃ r1, authenticateToken env amb.now (arriving req) = .ok r1
          ∧ authorizeSpace r1 = .error res)
      ∨ (∃ r1 r2, authenticateToken env amb.now (arriving req) = .ok r1
          ∧ authorizeSpace r1 = .ok r2 ∧ requireAdmin r2 = .error res)) :
    app env amb st req = (res, st)
      ∧ (app env amb st req).2.spaces = st.spaces
      ∧ (app env amb st req).2.contents = st.contents
      ∧ (app env amb st req).2.files = st.files := by
  have hgate : gate env amb.now req = .error res := by
    rw [gate_mutating env amb.now req hmut]
    rcases hrej with h | ⟨r1, h1, h2⟩ | ⟨r1, r2, h1, h2, h3⟩
    · rw [h]; rfl
    · rw [h1]; simp only [bind, Except.bind, h2]
    · rw [h1]; simp only [bind, Except.bind, h2, h3]
  have happ := app_of_gate_error env amb st req res hgate
  rw [happ]
  exact ⟨rfl, rfl, rfl, rfl⟩

theorem C4_rejected_request_no_mutation_witness :
    reqViewerDelete.route.mutating = true
      ∧ app refEnv refAmbient stateA reqViewerDelete
          = (⟨403, .error "Admin access required"⟩, stateA)
      ∧ (app refEnv refAmbient stateA reqAdminDelete).2 ≠ stateA :=
  ⟨by decide,
    (C4_rejected_request_no_mutation refEnv refAmbient stateA reqViewerDelete
      ⟨403, .error "Admin access required"⟩ (by decide)
      (Or.inr (Or.inr ⟨passed reqViewerDelete ⟨"A", "viewer"⟩,
        passed reqViewerDelete ⟨"A", "viewer"⟩, rfl, rfl, rfl⟩))).1,
    by decide⟩

/-- C5: on a gated route the stages run in the order authenticate, authorize-space,
authorize-role (the last only where it is registered) and the first that fails
gives the response: without a token the answer is 401 whatever the path; a token that
verifies but is bound to another space gets `Unauthorized for this space` whatever
its role, hence never `Admin access required`. -/
theorem C5_stage_order (env : Env) (now : Nat) (req : Req) (hg : req.route.gated = true) :
    gate env now req =
        (authenticateToken env now (arriving req) >>= authorizeSpace >>= fun r =>
          if req.route.mutating then requireAdmin r else .ok r)
      ∧ ((bearerToken req.authorization = none ∨ bearerToken req.authorization = some "") →
          gate env now req = .error ⟨401, .error "Access token required"⟩)
      ∧ (∀ t, bearerToken req.authorization = some t → t ≠ "" →
          env.jwtVerify t env.JWT_SECRET now = none →
          gate env now req = .error ⟨403, .error "Invalid or expired token"⟩)
      ∧ (∀ t c, bearerToken req.authorization = some t → t ≠ "" →
          env.jwtVerify t env.JWT_SECRET now = some c →
          req.route.spaceName ≠ some c.spaceName →
          gate env now req = .error ⟨403, .error "Unauthorized for this space"⟩
            ∧ gate env now req ≠ .error ⟨403, .error "Admin access required"⟩) := by
  have hgate := gate_gated env now req hg
  refine ⟨hgate, ?_, ?_, ?_⟩
  · intro h
    rw [hgate, authenticate_missing env now (arriving req) h]
    rfl
  · intro t ht hne hv
    rw [hgate, authenticate_invalid env now (arriving req) t ht hne hv]
    rfl
  · intro t c ht hne hv hm
    have h : gate env now req = .error ⟨403, .error "Unauthorized for this space"⟩ := by
      rw [hgate, authenticate_arriving env now req t c ht hne hv]
      simp only [bind, Except.bind, authorizeSpace_mismatch req c hm]
    refine ⟨h, ?_⟩
    rw [h]
    intro e
    injection e with e
    injection e with _ e
    injection e with e
    exact absurd e (by decide)

theorem C5_stage_order_witness :
    reqViewerCross.route.gated = true
      ∧ reqViewerCross.route.mutating = true
      ∧ refEnv.jwtVerify viewerTokenA refEnv.JWT_SECRET refAmbient.now = some ⟨"A", "viewer"⟩
      ∧ gate refEnv refAmbient.now reqViewerCross
          = .error ⟨403, .error "Unauthorized for this space"⟩ :=
  ⟨by decide, by decide, by decide,
    ((C5_stage_order refEnv refAmbient.now reqViewerCross (by decide)).2.2.2 viewerTokenA
      ⟨"A", "viewer"⟩ (by decide) (by decide) (by decide) (by decide)).1⟩

/-- C6: a token that verifies and whose `spaceName` is the one of the path passes the
gate of the read route whatever its role (so with `viewer` and with `admin`), and
with role `admin` it passes the gate of every route that changes content; the
handler of the route is then run on the request with the claims attached. -/
theorem C6_bound_token_passes (env : Env) (amb : Ambient) (st : ServerState)
    (req : Req) (t : String) (c : Claims)
    (ht : bearerToken req.authorization = some t) (hne : t ≠ "")
    (hv : env.jwtVerify t env.JWT_SECRET amb.now = some c)
    (hs : req.route.spaceName = some c.spaceName) :
    (∀ s, req.route = .getSpace s →
        gate env amb.now req = .ok (passed req c)
          ∧ app env amb st req = routeHandler env amb st (passed req c))
      ∧ (req.route.mutating = true → c.role = "admin" →
        gate env amb.now req = .ok (passed req c)
          ∧ app env amb st req = routeHandler env amb st (passed req c)) := by
  have h1 := authenticate_arriving env amb.now req t c ht hne hv
  have h2 := authorizeSpace_match req c hs
  constructor
  · intro s hr
    have hgate : gate env amb.now req = .ok (passed req c) := by
      rw [gate_getSpace env amb.now req s hr, h1]
      simp only [bind, Except.bind, h2]
    exact ⟨hgate, app_of_gate_ok env amb st req _ hgate⟩
  · intro hmut hr
    have hgate : gate env amb.now req = .ok (passed req c) := by
      rw [gate_mutating env amb.now req hmut, h1]
      simp only [bind, Except.bind, h2, requireAdmin_admin req c hr]
    exact ⟨hgate, app_of_gate_ok env amb st req _ hgate⟩

theorem C6_bound_token_passes_witness :
    refEnv.jwtVerify adminTokenA refEnv.JWT_SECRET refAmbient.now = some ⟨"A", "admin"⟩
      ∧ gate refEnv refAmbient.now reqAdminDelete
          = .ok (passed reqAdminDelete ⟨"A", "admin"⟩)
      ∧ app refEnv refAmbient stateA reqAdminDelete
          = (⟨200, .message "Content deleted"⟩, { stateA with contents := [], files := [] }) :=
  ⟨by decide,
    ((C6_bound_token_passes refEnv refAmbient stateA reqAdminDelete adminTokenA
      ⟨"A", "admin"⟩ (by decide) (by decide) (by decide) (by decide)).2 (by decide)
      (by decide)).1,
    by decide⟩

/-! ## Names: lemmas -/

theorem nameChar_le (c : Char) (h : nameChar c = true) : c.toNat ≤ 122 := by
  simp only [nameChar, Bool.or_eq_true, Bool.and_eq_true, decide_eq_true_eq] at h
  omega

theorem nameChar_not_space (c : Char) (h : nameChar c = true) : jsIsSpace c = false := by
  have h1 := nameChar_le c h
  simp only [nameChar, Bool.or_eq_true, Bool.and_eq_true, decide_eq_true_eq] at h
  simp only [jsIsSpace, Bool.or_eq_false_iff, Bool.and_eq_false_iff, decide_eq_false_iff_not]
  omega

/-- What the greedy match returns: the matched part is in the class, at most `hi` long,
and the input is the matched part followed by the rest. -/
theorem matchClass_spec (cls : Char → Bool) (hi : Nat) (cs : List Char) :
    (matchClass cls hi cs).1 ≤ hi
      ∧ cs = cs.take (matchClass cls hi cs).1 ++ (matchClass cls hi cs).2
      ∧ (cs.take (matchClass cls hi cs).1).all cls = true
      ∧ (matchClass cls hi cs).1 ≤ cs.length := by
  induction hi generalizing cs with
  | zero => simp [matchClass]
  | succ hi ih =>
    cases cs with
    | nil => simp [matchClass]
    | cons c cs =>
      by_cases hc : cls c = true
      · obtain ⟨h1, h2, h3, h4⟩ := ih cs
        simp only [matchClass, hc, if_true, List.take_succ_cons, List.cons_append,
          List.all_cons, Bool.true_and, List.length_cons]
        exact ⟨by omega, by rw [← h2], h3, by omega⟩
      · simp [matchClass, hc]

theorem nameRegexTest_sound (name : String) (h : nameRegexTest name = true) :
    name.data.all nameChar = true ∧ 3 ≤ name.data.length ∧ name.data.length ≤ 40 := by
  obtain ⟨h1, h2, h3, h4⟩ := matchClass_spec nameChar 40 name.data
  simp only [nameRegexTest, Bool.and_eq_true, decide_eq_true_eq, List.isEmpty_iff] at h
  obtain ⟨h5, h6⟩ := h
  rw [h6, List.append_nil] at h2
  have hlen : name.data.length = (matchClass nameChar 40 name.data).1 := by
    have := congrArg List.length h2
    rw [List.length_take] at this
    omega
  rw [← h2] at h3
  exact ⟨h3, by omega, by omega⟩

theorem jsLength_of_nameChars (l : List Char) (h : l.all nameChar = true) :
    ((l.map fun c => if c.toNat < 0x10000 then 1 else 2).sum) = l.length := by
  induction l with
  | nil => rfl
  | cons c cs ih =>
    simp only [List.all_cons, Bool.and_eq_true] at h
    have := nameChar_le c h.1
    have hc : c.toNat < 0x10000 := by omega
    simp only [List.map_cons, List.sum_cons, hc, if_true, List.length_cons, ih h.2]
    omega

theorem dropWhile_of_head (p : Char → Bool) (l : List Char)
    (h : ∀ c, l.head? = some c → p c = false) : l.dropWhile p = l := by
  cases l with
  | nil => rfl
  | cons c cs => simp [List.dropWhile, h c rfl]

theorem jsTrim_of_nameChars (name : String) (h : name.data.all nameChar = true) :
    jsTrim name = name := by
  have hall : ∀ c ∈ name.data, jsIsSpace c = false := fun c hc =>
    nameChar_not_space c (List.all_eq_true.mp h c hc)
  have h1 : name.data.dropWhile jsIsSpace = name.data :=
    dropWhile_of_head _ _ fun c hc => hall c (List.mem_of_mem_head? hc)
  have h2 : name.data.reverse.dropWhile jsIsSpace = name.data.reverse :=
    dropWhile_of_head _ _ fun c hc =>
      hall c (List.mem_reverse.mp (List.mem_of_mem_head? hc))
  simp only [jsTrim, h1, h2, List.reverse_reverse]

theorem jsLength_of_name (name : String) (h : name.data.all nameChar = true) :
    jsLength name = name.data.length :=
  jsLength_of_nameChars name.data h

theorem ne_empty_of_jsLength (p : String) (h : 6 ≤ jsLength p) : p ≠ "" := by
  rintro rfl
  simp [jsLength] at h

theorem ne_empty_of_nameRegexTest (name : String) (h : nameRegexTest name = true) :
    name ≠ "" := by
  rintro rfl
  simp [nameRegexTest, matchClass] at h

/-! ## Creation and login: lemmas -/

theorem app_createSpace (env : Env) (amb : Ambient) (st : ServerState) (req : Req)
    (h : req.route = .createSpace) :
    app env amb st req = createSpaceHandler env amb st (arriving req) := by
  have hg : gate env amb.now req = .ok (arriving req) := by
    show runChain (gateOf env amb.now req.route) (arriving req) = _
    rw [h]; rfl
  rw [app_of_gate_ok env amb st req _ hg]
  have hr : (arriving req).route = .createSpace := h
  simp only [routeHandler, hr]

theorem app_login (env : Env) (amb : Ambient) (st : ServerState) (req : Req) (sn : String)
    (h : req.route = .login sn) :
    app env amb st req = loginHandler env amb st (arriving req) sn := by
  have hg : gate env amb.now req = .ok (arriving req) := by
    show runChain (gateOf env amb.now req.route) (arriving req) = _
    rw [h]; rfl
  rw [app_of_gate_ok env amb st req _ hg]
  have hr : (arriving req).route = .login sn := h
  simp only [routeHandler, hr]

/-- A creation request that passes validation for a free name is stored and
answered 201. -/
theorem createSpaceHandler_ok (env : Env) (amb : Ambient) (st : ServerState) (req : Req)
    (name v a : String)
    (hn : req.name = some name) (hv : req.viewPassword = some v)
    (ha : req.adminPassword = some a)
    (hname : nameRegexTest name = true) (hvl : 6 ≤ jsLength v) (hal : 6 ≤ jsLength a)
    (hfree : findSpace st name = none)
    (hh : ∀ q r s, env.bcryptHash q r s ≠ "") :
    createSpaceHandler env amb st req
      = (⟨201, .created (createToken env amb.now name "admin") name amb.objectId amb.now⟩,
         { st with spaces := st.spaces ++ [newSpace env amb name v a] }) := by
  obtain ⟨hall, h3, h40⟩ := nameRegexTest_sound name hname
  have hne := ne_empty_of_nameRegexTest name hname
  have hvne := ne_empty_of_jsLength v hvl
  have hane := ne_empty_of_jsLength a hal
  have htrim := jsTrim_of_nameChars name hall
  have hlen := jsLength_of_name name hall
  have hsave : saveSpace st (newSpace env amb name v a)
      = some { st with spaces := st.spaces ++ [newSpace env amb name v a] } := by
    have hvalid : spaceValid (newSpace env amb name v a) = true := by
      simp only [spaceValid, newSpace, Bool.and_eq_true, bne_iff_ne, ne_eq, decide_eq_true_eq,
        hlen]
      exact ⟨⟨⟨⟨⟨hne, h3⟩, h40⟩, hall⟩, hh _ _ _⟩, hh _ _ _⟩
    have hfree2 : findSpace st (newSpace env amb name v a).name = none := hfree
    simp [saveSpace, hvalid, hfree2]
  have hnotlt_v : ¬ jsLength v < 6 := by omega
  have hnotlt_a : ¬ jsLength a < 6 := by omega
  have hsave2 := hsave
  unfold newSpace at hsave2
  unfold createSpaceHandler
  simp [hn, hv, ha, truthy, hne, hvne, hane, hname, hnotlt_v, hnotlt_a, hfree, htrim, hsave2,
    newSpace]

/-- The outcomes of the creation handler: either the store is unchanged and the
status is not 201, or the request passed every check and its space was appended. -/
theorem createSpaceHandler_cases (env : Env) (amb : Ambient) (st : ServerState) (req : Req) :
    ((createSpaceHandler env amb st req).2 = st
        ∧ (createSpaceHandler env amb st req).1.status ≠ 201)
      ∨ ∃ name v a, req.name = some name ∧ req.viewPassword = some v
          ∧ req.adminPassword = some a ∧ nameRegexTest name = true
          ∧ 6 ≤ jsLength v ∧ 6 ≤ jsLength a ∧ findSpace st name = none
          ∧ createSpaceHandler env amb st req
            = (⟨201, .created (createToken env amb.now name "admin") name amb.objectId
                  amb.now⟩,
               { st with spaces := st.spaces ++ [newSpace env amb name v a] }) := by
  cases hn : req.name with
  | none => left; simp [createSpaceHandler, hn, truthy]
  | some name =>
    cases hv : req.viewPassword with
    | none => left; simp [createSpaceHandler, hn, hv, truthy]
    | some v =>
      cases ha : req.adminPassword with
      | none => left; simp [createSpaceHandler, hn, hv, ha, truthy]
      | some a =>
        by_cases hne : name = ""
        · left; simp [createSpaceHandler, hn, hv, ha, truthy, hne]
        by_cases hvne : v = ""
        · left; simp [createSpaceHandler, hn, hv, ha, truthy, hvne]
        by_cases hane : a = ""
        · left; simp [createSpaceHandler, hn, hv, ha, truthy, hane]
        by_cases hname : nameRegexTest name = true
        swap
        · left; simp [createSpaceHandler, hn, hv, ha, truthy, hne, hvne, hane, hname]
        by_cases hvl : jsLength v < 6
        · left; simp [createSpaceHandler, hn, hv, ha, truthy, hne, hvne, hane, hname, hvl]
        by_cases hal : jsLength a < 6
        · left
          simp [createSpaceHandler, hn, hv, ha, truthy, hne, hvne, hane, hname, hvl, hal]
        cases hf : findSpace st name with
        | some sp =>
          left
          simp [createSpaceHandler, hn, hv, ha, truthy, hne, hvne, hane, hname, hvl, hal, hf]
        | none =>
          cases hs : saveSpace st (newSpace env amb name v a) with
          | none =>
            left
            have htrim := jsTrim_of_nameChars name (nameRegexTest_sound name hname).1
            unfold newSpace at hs
            simp [createSpaceHandler, hn, hv, ha, truthy, hne, hvne, hane, hname, hvl, hal,
              hf, htrim, hs, internalError]
          | some st1 =>
            right
            refine ⟨name, v, a, rfl, rfl, rfl, hname, by omega, by omega, hf, ?_⟩
            have hst1 : st1 = { st with spaces := st.spaces ++ [newSpace env amb name v a] } := by
              unfold saveSpace at hs
              split at hs
              · exact (Option.some.inj hs).symm
              · exact absurd hs (by simp)
            have htrim := jsTrim_of_nameChars name (nameRegexTest_sound name hname).1
            rw [hst1] at hs
            unfold newSpace at hs
            simp [createSpaceHandler, hn, hv, ha, truthy, hne, hvne, hane, hname, hvl, hal,
              hf, htrim, hs, newSpace]

/-- A creation request that passes validation for a name already stored is
answered 409 and stores nothing. -/
theorem createSpaceHandler_conflict (env : Env) (amb : Ambient) (st : ServerState)
    (req : Req) (name v a : String) (sp : Space)
    (hn : req.name = some name) (hv : req.viewPassword = some v)
    (ha : req.adminPassword = some a)
    (hname : nameRegexTest name = true) (hvl : 6 ≤ jsLength v) (hal : 6 ≤ jsLength a)
    (hex : findSpace st name = some sp) :
    createSpaceHandler env amb st req = (⟨409, .error "Space name already taken"⟩, st) := by
  have hne := ne_empty_of_nameRegexTest name hname
  have hvne := ne_empty_of_jsLength v hvl
  have hane := ne_empty_of_jsLength a hal
  have hnotlt_v : ¬ jsLength v < 6 := by omega
  have hnotlt_a : ¬ jsLength a < 6 := by omega
  simp [createSpaceHandler, hn, hv, ha, truthy, hne, hvne, hane, hname, hnotlt_v, hnotlt_a,
    hex]

/-! ## The stored spaces: lemmas -/

theorem uploadArray_spaces (env : Env) (amb : Ambient) (st st1 : ServerState) (req req1 : Req)
    (h : uploadArray env amb st req = .ok (req1, st1)) : st1.spaces = st.spaces := by
  unfold uploadArray at h
  split at h
  · exact absurd h (by simp)
  · injection h with h
    injection h with _ h
    rw [← h]

theorem getSpaceHandler_state (env : Env) (st : ServerState) (req : Req) (s : String) :
    (getSpaceHandler env st req s).2 = st := by
  unfold getSpaceHandler
  repeat (first | rfl | split | dsimp only)

theorem loginHandler_state (env : Env) (amb : Ambient) (st : ServerState) (req : Req)
    (s : String) : (loginHandler env amb st req s).2 = st := by
  unfold loginHandler
  repeat (first | rfl | split | dsimp only)

theorem addContentHandler_spaces (amb : Ambient) (st : ServerState) (req : Req) (s : String) :
    (addContentHandler amb st req s).2.spaces = st.spaces := by
  unfold addContentHandler
  repeat (first | rfl | split | dsimp only)

theorem updateContentHandler_spaces (env : Env) (st : ServerState) (req : Req)
    (s c : String) : (updateContentHandler env st req s c).2.spaces = st.spaces := by
  unfold updateContentHandler
  repeat (first | rfl | split | dsimp only)

theorem deleteContentHandler_spaces (env : Env) (st : ServerState) (s c : String) :
    (deleteContentHandler env st s c).2.spaces = st.spaces := by
  unfold deleteContentHandler
  repeat (first | rfl | split | dsimp only)

theorem addImagesHandler_spaces (env : Env) (st : ServerState) (req : Req) (s c : String) :
    (addImagesHandler env st req s c).2.spaces = st.spaces := by
  unfold addImagesHandler
  repeat (first | rfl | split | dsimp only)

theorem deleteImageHandler_spaces (env : Env) (st : ServerState) (s c i : String) :
    (deleteImageHandler env st s c i).2.spaces = st.spaces := by
  unfold deleteImageHandler
  repeat (first | rfl | split | dsimp only)

/-- A request leaves the stored spaces as they are, or appends the space of a
successful creation, whose name was free. -/
theorem app_spaces (env : Env) (amb : Ambient) (st : ServerState) (req : Req) :
    (app env amb st req).2.spaces = st.spaces
      ∨ ∃ name v a, findSpace st name = none
          ∧ (app env amb st req).2.spaces = st.spaces ++ [newSpace env amb name v a] := by
  unfold app
  cases hg : gate env amb.now req with
  | error res => left; rfl
  | ok req1 =>
    dsimp only
    unfold routeHandler
    split
    · rcases createSpaceHandler_cases env amb st req1 with ⟨h, _⟩ | ⟨n, v, a, _, _, _, _, _, _, hf, h⟩
      · left; rw [h]
      · right; exact ⟨n, v, a, hf, by rw [h]⟩
    · left; rfl
    · left; rw [loginHandler_state]
    · left; rw [getSpaceHandler_state]
    · left
      cases hu : uploadArray env amb st req1 with
      | error e => rfl
      | ok r =>
        obtain ⟨req2, st1⟩ := r
        dsimp only
        rw [addContentHandler_spaces, uploadArray_spaces env amb st st1 req1 req2 hu]
    · left; exact updateContentHandler_spaces env st req1 _ _
    · left; exact deleteContentHandler_spaces env st _ _
    · left
      cases hu : uploadArray env amb st req1 with
      | error e => rfl
      | ok r =>
        obtain ⟨req2, st1⟩ := r
        dsimp only
        rw [addImagesHandler_spaces, uploadArray_spaces env amb st st1 req1 req2 hu]
    · left; exact deleteImageHandler_spaces env st _ _ _

/-- A stored space stays the answer of `Space.findOne` after any request. -/
theorem findSpace_app (env : Env) (amb : Ambient) (st : ServerState) (req : Req)
    (name : String) (sp : Space) (h : findSpace st name = some sp) :
    findSpace (app env amb st req).2 name = some sp := by
  unfold findSpace at h ⊢
  rcases app_spaces env amb st req with hs | ⟨n, v, a, _, hs⟩
  · rw [hs, h]
  · rw [hs, List.find?_append, h]; rfl

/-- A stored space stays the answer of `Space.findOne` after any sequence of requests. -/
theorem findSpace_run (env : Env) (reqs : List (Ambient × Req)) (st : ServerState)
    (name : String) (sp : Space) (h : findSpace st name = some sp) :
    findSpace (run env st reqs) name = some sp := by
  induction reqs generalizing st with
  | nil => exact h
  | cons r rest ih =>
    obtain ⟨amb, req⟩ := r
    exact ih _ (findSpace_app env amb st req name sp h)

theorem findSpace_created (env : Env) (amb : Ambient) (st : ServerState) (name v a : String)
    (h : findSpace st name = none) :
    findSpace { st with spaces := st.spaces ++ [newSpace env amb name v a] } name
      = some (newSpace env amb name v a) := by
  unfold findSpace at h ⊢
  simp only [List.find?_append, h, Option.none_or]
  simp [newSpace]

/-- The login handler on a stored space and a non-empty password. -/
theorem loginHandler_found (env : Env) (amb : Ambient) (st : ServerState) (req : Req)
    (sn p : String) (space : Space)
    (hp : req.password = some p) (hne : p ≠ "") (hf : findSpace st sn = some space) :
    loginHandler env amb st req sn =
      if env.bcryptCompare p space.adminPasswordHash = true then
        (⟨200, .login (createToken env amb.now sn "admin") "admin"⟩, st)
      else if env.bcryptCompare p space.viewPasswordHash = true then
        (⟨200, .login (createToken env amb.now sn "viewer") "viewer"⟩, st)
      else (⟨401, .error "Invalid password"⟩, st) := by
  simp [loginHandler, hp, truthy, hne, hf]

/-! ## The reference environment: lemmas -/

theorem dropWhile_salt (n : Nat) (rest : List Char) :
    (List.replicate n 's' ++ '$' :: rest).dropWhile (fun c => decide (c = 's'))
      = '$' :: rest := by
  induction n with
  | zero => simp [List.dropWhile]
  | succ n ih => simp [List.replicate_succ, List.dropWhile, ih]

theorem refCompare_refHash (p : String) (r s : Nat) :
    refCompare p (refHash p r s) = true := by
  simp [refCompare, refHash, dropWhile_salt]

theorem refHash_ne_empty (p : String) (r s : Nat) : refHash p r s ≠ "" := by
  intro h
  have := congrArg String.data h
  simp [refHash] at this

/-! ## Creation and login: claims -/

/-- C7: on a stored space and a non-empty password, login compares with the admin
hash first: a match answers 200 with role `admin`, also when the view hash would
match too; otherwise a match with the view hash answers 200 with role `viewer`;
otherwise the answer is 401 `Invalid password`, without a token. The token is signed
over the space name of the path and the resolved role, for one hour. -/
theorem C7_login_role_resolution (env : Env) (amb : Ambient) (st : ServerState) (req : Req)
    (sn p : String) (space : Space)
    (hr : req.route = .login sn) (hp : req.password = some p) (hne : p ≠ "")
    (hf : findSpace st sn = some space) :
    (env.bcryptCompare p space.adminPasswordHash = true →
        app env amb st req
          = (⟨200, .login (env.jwtSign ⟨sn, "admin"⟩ env.JWT_SECRET 3600 amb.now) "admin"⟩, st))
      ∧ (env.bcryptCompare p space.adminPasswordHash = false →
          env.bcryptCompare p space.viewPasswordHash = true →
          app env amb st req
            = (⟨200, .login (env.jwtSign ⟨sn, "viewer"⟩ env.JWT_SECRET 3600 amb.now) "viewer"⟩,
               st))
      ∧ (env.bcryptCompare p space.adminPasswordHash = false →
          env.bcryptCompare p space.viewPasswordHash = false →
          app env amb st req = (⟨401, .error "Invalid password"⟩, st)) := by
  have h := loginHandler_found env amb st (arriving req) sn p space hp hne hf
  rw [← app_login env amb st req sn hr] at h
  refine ⟨fun ha => ?_, fun ha hv => ?_, fun ha hv => ?_⟩
  · rw [h, if_pos ha]; rfl
  · rw [h, if_neg (by simp [ha]), if_pos hv]; rfl
  · rw [h, if_neg (by simp [ha]), if_neg (by simp [hv])]

theorem C7_login_role_resolution_witness :
    findSpace stateA "A" ≠ none
      ∧ app refEnv refAmbient stateA (loginReq "A" "adminpass1")
          = (⟨200, .login "k.4600.admin.A" "admin"⟩, stateA)
      ∧ app refEnv refAmbient stateA (loginReq "A" "viewpass1")
          = (⟨200, .login "k.4600.viewer.A" "viewer"⟩, stateA)
      ∧ app refEnv refAmbient stateA (loginReq "A" "viewpass")
          = (⟨401, .error "Invalid password"⟩, stateA) :=
  ⟨by decide,
    (C7_login_role_resolution refEnv refAmbient stateA (loginReq "A" "adminpass1") "A"
      "adminpass1" _ rfl rfl (by decide) rfl).1 (by decide),
    (C7_login_role_resolution refEnv refAmbient stateA (loginReq "A" "viewpass1") "A"
      "viewpass1" _ rfl rfl (by decide) rfl).2.1 (by decide) (by decide),
    (C7_login_role_resolution refEnv refAmbient stateA (loginReq "A" "viewpass") "A"
      "viewpass" _ rfl rfl (by decide) rfl).2.2 (by decide) (by decide)⟩

/-- A successful creation followed by a login, when the hash library is exact (a
string matches a hash exactly when it is the hashed password): the admin password
resolves `admin`, the view password resolves `viewer` unless it is the admin
password too, every other non-empty string is answered 401. -/
theorem login_after_create_distinct (env : Env) (amb1 amb2 : Ambient) (st : ServerState)
    (name v a q : String)
    (hexact : ∀ x y r s, env.bcryptCompare x (env.bcryptHash y r s) = true ↔ x = y)
    (hh : ∀ x r s, env.bcryptHash x r s ≠ "")
    (hname : nameRegexTest name = true) (hvl : 6 ≤ jsLength v) (hal : 6 ≤ jsLength a)
    (hfree : findSpace st name = none) (hq : q ≠ "") :
    (app env amb2 (app env amb1 st (createReq name v a)).2 (loginReq name q)).1 =
      if q = a then ⟨200, .login (createToken env amb2.now name "admin") "admin"⟩
      else if q = v then ⟨200, .login (createToken env amb2.now name "viewer") "viewer"⟩
      else ⟨401, .error "Invalid password"⟩ := by
  have hc := createSpaceHandler_ok env amb1 st (arriving (createReq name v a)) name v a
    rfl rfl rfl hname hvl hal hfree hh
  rw [app_createSpace env amb1 st _ rfl, hc]
  rw [app_login env amb2 _ (loginReq name q) name rfl,
    loginHandler_found env amb2 _ (arriving (loginReq name q)) name q _ rfl hq
      (findSpace_created env amb1 st name v a hfree)]
  by_cases h1 : q = a
  · have : env.bcryptCompare q (newSpace env amb1 name v a).adminPasswordHash = true :=
      (hexact _ _ _ _).2 h1
    rw [if_pos this, if_pos h1]
  · have hna : ¬ env.bcryptCompare q (newSpace env amb1 name v a).adminPasswordHash = true :=
      fun h => h1 ((hexact _ _ _ _).1 h)
    rw [if_neg hna, if_neg h1]
    by_cases h2 : q = v
    · have : env.bcryptCompare q (newSpace env amb1 name v a).viewPasswordHash = true :=
        (hexact _ _ _ _).2 h2
      rw [if_pos this, if_pos h2]
    · have hnv : ¬ env.bcryptCompare q (newSpace env amb1 name v a).viewPasswordHash = true :=
        fun h => h2 ((hexact _ _ _ _).1 h)
      rw [if_neg hnv, if_neg h2]

/-- C8 (the code where the claim fails): a creation request whose view password and
admin password are the same string of at least 6 code units succeeds for a valid free
name, and a login with exactly that view password then resolves role `admin`, not
`viewer`; this for every hash library in which a password matches its own hash. -/
theorem C8_view_password_resolves_admin (env : Env) (amb1 amb2 : Ambient) (st : ServerState)
    (name p : String)
    (hcorrect : ∀ x r s, env.bcryptCompare x (env.bcryptHash x r s) = true)
    (hh : ∀ x r s, env.bcryptHash x r s ≠ "")
    (hname : nameRegexTest name = true) (hp : 6 ≤ jsLength p)
    (hfree : findSpace st name = none) :
    (app env amb1 st (createReq name p p)).1.status = 201
      ∧ (app env amb2 (app env amb1 st (createReq name p p)).2 (loginReq name p)).1
          = ⟨200, .login (createToken env amb2.now name "admin") "admin"⟩ := by
  have hc := createSpaceHandler_ok env amb1 st (arriving (createReq name p p)) name p p
    rfl rfl rfl hname hp hp hfree hh
  rw [app_createSpace env amb1 st _ rfl, hc]
  refine ⟨rfl, ?_⟩
  rw [app_login env amb2 _ (loginReq name p) name rfl,
    loginHandler_found env amb2 _ (arriving (loginReq name p)) name p _ rfl
      (ne_empty_of_jsLength p hp) (findSpace_created env amb1 st name p p hfree)]
  have : env.bcryptCompare p (newSpace env amb1 name p p).adminPasswordHash = true :=
    hcorrect _ _ _
  rw [if_pos this]

theorem C8_view_password_resolves_admin_witness :
    (app refEnv refAmbient emptyState (createReq "demo-space" "samepass1" "samepass1")).1.status
        = 201
      ∧ (app refEnv refAmbient
          (app refEnv refAmbient emptyState (createReq "demo-space" "samepass1" "samepass1")).2
          (loginReq "demo-space" "samepass1")).1
          = ⟨200, .login "k.4600.admin.demo-space" "admin"⟩ :=
  C8_view_password_resolves_admin refEnv refAmbient refAmbient emptyState "demo-space"
    "samepass1" refCompare_refHash refHash_ne_empty (by decide) (by decide) (by decide)

/-- C9 (the code where the claim fails): a creation request whose `viewPassword` and
`adminPassword` are the same string of at least 6 code units, for a valid free name,
is answered 201 and its space is stored, both hashes made from that one string. -/
theorem C9_equal_passwords_accepted (env : Env) (amb : Ambient) (st : ServerState)
    (name p : String)
    (hh : ∀ x r s, env.bcryptHash x r s ≠ "")
    (hname : nameRegexTest name = true) (hp : 6 ≤ jsLength p)
    (hfree : findSpace st name = none) :
    app env amb st (createReq name p p)
      = (⟨201, .created (createToken env amb.now name "admin") name amb.objectId amb.now⟩,
         { st with spaces := st.spaces ++
            [{ _id := amb.objectId, name := name,
               viewPasswordHash := env.bcryptHash p 12 amb.viewSalt,
               adminPasswordHash := env.bcryptHash p 12 amb.adminSalt,
               createdAt := amb.now }] }) := by
  rw [app_createSpace env amb st _ rfl,
    createSpaceHandler_ok env amb st (arriving (createReq name p p)) name p p
      rfl rfl rfl hname hp hp hfree hh]
  rfl

theorem C9_equal_passwords_accepted_witness :
    app refEnv refAmbient emptyState (createReq "demo-space" "samepass1" "samepass1")
      = (⟨201, .created "k.4600.admin.demo-space" "demo-space" 1 1000000⟩,
         { emptyState with spaces :=
            [{ _id := 1, name := "demo-space", viewPasswordHash := "s$samepass1",
               adminPasswordHash := "ss$samepass1", createdAt := 1000000 }] }) :=
  C9_equal_passwords_accepted refEnv refAmbient emptyState "demo-space" "samepass1"
    refHash_ne_empty (by decide) (by decide) (by decide)

/-- C10 (the claim as stated fails): after `demo-space` has been created, a second
creation request with that name and a view password of 3 characters is answered 400
`View password must be at least 6 characters`, not 409. -/
theorem C10_short_password_not_conflict :
    (app refEnv refAmbient emptyState (createReq "demo-space" "viewpass1" "adminpass1")).1.status
        = 201
      ∧ findSpace
          (app refEnv refAmbient emptyState (createReq "demo-space" "viewpass1" "adminpass1")).2
          "demo-space" ≠ none
      ∧ (app refEnv refAmbient
          (app refEnv refAmbient emptyState (createReq "demo-space" "viewpass1" "adminpass1")).2
          (createReq "demo-space" "abc" "adminpass1")).1
          = ⟨400, .error "View password must be at least 6 characters"⟩ := by
  decide

/-- C10 (amended): once a creation request for a name has succeeded, and whatever
requests came in between, a creation request with that name whose two passwords
have at least 6 code units each is answered 409 `Space name already taken` and
leaves the store unchanged, whatever those two passwords are. -/
theorem C10_second_creation_conflict (env : Env) (amb1 amb2 : Ambient) (st0 : ServerState)
    (reqs : List (Ambient × Req)) (name v1 a1 v2 a2 : String)
    (hfirst : (app env amb1 st0 (createReq name v1 a1)).1.status = 201)
    (hv : 6 ≤ jsLength v2) (ha : 6 ≤ jsLength a2) :
    app env amb2 (run env (app env amb1 st0 (createReq name v1 a1)).2 reqs)
        (createReq name v2 a2)
      = (⟨409, .error "Space name already taken"⟩,
         run env (app env amb1 st0 (createReq name v1 a1)).2 reqs) := by
  rw [app_createSpace env amb1 st0 _ rfl] at hfirst ⊢
  rcases createSpaceHandler_cases env amb1 st0 (arriving (createReq name v1 a1)) with
    ⟨_, hne⟩ | ⟨n, v, a, hn, _, _, hname, _, _, hfree, hc⟩
  · exact absurd hfirst hne
  · have hnn : name = n := Option.some.inj hn
    subst hnn
    rw [hc]
    have hfound := findSpace_run env reqs _ name _ (findSpace_created env amb1 st0 name v a hfree)
    rw [app_createSpace env amb2 _ _ rfl]
    exact createSpaceHandler_conflict env amb2 _ (arriving (createReq name v2 a2)) name v2 a2 _
      rfl rfl rfl hname hv ha hfound

theorem C10_second_creation_conflict_witness :
    (app refEnv refAmbient emptyState (createReq "demo-space" "viewpass1" "adminpass1")).1.status
        = 201
      ∧ app refEnv refAmbient
          (run refEnv
            (app refEnv refAmbient emptyState (createReq "demo-space" "viewpass1" "adminpass1")).2
            [(refAmbient, loginReq "demo-space" "viewpass1")])
          (createReq "demo-space" "otherpass" "otherpass")
        = (⟨409, .error "Space name already taken"⟩,
           run refEnv
            (app refEnv refAmbient emptyState (createReq "demo-space" "viewpass1" "adminpass1")).2
            [(refAmbient, loginReq "demo-space" "viewpass1")]) :=
  ⟨by decide,
    C10_second_creation_conflict refEnv refAmbient refAmbient emptyState
      [(refAmbient, loginReq "demo-space" "viewpass1")] "demo-space" "viewpass1" "adminpass1"
      "otherpass" "otherpass" (by decide) (by decide) (by decide)⟩

/-! ## One request: what it does to the stored spaces -/

theorem authenticateToken_ok_inv (env : Env) (now : Nat) (req req1 : Req)
    (h : authenticateToken env now req = .ok req1) :
    ∃ c, req1 = { req with tokenPayload := some c } := by
  unfold authenticateToken at h
  cases hb : bearerToken req.authorization with
  | none => simp [hb] at h
  | some t =>
    by_cases hne : t = ""
    · simp [hb, hne] at h
    · cases hv : env.jwtVerify t env.JWT_SECRET now with
      | none => simp [hb, hne, hv] at h
      | some c =>
        simp [hb, hne, hv] at h
        exact ⟨c, h.symm⟩

theorem authorizeSpace_ok_inv (req req1 : Req) (h : authorizeSpace req = .ok req1) :
    req1 = req := by
  unfold authorizeSpace at h
  split at h
  · exact absurd h (by simp)
  · split at h
    · exact absurd h (by simp)
    · exact (Except.ok.inj h).symm

theorem requireAdmin_ok_inv (req req1 : Req) (h : requireAdmin req = .ok req1) :
    req1 = req := by
  unfold requireAdmin at h
  split at h
  · exact absurd h (by simp)
  · split at h
    · exact absurd h (by simp)
    · exact (Except.ok.inj h).symm

theorem runChain_route (ms : List (Req → Except Response Req))
    (hms : ∀ m ∈ ms, ∀ r r1, m r = .ok r1 → r1.route = r.route)
    (req req1 : Req) (h : runChain ms req = .ok req1) : req1.route = req.route := by
  induction ms generalizing req with
  | nil =>
    simp only [runChain] at h
    rw [← Except.ok.inj h]
  | cons m ms ih =>
    simp only [runChain] at h
    cases hm : m req with
    | error e => simp [hm] at h
    | ok r1 =>
      simp only [hm] at h
      rw [ih (fun m1 h1 => hms m1 (List.mem_cons_of_mem _ h1)) r1 h,
        hms m (List.mem_cons_self _ _) req r1 hm]

theorem stage_route (env : Env) (now : Nat) (r : Route) :
    ∀ m ∈ gateOf env now r, ∀ q q1, m q = .ok q1 → q1.route = q.route := by
  have h1 : ∀ q q1, authenticateToken env now q = .ok q1 → q1.route = q.route := by
    intro q q1 h
    obtain ⟨c, hc⟩ := authenticateToken_ok_inv env now q q1 h
    rw [hc]
  have h2 : ∀ q q1, authorizeSpace q = .ok q1 → q1.route = q.route := by
    intro q q1 h
    rw [authorizeSpace_ok_inv q q1 h]
  have h3 : ∀ q q1, requireAdmin q = .ok q1 → q1.route = q.route := by
    intro q q1 h
    rw [requireAdmin_ok_inv q q1 h]
  intro m hm
  cases r <;> simp only [gateOf, List.mem_cons, List.mem_singleton, List.not_mem_nil,
    or_false] at hm
  all_goals
    rcases hm with rfl | rfl | rfl <;> assumption

/-- The request a handler receives is for the route that was asked. -/
theorem gate_ok_route (env : Env) (now : Nat) (req req1 : Req)
    (h : gate env now req = .ok req1) : req1.route = req.route :=
  runChain_route _ (stage_route env now req.route) (arriving req) req1 h

/-- A request to another route than the creation route leaves the stored spaces
as they are. -/
theorem app_spaces_of_not_create (env : Env) (amb : Ambient) (st : ServerState) (req : Req)
    (hr : req.route ≠ .createSpace) : (app env amb st req).2.spaces = st.spaces := by
  unfold app
  cases hg : gate env amb.now req with
  | error res => rfl
  | ok req1 =>
    have hroute := gate_ok_route env amb.now req req1 hg
    dsimp only
    unfold routeHandler
    split
    · rename_i h
      exact absurd (hroute ▸ h) hr
    · rfl
    · rw [loginHandler_state]
    · rw [getSpaceHandler_state]
    · cases hu : uploadArray env amb st req1 with
      | error e => rfl
      | ok r =>
        obtain ⟨req2, st1⟩ := r
        dsimp only
        rw [addContentHandler_spaces, uploadArray_spaces env amb st st1 req1 req2 hu]
    · exact updateContentHandler_spaces env st req1 _ _
    · exact deleteContentHandler_spaces env st _ _
    · cases hu : uploadArray env amb st req1 with
      | error e => rfl
      | ok r =>
        obtain ⟨req2, st1⟩ := r
        dsimp only
        rw [addImagesHandler_spaces, uploadArray_spaces env amb st st1 req1 req2 hu]
    · exact deleteImageHandler_spaces env st _ _ _

/-- One request, seen from the stored spaces: either the whole list is unchanged
and the request is not a creation answered 201, or the request is a creation
that passed every check, is answered 201, and its space is appended. -/
theorem app_step_cases (env : Env) (amb : Ambient) (st : ServerState) (req : Req) :
    ((app env amb st req).2.spaces = st.spaces
        ∧ ¬ (req.route = .createSpace ∧ (app env amb st req).1.status = 201))
      ∨ (req.route = .createSpace ∧ ∃ name v a, req.name = some name
          ∧ req.viewPassword = some v ∧ req.adminPassword = some a
          ∧ nameRegexTest name = true ∧ 6 ≤ jsLength v ∧ 6 ≤ jsLength a
          ∧ findSpace st name = none
          ∧ app env amb st req
            = (⟨201, .created (createToken env amb.now name "admin") name amb.objectId
                  amb.now⟩,
               { st with spaces := st.spaces ++ [newSpace env amb name v a] })) := by
  by_cases hr : req.route = .createSpace
  · rw [app_createSpace env amb st req hr]
    rcases createSpaceHandler_cases env amb st (arriving req) with
      ⟨h1, h2⟩ | ⟨n, v, a, hn, hv, ha, hname, hvl, hal, hf, hc⟩
    · left; exact ⟨by rw [h1], fun h => h2 h.2⟩
    · right; exact ⟨hr, n, v, a, hn, hv, ha, hname, hvl, hal, hf, hc⟩
  · left
    exact ⟨app_spaces_of_not_create env amb st req hr, fun h => hr h.1⟩

/-! ## Existence of a space -/

theorem app_exists (env : Env) (amb : Ambient) (st : ServerState) (name : String) :
    app env amb st (existsReq name)
      = (⟨200, .spaceExists (findSpace st name).isSome⟩, st) := rfl

theorem findSpace_append_other (st : ServerState) (sp : Space) (name : String)
    (h : sp.name ≠ name) :
    findSpace { st with spaces := st.spaces ++ [sp] } name = findSpace st name := by
  unfold findSpace
  simp only [List.find?_append]
  cases st.spaces.find? fun s => decide (s.name = name) with
  | some x => rfl
  | none => simp [h]

/-- After one request a name is stored exactly when it was stored before or the
request is a creation for that name answered 201. -/
theorem findSpace_step (env : Env) (amb : Ambient) (st : ServerState) (req : Req)
    (name : String) :
    (findSpace (app env amb st req).2 name).isSome
      = ((findSpace st name).isSome
          || (decide (req.route = .createSpace) && decide (req.name = some name)
              && decide ((app env amb st req).1.status = 201))) := by
  rcases app_step_cases env amb st req with
    ⟨hs, hn⟩ | ⟨hr, n, v, a, hname, _, _, _, _, _, hf, hc⟩
  · have h1 : findSpace (app env amb st req).2 name = findSpace st name := by
      unfold findSpace; rw [hs]
    have h2 : (decide (req.route = .createSpace) && decide (req.name = some name)
        && decide ((app env amb st req).1.status = 201)) = false := by
      by_cases hr : req.route = .createSpace
      · have : ¬ (app env amb st req).1.status = 201 := fun h => hn ⟨hr, h⟩
        simp [this]
      · simp [hr]
    rw [h1, h2, Bool.or_false]
  · rw [hc]
    by_cases hnn : n = name
    · subst hnn
      rw [findSpace_created env amb st n v a hf]
      simp [hr, hname]
    · have hsp : (newSpace env amb n v a).name ≠ name := hnn
      rw [findSpace_append_other st _ name hsp]
      have : ¬ req.name = some name := by
        rw [hname]; intro h; exact hnn (Option.some.inj h)
      simp [this]

/-- After a sequence of requests a name is stored exactly when it was stored before
or one of them is a creation for that name answered 201. -/
theorem findSpace_run_isSome (env : Env) (reqs : List (Ambient × Req)) (st : ServerState)
    (name : String) :
    (findSpace (run env st reqs) name).isSome
      = ((findSpace st name).isSome || createdIn env name st reqs) := by
  induction reqs generalizing st with
  | nil => simp [run, createdIn]
  | cons r rest ih =>
    obtain ⟨amb, req⟩ := r
    simp only [run, createdIn]
    rw [ih, findSpace_step, Bool.or_assoc]

/-- C11: starting from a store without the name, after any sequence of requests
`GET /api/spaces/:name/exists` answers `exists: true` when one of the requests was a
creation for that name answered 201, and `exists: false` when none was. -/
theorem C11_exists_iff_created (env : Env) (amb : Ambient) (st0 : ServerState)
    (reqs : List (Ambient × Req)) (name : String) (h0 : findSpace st0 name = none) :
    app env amb (run env st0 reqs) (existsReq name)
      = (⟨200, .spaceExists (createdIn env name st0 reqs)⟩, run env st0 reqs) := by
  rw [app_exists, findSpace_run_isSome, h0]
  simp

theorem C11_exists_iff_created_witness :
    app refEnv refAmbient
        (run refEnv emptyState
          [(refAmbient, createReq "demo-space" "viewpass1" "adminpass1"),
           (refAmbient, loginReq "demo-space" "viewpass1")])
        (existsReq "demo-space")
      = (⟨200, .spaceExists true⟩,
         run refEnv emptyState
          [(refAmbient, createReq "demo-space" "viewpass1" "adminpass1"),
           (refAmbient, loginReq "demo-space" "viewpass1")])
    ∧ (app refEnv refAmbient
        (run refEnv emptyState
          [(refAmbient, createReq "demo-space" "viewpass1" "adminpass1")])
        (existsReq "ghost")).1 = ⟨200, .spaceExists false⟩ :=
  ⟨C11_exists_iff_created refEnv refAmbient emptyState
      [(refAmbient, createReq "demo-space" "viewpass1" "adminpass1"),
       (refAmbient, loginReq "demo-space" "viewpass1")] "demo-space" (by decide),
    by decide⟩

/-! ## Issued tokens -/

theorem jsSplit_nosep (sep : Char) (l : List Char) (h : sep ∉ l) : jsSplit sep l = [l] := by
  induction l with
  | nil => rfl
  | cons c cs ih =>
    have hc : c ≠ sep := fun e => h (e ▸ List.mem_cons_self _ _)
    have hcs : sep ∉ cs := fun e => h (List.mem_cons_of_mem _ e)
    simp [jsSplit, hc, ih hcs]

theorem bearerToken_bearerHeader (tok : String) (h : compact tok = true) :
    bearerToken (some (bearerHeader tok)) = some tok := by
  simp only [compact, Bool.and_eq_true, bne_iff_ne, ne_eq, Bool.not_eq_true',
    List.contains_eq_any_beq, List.any_eq_false, beq_iff_eq] at h
  have hns : ' ' ∉ tok.data := fun hm => h.2 _ hm rfl
  have hd : (bearerHeader tok).data = 'B' :: 'e' :: 'a' :: 'r' :: 'e' :: 'r' :: ' ' :: tok.data := by
    simp [bearerHeader, String.data_append]
  have hne : bearerHeader tok ≠ "" := by
    intro e
    have := congrArg String.data e
    rw [hd] at this
    simp at this
  simp [bearerToken, hne, hd, jsSplit, jsSplit_nosep ' ' tok.data hns]

/-- A token minted for `(s, r)` and presented as bearer credential while it is valid
passes the first stage with exactly those claims. -/
theorem authenticate_minted (env : Env) (now t : Nat) (s r : String) (req : Req)
    (hjwt : JwtContract env ⟨s, r⟩ 3600 now)
    (hc : compact (createToken env now s r) = true)
    (ha : req.authorization = some (bearerHeader (createToken env now s r)))
    (ht : t / 1000 < now / 1000 + 3600) :
    authenticateToken env t req = .ok { req with tokenPayload := some ⟨s, r⟩ } := by
  have hb : bearerToken req.authorization = some (createToken env now s r) := by
    rw [ha]; exact bearerToken_bearerHeader _ hc
  have hne : createToken env now s r ≠ "" := by
    simp only [compact, Bool.and_eq_true, bne_iff_ne, ne_eq] at hc
    exact hc.1
  have hv : env.jwtVerify (createToken env now s r) env.JWT_SECRET t = some ⟨s, r⟩ := by
    have := hjwt t
    rw [if_pos ht] at this
    exact this
  exact authenticateToken_ok env t req _ _ hb hne hv

theorem filter_name_of_findSpace_none (st : ServerState) (name : String)
    (h : findSpace st name = none) :
    (st.spaces.filter fun s => decide (s.name = name)) = [] := by
  unfold findSpace at h
  rw [List.find?_eq_none] at h
  rw [List.filter_eq_nil_iff]
  exact h

/-! ## Creation: claims -/

/-- C12: a creation request with a name that passes the test and is not stored, and
two passwords of at least 6 code units, is answered 201 with a token signed over
`spaceName` = that name and `role` = `admin`; it stores exactly one new space with
that name and nothing else; and that token, sent as bearer credential within the
hour, passes the three gate stages of every content route of the new space. -/
theorem C12_creation_issues_admin_token (env : Env) (amb : Ambient) (st : ServerState)
    (req : Req) (name v a : String)
    (hr : req.route = .createSpace) (hn : req.name = some name)
    (hv : req.viewPassword = some v) (ha : req.adminPassword = some a)
    (hname : nameRegexTest name = true) (hfree : findSpace st name = none)
    (hvl : 6 ≤ jsLength v) (hal : 6 ≤ jsLength a)
    (hh : ∀ x r s, env.bcryptHash x r s ≠ "")
    (hjwt : JwtContract env ⟨name, "admin"⟩ 3600 amb.now)
    (hc : compact (createToken env amb.now name "admin") = true) :
    (app env amb st req).1
        = ⟨201, .created (env.jwtSign ⟨name, "admin"⟩ env.JWT_SECRET 3600 amb.now) name
            amb.objectId amb.now⟩
      ∧ (app env amb st req).2
          = { st with spaces := st.spaces ++ [newSpace env amb name v a] }
      ∧ ((app env amb st req).2.spaces.filter fun s => decide (s.name = name))
          = [newSpace env amb name v a]
      ∧ ∀ (amb2 : Ambient) (req2 : Req), amb2.now / 1000 < amb.now / 1000 + 3600 →
          req2.route.mutating = true → req2.route.spaceName = some name →
          req2.authorization = some (bearerHeader (createToken env amb.now name "admin")) →
          authenticateToken env amb2.now (arriving req2) = .ok (passed req2 ⟨name, "admin"⟩)
            ∧ authorizeSpace (passed req2 ⟨name, "admin"⟩)
                = .ok (passed req2 ⟨name, "admin"⟩)
            ∧ requireAdmin (passed req2 ⟨name, "admin"⟩)
                = .ok (passed req2 ⟨name, "admin"⟩)
            ∧ gate env amb2.now req2 = .ok (passed req2 ⟨name, "admin"⟩) := by
  have hcr : app env amb st req
      = (⟨201, .created (createToken env amb.now name "admin") name amb.objectId amb.now⟩,
         { st with spaces := st.spaces ++ [newSpace env amb name v a] }) := by
    rw [app_createSpace env amb st req hr]
    exact createSpaceHandler_ok env amb st (arriving req) name v a hn hv ha hname hvl hal
      hfree hh
  refine ⟨by rw [hcr]; rfl, by rw [hcr], ?_, ?_⟩
  · rw [hcr]
    show ((st.spaces ++ [newSpace env amb name v a]).filter fun s => decide (s.name = name))
      = _
    rw [List.filter_append, filter_name_of_findSpace_none st name hfree]
    simp [newSpace]
  · intro amb2 req2 ht hmut hs hauth
    have h1 : authenticateToken env amb2.now (arriving req2)
        = .ok (passed req2 ⟨name, "admin"⟩) :=
      authenticate_minted env amb.now amb2.now name "admin" (arriving req2) hjwt hc hauth ht
    have h2 := authorizeSpace_match req2 ⟨name, "admin"⟩ hs
    have h3 := requireAdmin_admin req2 ⟨name, "admin"⟩ rfl
    refine ⟨h1, h2, h3, ?_⟩
    rw [gate_mutating env amb2.now req2 hmut, h1]
    simp only [bind, Except.bind, h2, h3]

theorem C12_creation_issues_admin_token_witness :
    app refEnv refAmbient emptyState (createReq "demo-space" "viewpass1" "adminpass1")
        = (⟨201, .created "k.4600.admin.demo-space" "demo-space" 1 1000000⟩,
           { emptyState with spaces :=
              [{ _id := 1, name := "demo-space", viewPasswordHash := "s$viewpass1",
                 adminPasswordHash := "ss$adminpass1", createdAt := 1000000 }] })
      ∧ gate refEnv refAmbient.now
          { route := .addContent "demo-space",
            authorization := some "Bearer k.4600.admin.demo-space" }
        = .ok (passed { route := .addContent "demo-space",
                        authorization := some "Bearer k.4600.admin.demo-space" }
                ⟨"demo-space", "admin"⟩) :=
  ⟨Prod.ext
      (C12_creation_issues_admin_token refEnv refAmbient emptyState
        (createReq "demo-space" "viewpass1" "adminpass1") "demo-space" "viewpass1" "adminpass1"
        rfl rfl rfl rfl (by decide) (by decide) (by decide) (by decide) refHash_ne_empty
        (fun _ => rfl) (by decide)).1
      (C12_creation_issues_admin_token refEnv refAmbient emptyState
        (createReq "demo-space" "viewpass1" "adminpass1") "demo-space" "viewpass1" "adminpass1"
        rfl rfl rfl rfl (by decide) (by decide) (by decide) (by decide) refHash_ne_empty
        (fun _ => rfl) (by decide)).2.1,
    ((C12_creation_issues_admin_token refEnv refAmbient emptyState
        (createReq "demo-space" "viewpass1" "adminpass1") "demo-space" "viewpass1" "adminpass1"
        rfl rfl rfl rfl (by decide) (by decide) (by decide) (by decide) refHash_ne_empty
        (fun _ => rfl) (by decide)).2.2.2 refAmbient
        { route := .addContent "demo-space",
          authorization := some "Bearer k.4600.admin.demo-space" }
        (by decide) (by decide) (by decide) rfl).2.2.2⟩

/-! ## The name rule -/

theorem char_eq_iff_toNat (c d : Char) : c = d ↔ c.toNat = d.toNat := by
  constructor
  · rintro rfl; rfl
  · intro h
    apply Char.ext
    apply UInt32.ext
    exact h

theorem nameChar_eq (c : Char) :
    nameChar c = (c.isAlpha || c.isDigit || c = '-' || c = '_') := by
  have h1 : (c = '-') ↔ c.toNat = 45 := char_eq_iff_toNat c '-'
  have h2 : (c = '_') ↔ c.toNat = 95 := char_eq_iff_toNat c '_'
  simp only [nameChar, Char.isAlpha, Char.isUpper, Char.isLower, Char.isDigit, ge_iff_le,
    UInt32.le_def, BitVec.le_def, h1, h2]
  have e : c.val.toBitVec.toNat = c.toNat := rfl
  have k1 : (UInt32.toBitVec 65).toNat = 65 := rfl
  have k2 : (UInt32.toBitVec 90).toNat = 90 := rfl
  have k3 : (UInt32.toBitVec 97).toNat = 97 := rfl
  have k4 : (UInt32.toBitVec 122).toNat = 122 := rfl
  have k5 : (UInt32.toBitVec 48).toNat = 48 := rfl
  have k6 : (UInt32.toBitVec 57).toNat = 57 := rfl
  simp only [e, k1, k2, k3, k4, k5, k6]
  rw [Bool.eq_iff_iff]
  simp only [Bool.or_eq_true, Bool.and_eq_true, decide_eq_true_eq]
  omega

theorem matchClass_complete (cls : Char → Bool) (hi : Nat) (cs : List Char)
    (hall : cs.all cls = true) (hlen : cs.length ≤ hi) :
    matchClass cls hi cs = (cs.length, []) := by
  induction hi generalizing cs with
  | zero =>
    have : cs = [] := List.length_eq_zero.mp (Nat.le_zero.mp hlen)
    subst this
    rfl
  | succ hi ih =>
    cases cs with
    | nil => rfl
    | cons c cs =>
      simp only [List.all_cons, Bool.and_eq_true] at hall
      simp only [List.length_cons] at hlen
      simp [matchClass, hall.1, ih cs hall.2 (by omega)]

/-- The test of the route accepts exactly the names the specification describes. -/
theorem nameRegexTest_eq_spec (name : String) : nameRegexTest name = specNameOk name := by
  have hf : nameChar = fun c => c.isAlpha || c.isDigit || decide (c = '-') || decide (c = '_') :=
    funext nameChar_eq
  rw [Bool.eq_iff_iff]
  constructor
  · intro h
    obtain ⟨hall, h3, h40⟩ := nameRegexTest_sound name h
    rw [hf] at hall
    simp only [specNameOk, String.length, Bool.and_eq_true, decide_eq_true_eq]
    exact ⟨⟨h3, h40⟩, hall⟩
  · intro h
    simp only [specNameOk, String.length, Bool.and_eq_true, decide_eq_true_eq] at h
    obtain ⟨⟨h3, h40⟩, hall⟩ := h
    rw [← hf] at hall
    simp only [nameRegexTest, matchClass_complete nameChar 40 name.data hall h40,
      List.isEmpty_nil, Bool.and_true, decide_eq_true_eq]
    exact h3

/-- C13 (the claim as stated fails): the non-empty name `ab` fails the rule, and a
creation request with that name and no passwords is answered 400 `Space name, view
password, and admin password are required`, not the message of the name check. -/
theorem C13_missing_password_other_message :
    specNameOk "ab" = false
      ∧ app refEnv refAmbient emptyState { route := .createSpace, name := some "ab" }
          = (⟨400, .error "Space name, view password, and admin password are required"⟩,
             emptyState)
      ∧ (app refEnv refAmbient emptyState { route := .createSpace, name := some "ab" }).1
          ≠ nameRejected := by
  decide

/-- C13 (amended): the test of the creation route accepts a name exactly when it has
3 to 40 characters, each an ASCII letter, a digit, a hyphen or an underscore. A
request with a non-empty name that fails the rule is answered 400 and stores nothing;
when its two passwords are present and non-empty the answer is the 400 of the name
check (`nameRejected`); a name that meets the rule is never answered with that
message. -/
theorem C13_name_rule (env : Env) (amb : Ambient) (st : ServerState) (req : Req)
    (name : String) (hr : req.route = .createSpace) (hn : req.name = some name)
    (hne : name ≠ "") :
    nameRegexTest name = specNameOk name
      ∧ (specNameOk name = false →
          (app env amb st req).1.status = 400 ∧ (app env amb st req).2 = st)
      ∧ (specNameOk name = false → truthy req.viewPassword = true →
          truthy req.adminPassword = true → app env amb st req = (nameRejected, st))
      ∧ (specNameOk name = true → (app env amb st req).1 ≠ nameRejected) := by
  have heq := nameRegexTest_eq_spec name
  rw [app_createSpace env amb st req hr]
  have hn2 : (arriving req).name = some name := hn
  refine ⟨heq, ?_, ?_, ?_⟩
  · intro hbad
    rw [← heq] at hbad
    unfold createSpaceHandler
    split
    · exact ⟨rfl, rfl⟩
    · simp [hn2, hbad]
  · intro hbad hv ha
    rw [← heq] at hbad
    have hv2 : truthy (arriving req).viewPassword = true := hv
    have ha2 : truthy (arriving req).adminPassword = true := ha
    have hnt : truthy (some name) = true := by simp [truthy, hne]
    simp [createSpaceHandler, hn2, hnt, hv2, ha2, hbad, nameRejected]
  · intro hok
    rw [← heq] at hok
    rcases createSpaceHandler_cases env amb st (arriving req) with
      ⟨_, _⟩ | ⟨_, _, _, _, _, _, _, _, _, _, hc⟩
    · unfold createSpaceHandler
      simp only [hn2, Option.getD_some, hok, Bool.not_true, Bool.false_eq_true, if_false]
      repeat' split
      all_goals simp [nameRejected, internalError]
    · rw [hc]
      simp [nameRejected]

theorem C13_name_rule_witness :
    specNameOk "a b" = false
      ∧ app refEnv refAmbient emptyState (createReq "a b" "viewpass1" "adminpass1")
          = (nameRejected, emptyState)
      ∧ specNameOk "demo-space_1" = true
      ∧ (app refEnv refAmbient emptyState (createReq "demo-space_1" "viewpass1" "adminpass1")).1
          ≠ nameRejected :=
  ⟨by decide,
    (C13_name_rule refEnv refAmbient emptyState (createReq "a b" "viewpass1" "adminpass1")
      "a b" rfl rfl (by decide)).2.2.1 (by decide) (by decide) (by decide),
    by decide,
    (C13_name_rule refEnv refAmbient emptyState
      (createReq "demo-space_1" "viewpass1" "adminpass1") "demo-space_1" rfl rfl
      (by decide)).2.2.2 (by decide)⟩

/-- A creation request with a missing, empty or short password is answered 400 and
stores nothing. -/
theorem createSpaceHandler_short (env : Env) (amb : Ambient) (st : ServerState) (req : Req)
    (h : (∀ v, req.viewPassword = some v → jsLength v < 6)
      ∨ (∀ a, req.adminPassword = some a → jsLength a < 6)) :
    (createSpaceHandler env amb st req).1.status = 400
      ∧ (createSpaceHandler env amb st req).2 = st := by
  cases hn : req.name with
  | none => simp [createSpaceHandler, hn, truthy]
  | some name =>
    cases hv : req.viewPassword with
    | none => simp [createSpaceHandler, hn, hv, truthy]
    | some v =>
      cases ha : req.adminPassword with
      | none => simp [createSpaceHandler, hn, hv, ha, truthy]
      | some a =>
        by_cases hne : name = ""
        · simp [createSpaceHandler, hn, hv, ha, truthy, hne]
        by_cases hvne : v = ""
        · simp [createSpaceHandler, hn, hv, ha, truthy, hvne]
        by_cases hane : a = ""
        · simp [createSpaceHandler, hn, hv, ha, truthy, hane]
        by_cases hname : nameRegexTest name = true
        swap
        · simp [createSpaceHandler, hn, hv, ha, truthy, hne, hvne, hane, hname]
        by_cases hvl : jsLength v < 6
        · simp [createSpaceHandler, hn, hv, ha, truthy, hne, hvne, hane, hname, hvl]
        by_cases hal : jsLength a < 6
        · simp [createSpaceHandler, hn, hv, ha, truthy, hne, hvne, hane, hname, hvl, hal]
        rcases h with h | h
        · exact absurd (h v hv) hvl
        · exact absurd (h a ha) hal

/-- One request keeps the stored spaces and adds at most a space made by a
successful creation. -/
theorem mem_spaces_step (env : Env) (amb : Ambient) (st : ServerState) (req : Req)
    (sp : Space) (h : sp ∈ (app env amb st req).2.spaces) :
    sp ∈ st.spaces ∨ CreatedBy env sp := by
  rcases app_step_cases env amb st req with
    ⟨hs, _⟩ | ⟨_, n, v, a, _, _, _, hname, hvl, hal, _, hc⟩
  · left; rw [← hs]; exact h
  · rw [hc] at h
    rcases List.mem_append.mp h with h | h
    · left; exact h
    · right
      exact ⟨amb, n, v, a, List.mem_singleton.mp h, hname, hvl, hal⟩

theorem mem_spaces_run (env : Env) (reqs : List (Ambient × Req)) (st : ServerState)
    (sp : Space) (h : sp ∈ (run env st reqs).spaces) :
    sp ∈ st.spaces ∨ CreatedBy env sp := by
  induction reqs generalizing st with
  | nil => left; exact h
  | cons r rest ih =>
    obtain ⟨amb, req⟩ := r
    rcases ih _ h with h1 | h1
    · exact mem_spaces_step env amb st req sp h1
    · right; exact h1

/-- C14: a creation request whose `viewPassword` or `adminPassword` is missing, empty
or shorter than 6 code units is answered 400 and stores nothing; hence every space
that any sequence of requests adds to the store was made by a creation request
whose two passwords have at least 6 code units each. -/
theorem C14_short_password_rejected (env : Env) (amb : Ambient) (st : ServerState)
    (req : Req) (hr : req.route = .createSpace) :
    ((∀ v, req.viewPassword = some v → jsLength v < 6)
        ∨ (∀ a, req.adminPassword = some a → jsLength a < 6) →
        (app env amb st req).1.status = 400 ∧ (app env amb st req).2 = st)
      ∧ ∀ (reqs : List (Ambient × Req)) (sp : Space), sp ∈ (run env st reqs).spaces →
          sp ∈ st.spaces
            ∨ ∃ amb1 name v a, sp = newSpace env amb1 name v a
                ∧ 6 ≤ jsLength v ∧ 6 ≤ jsLength a := by
  constructor
  · intro h
    rw [app_createSpace env amb st req hr]
    exact createSpaceHandler_short env amb st (arriving req) h
  · intro reqs sp h
    rcases mem_spaces_run env reqs st sp h with h1 | ⟨amb1, n, v, a, he, _, hvl, hal⟩
    · left; exact h1
    · right; exact ⟨amb1, n, v, a, he, hvl, hal⟩

theorem C14_short_password_rejected_witness :
    (app refEnv refAmbient emptyState (createReq "demo-space" "viewpass1" "admin")).1.status
        = 400
      ∧ (app refEnv refAmbient emptyState (createReq "demo-space" "viewpass1" "admin")).2
        = emptyState
      ∧ (app refEnv refAmbient emptyState
          { route := .createSpace, name := some "demo-space",
            adminPassword := some "adminpass1" }).1.status = 400 :=
  ⟨((C14_short_password_rejected refEnv refAmbient emptyState
      (createReq "demo-space" "viewpass1" "admin") rfl).1
      (Or.inr fun a h => by
        have : a = "admin" := (Option.some.inj h).symm
        subst this
        decide)).1,
    ((C14_short_password_rejected refEnv refAmbient emptyState
      (createReq "demo-space" "viewpass1" "admin") rfl).1
      (Or.inr fun a h => by
        have : a = "admin" := (Option.some.inj h).symm
        subst this
        decide)).2,
    by decide⟩

/-! ## Login: claims -/

/-- C15: a login request whose password is missing or the empty string is answered
400 `Password is required` and changes nothing; no token is in the answer, and the
answer is the same whatever `bcrypt.compare` would return. -/
theorem C15_empty_password_rejected (env : Env) (amb : Ambient) (st : ServerState)
    (req : Req) (sn : String) (hr : req.route = .login sn)
    (hp : req.password = none ∨ req.password = some "") :
    app env amb st req = (⟨400, .error "Password is required"⟩, st)
      ∧ ∀ f : String → String → Bool,
          app { env with bcryptCompare := f } amb st req
            = (⟨400, .error "Password is required"⟩, st) := by
  have key : ∀ e : Env, app e amb st req = (⟨400, .error "Password is required"⟩, st) := by
    intro e
    rw [app_login e amb st req sn hr]
    have hp2 : (arriving req).password = none ∨ (arriving req).password = some "" := hp
    rcases hp2 with h | h <;> simp [loginHandler, h, truthy]
  exact ⟨key env, fun f => key _⟩

theorem C15_empty_password_rejected_witness :
    app refEnv refAmbient stateA (loginReq "A" "")
        = (⟨400, .error "Password is required"⟩, stateA)
      ∧ app refEnv refAmbient stateA { route := .login "A" }
        = (⟨400, .error "Password is required"⟩, stateA) :=
  ⟨(C15_empty_password_rejected refEnv refAmbient stateA (loginReq "A" "") "A" rfl
      (Or.inr rfl)).1,
    (C15_empty_password_rejected refEnv refAmbient stateA { route := .login "A" } "A" rfl
      (Or.inl rfl)).1⟩

/-- C16 (the claim as stated fails): a login request for a name under which no space
is stored and without a password is answered 400 `Password is required`, not 404. -/
theorem C16_missing_password_not_404 :
    findSpace emptyState "ghost" = none
      ∧ app refEnv refAmbient emptyState { route := .login "ghost" }
          = (⟨400, .error "Password is required"⟩, emptyState)
      ∧ app refEnv refAmbient emptyState (loginReq "ghost" "")
          = (⟨400, .error "Password is required"⟩, emptyState) := by
  decide

/-- C16 (amended): a login request for a name under which no space is stored is
answered 404 `Space not found`, whatever its non-empty password is; the answer
carries no token and the store is unchanged. -/
theorem C16_unknown_space_not_found (env : Env) (amb : Ambient) (st : ServerState)
    (req : Req) (sn p : String) (hr : req.route = .login sn)
    (hp : req.password = some p) (hne : p ≠ "") (hf : findSpace st sn = none) :
    app env amb st req = (⟨404, .error "Space not found"⟩, st) := by
  rw [app_login env amb st req sn hr]
  have hp2 : (arriving req).password = some p := hp
  simp [loginHandler, hp2, truthy, hne, hf, spaceNotFound]

theorem C16_unknown_space_not_found_witness :
    findSpace stateA "ghost" = none
      ∧ app refEnv refAmbient stateA (loginReq "ghost" "adminpass1")
          = (⟨404, .error "Space not found"⟩, stateA) :=
  ⟨by decide,
    C16_unknown_space_not_found refEnv refAmbient stateA (loginReq "ghost" "adminpass1")
      "ghost" "adminpass1" rfl rfl (by decide) (by decide)⟩

/-! ## Token lifetime and round trip: claims -/

theorem authenticate_expired (env : Env) (now t : Nat) (s r : String) (req : Req)
    (hjwt : JwtContract env ⟨s, r⟩ 3600 now)
    (hc : compact (createToken env now s r) = true)
    (ha : req.authorization = some (bearerHeader (createToken env now s r)))
    (ht : ¬ t / 1000 < now / 1000 + 3600) :
    authenticateToken env t req = .error ⟨403, .error "Invalid or expired token"⟩ := by
  have hb : bearerToken req.authorization = some (createToken env now s r) := by
    rw [ha]; exact bearerToken_bearerHeader _ hc
  have hne : createToken env now s r ≠ "" := by
    simp only [compact, Bool.and_eq_true, bne_iff_ne, ne_eq] at hc
    exact hc.1
  have hv : env.jwtVerify (createToken env now s r) env.JWT_SECRET t = none := by
    have := hjwt t
    rw [if_neg ht] at this
    exact this
  exact authenticate_invalid env t req _ hb hne hv

/-- C17: a token minted by `createToken` at clock `now` (its `iat` is
`floor(now / 1000)` seconds) is signed with a validity of 3600 seconds: presented as
bearer credential at a clock `t` (in ms) before `(iat + 3600) * 1000` it is accepted
by `authenticateToken`, at that instant and at every later one it is answered 403
`Invalid or expired token`. -/
theorem C17_token_expires_after_one_hour (env : Env) (now t : Nat) (s r : String) (req : Req)
    (hjwt : JwtContract env ⟨s, r⟩ 3600 now)
    (hc : compact (createToken env now s r) = true)
    (ha : req.authorization = some (bearerHeader (createToken env now s r))) :
    createToken env now s r = env.jwtSign ⟨s, r⟩ env.JWT_SECRET 3600 now
      ∧ (t < (now / 1000 + 3600) * 1000 →
          authenticateToken env t req = .ok { req with tokenPayload := some ⟨s, r⟩ })
      ∧ ((now / 1000 + 3600) * 1000 ≤ t →
          authenticateToken env t req = .error ⟨403, .error "Invalid or expired token"⟩) := by
  refine ⟨rfl, fun h => ?_, fun h => ?_⟩
  · have ht : t / 1000 < now / 1000 + 3600 :=
      (Nat.div_lt_iff_lt_mul (by decide)).2 h
    exact authenticate_minted env now t s r req hjwt hc ha ht
  · have ht : ¬ t / 1000 < now / 1000 + 3600 := by
      intro h1
      have := (Nat.div_lt_iff_lt_mul (by decide : 0 < 1000)).1 h1
      omega
    exact authenticate_expired env now t s r req hjwt hc ha ht

theorem C17_token_expires_after_one_hour_witness :
    createToken refEnv 1000000 "A" "viewer" = "k.4600.viewer.A"
      ∧ authenticateToken refEnv 4599999 reqViewerDelete
          = .ok { reqViewerDelete with tokenPayload := some ⟨"A", "viewer"⟩ }
      ∧ authenticateToken refEnv 4600000 reqViewerDelete
          = .error ⟨403, .error "Invalid or expired token"⟩
      ∧ authenticateToken refEnv 9000000 reqViewerDelete
          = .error ⟨403, .error "Invalid or expired token"⟩ :=
  ⟨by decide,
    (C17_token_expires_after_one_hour refEnv 1000000 4599999 "A" "viewer" reqViewerDelete
      (fun _ => rfl) (by decide) rfl).2.1 (by decide),
    (C17_token_expires_after_one_hour refEnv 1000000 4600000 "A" "viewer" reqViewerDelete
      (fun _ => rfl) (by decide) rfl).2.2 (by decide),
    (C17_token_expires_after_one_hour refEnv 1000000 9000000 "A" "viewer" reqViewerDelete
      (fun _ => rfl) (by decide) rfl).2.2 (by decide)⟩

/-- C18: for every space name `s` and role `r`, the token `createToken(s, r)` sent as
`Authorization: Bearer <token>` before its expiry, under the same signing key, makes
`authenticateToken` call `next()` with the claims `spaceName = s`, `role = r`; so
two tokens minted for different pairs of space and role authenticate to different
claims. -/
theorem C18_issue_authenticate_round_trip (env : Env) (now t : Nat) (s r : String)
    (req : Req)
    (hjwt : JwtContract env ⟨s, r⟩ 3600 now)
    (hc : compact (createToken env now s r) = true)
    (ha : req.authorization = some (bearerHeader (createToken env now s r)))
    (ht : t / 1000 < now / 1000 + 3600) :
    authenticateToken env t req = .ok { req with tokenPayload := some ⟨s, r⟩ }
      ∧ ∀ (s2 r2 : String) (now2 t2 : Nat) (req2 : Req),
          JwtContract env ⟨s2, r2⟩ 3600 now2 →
          compact (createToken env now2 s2 r2) = true →
          req2.authorization = some (bearerHeader (createToken env now2 s2 r2)) →
          t2 / 1000 < now2 / 1000 + 3600 → (s, r) ≠ (s2, r2) →
          ∀ q q2, authenticateToken env t req = .ok q →
            authenticateToken env t2 req2 = .ok q2 → q.tokenPayload ≠ q2.tokenPayload := by
  have h1 := authenticate_minted env now t s r req hjwt hc ha ht
  refine ⟨h1, ?_⟩
  intro s2 r2 now2 t2 req2 hjwt2 hc2 ha2 ht2 hne q q2 hq hq2
  have h2 := authenticate_minted env now2 t2 s2 r2 req2 hjwt2 hc2 ha2 ht2
  rw [h1] at hq
  rw [h2] at hq2
  rw [← Except.ok.inj hq, ← Except.ok.inj hq2]
  intro e
  apply hne
  have e2 : (⟨s, r⟩ : Claims) = ⟨s2, r2⟩ := Option.some.inj e
  injection e2 with e3 e4
  rw [e3, e4]

theorem C18_issue_authenticate_round_trip_witness :
    createToken refEnv refAmbient.now "A" "admin" = adminTokenA
      ∧ authenticateToken refEnv refAmbient.now reqAdminDelete
          = .ok { reqAdminDelete with tokenPayload := some ⟨"A", "admin"⟩ } :=
  ⟨by decide,
    (C18_issue_authenticate_round_trip refEnv refAmbient.now refAmbient.now "A" "admin"
      reqAdminDelete (fun _ => rfl) (by decide) rfl (by decide)).1⟩

/-! ## The stored spaces: claims -/

/-- A sequence of requests only appends to the stored spaces. -/
theorem run_spaces_append (env : Env) (reqs : List (Ambient × Req)) (st : ServerState) :
    ∃ added, (run env st reqs).spaces = st.spaces ++ added := by
  induction reqs generalizing st with
  | nil => exact ⟨[], by simp [run]⟩
  | cons r rest ih =>
    obtain ⟨amb, req⟩ := r
    obtain ⟨added, h⟩ := ih (app env amb st req).2
    rcases app_step_cases env amb st req with
      ⟨hs, _⟩ | ⟨_, n, v, a, _, _, _, _, _, _, _, hc⟩
    · exact ⟨added, by simp only [run]; rw [h, hs]⟩
    · refine ⟨newSpace env amb n v a :: added, ?_⟩
      simp only [run]
      rw [h, hc]
      simp

/-- C19: a request to any route but `POST /api/spaces` (login, the exists check, the
gated read and the content routes) leaves the list of stored spaces as it is; a
request changes that list only when it is a creation answered 201, and then by
appending exactly one space; so after any sequence of requests the spaces stored
before are all still there, unchanged and in place: none is updated or deleted. -/
theorem C19_spaces_changed_only_by_creation (env : Env) (amb : Ambient) (st : ServerState)
    (req : Req) :
    (req.route ≠ .createSpace → (app env amb st req).2.spaces = st.spaces)
      ∧ ((app env amb st req).2.spaces = st.spaces
          ∨ (req.route = .createSpace ∧ (app env amb st req).1.status = 201
              ∧ ∃ sp, (app env amb st req).2.spaces = st.spaces ++ [sp]))
      ∧ ∀ reqs : List (Ambient × Req),
          ∃ added, (run env st reqs).spaces = st.spaces ++ added := by
  refine ⟨app_spaces_of_not_create env amb st req, ?_, fun reqs => run_spaces_append env reqs st⟩
  rcases app_step_cases env amb st req with
    ⟨hs, _⟩ | ⟨hr, n, v, a, _, _, _, _, _, _, _, hc⟩
  · left; exact hs
  · right
    refine ⟨hr, by rw [hc], newSpace env amb n v a, by rw [hc]⟩

theorem C19_spaces_changed_only_by_creation_witness :
    (app refEnv refAmbient stateA (loginReq "A" "adminpass1")).2.spaces = stateA.spaces
      ∧ (app refEnv refAmbient stateA reqAdminDelete).2.spaces = stateA.spaces
      ∧ (app refEnv refAmbient stateA reqAdminDelete).2 ≠ stateA :=
  ⟨(C19_spaces_changed_only_by_creation refEnv refAmbient stateA
      (loginReq "A" "adminpass1")).1 (by decide),
    (C19_spaces_changed_only_by_creation refEnv refAmbient stateA reqAdminDelete).1
      (by decide),
    by decide⟩

theorem name_not_stored (st : ServerState) (name : String) (h : findSpace st name = none) :
    name ∉ st.spaces.map fun s => s.name := by
  unfold findSpace at h
  rw [List.find?_eq_none] at h
  intro hm
  obtain ⟨sp, hsp, he⟩ := List.mem_map.mp hm
  exact h sp hsp (by simp [he])

/-- One request keeps the names of the stored spaces distinct. -/
theorem names_nodup_step (env : Env) (amb : Ambient) (st : ServerState) (req : Req)
    (h : (st.spaces.map fun s => s.name).Nodup) :
    ((app env amb st req).2.spaces.map fun s => s.name).Nodup := by
  rcases app_step_cases env amb st req with
    ⟨hs, _⟩ | ⟨_, n, v, a, _, _, _, _, _, _, hf, hc⟩
  · rw [hs]; exact h
  · rw [hc]
    show ((st.spaces ++ [newSpace env amb n v a]).map fun s => s.name).Nodup
    rw [List.map_append, List.nodup_append]
    refine ⟨h, List.nodup_singleton _, ?_⟩
    intro x hx hx2
    simp only [List.map_cons, List.map_nil, List.mem_singleton] at hx2
    rw [hx2] at hx
    exact name_not_stored st n hf hx

theorem names_nodup_run (env : Env) (reqs : List (Ambient × Req)) (st : ServerState)
    (h : (st.spaces.map fun s => s.name).Nodup) :
    ((run env st reqs).spaces.map fun s => s.name).Nodup := by
  induction reqs generalizing st with
  | nil => exact h
  | cons r rest ih =>
    obtain ⟨amb, req⟩ := r
    exact ih _ (names_nodup_step env amb st req h)

/-- C20: a creation request answered 400 or 409 leaves the store unchanged; a
creation request for a name that is already stored leaves the store unchanged, so
the stored hashes of that space are not overwritten; and from a store without two
spaces of one name, no sequence of requests reaches a store with two spaces of one
name. -/
theorem C20_creation_atomic (env : Env) (amb : Ambient) (st : ServerState) (req : Req)
    (hr : req.route = .createSpace) :
    (((app env amb st req).1.status = 400 ∨ (app env amb st req).1.status = 409) →
        (app env amb st req).2 = st)
      ∧ (∀ name sp, req.name = some name → findSpace st name = some sp →
          (app env amb st req).2 = st
            ∧ findSpace (app env amb st req).2 name = some sp
            ∧ (app env amb st req).1.status ≠ 201)
      ∧ ((st.spaces.map fun s => s.name).Nodup →
          ∀ reqs : List (Ambient × Req),
            ((run env st reqs).spaces.map fun s => s.name).Nodup) := by
  rw [app_createSpace env amb st req hr]
  refine ⟨?_, ?_, fun h reqs => names_nodup_run env reqs st h⟩
  · intro h
    rcases createSpaceHandler_cases env amb st (arriving req) with
      ⟨h1, _⟩ | ⟨_, _, _, _, _, _, _, _, _, _, hc⟩
    · exact h1
    · rw [hc] at h
      rcases h with h | h <;> simp at h
  · intro name sp hn hf
    rcases createSpaceHandler_cases env amb st (arriving req) with
      ⟨h1, h2⟩ | ⟨n, _, _, hn2, _, _, _, _, _, hfree, _⟩
    · exact ⟨h1, by rw [h1]; exact hf, h2⟩
    · have hn3 : req.name = some n := hn2
      rw [hn] at hn3
      rw [Option.some.inj hn3] at hf
      rw [hf] at hfree
      exact absurd hfree (by simp)

theorem C20_creation_atomic_witness :
    app refEnv refAmbient stateA (createReq "A" "otherpass1" "otherpass2")
        = (⟨400, .error "Space name must be 3-40 characters, letters/numbers/-/_ only"⟩,
           stateA)
      ∧ (app refEnv refAmbient
          (app refEnv refAmbient emptyState (createReq "demo-space" "viewpass1" "adminpass1")).2
          (createReq "demo-space" "otherpass1" "otherpass2")).2
        = (app refEnv refAmbient emptyState (createReq "demo-space" "viewpass1" "adminpass1")).2 :=
  ⟨Prod.ext (by decide)
      ((C20_creation_atomic refEnv refAmbient stateA (createReq "A" "otherpass1" "otherpass2")
        rfl).1 (Or.inl (by decide))),
    (C20_creation_atomic refEnv refAmbient
      (app refEnv refAmbient emptyState (createReq "demo-space" "viewpass1" "adminpass1")).2
      (createReq "demo-space" "otherpass1" "otherpass2") rfl).1 (Or.inr (by decide))⟩

/-! ## Failure responses -/

theorem authenticateToken_shaped (env : Env) (now : Nat) (req : Req) (res : Response)
    (h : authenticateToken env now req = .error res) : wellShaped res = true := by
  unfold authenticateToken at h
  cases hb : bearerToken req.authorization with
  | none =>
    simp [hb] at h
    rw [← h]; rfl
  | some t =>
    by_cases hne : t = ""
    · simp [hb, hne] at h
      rw [← h]; rfl
    · cases hv : env.jwtVerify t env.JWT_SECRET now with
      | none =>
        simp [hb, hne, hv] at h
        rw [← h]; rfl
      | some c => simp [hb, hne, hv] at h

theorem authorizeSpace_shaped (req : Req) (res : Response)
    (h : authorizeSpace req = .error res) : wellShaped res = true := by
  unfold authorizeSpace at h
  split at h
  · rw [← Except.error.inj h]; rfl
  · split at h
    · rw [← Except.error.inj h]; rfl
    · exact absurd h (by simp)

theorem requireAdmin_shaped (req : Req) (res : Response)
    (h : requireAdmin req = .error res) : wellShaped res = true := by
  unfold requireAdmin at h
  split at h
  · rw [← Except.error.inj h]; rfl
  · split at h
    · rw [← Except.error.inj h]; rfl
    · exact absurd h (by simp)

theorem runChain_shaped (ms : List (Req → Except Response Req))
    (hms : ∀ m ∈ ms, ∀ r res, m r = .error res → wellShaped res = true)
    (req : Req) (res : Response) (h : runChain ms req = .error res) :
    wellShaped res = true := by
  induction ms generalizing req with
  | nil => simp [runChain] at h
  | cons m ms ih =>
    simp only [runChain] at h
    cases hm : m req with
    | error e =>
      simp only [hm] at h
      rw [← Except.error.inj h]
      exact hms m (List.mem_cons_self _ _) req e hm
    | ok r1 =>
      simp only [hm] at h
      exact ih (fun m1 h1 => hms m1 (List.mem_cons_of_mem _ h1)) r1 h

theorem gate_shaped (env : Env) (now : Nat) (req : Req) (res : Response)
    (h : gate env now req = .error res) : wellShaped res = true := by
  refine runChain_shaped (gateOf env now req.route) ?_ (arriving req) res h
  intro m hm
  cases hr : req.route <;> rw [hr] at hm <;>
    simp only [gateOf, List.mem_cons, List.mem_singleton, List.not_mem_nil, or_false] at hm
  all_goals
    rcases hm with rfl | rfl | rfl
    all_goals first
      | exact fun r res h => authenticateToken_shaped env now r res h
      | exact fun r res h => authorizeSpace_shaped r res h
      | exact fun r res h => requireAdmin_shaped r res h

theorem errorHandler_shaped (e : ServerError) : wellShaped (errorHandler e) = true := by
  unfold errorHandler
  repeat' split
  all_goals rfl

theorem uploadArray_shaped (env : Env) (amb : Ambient) (st : ServerState) (req : Req)
    (res : Response) (h : uploadArray env amb st req = .error res) :
    wellShaped res = true := by
  unfold uploadArray at h
  split at h
  · rename_i e _
    rw [← Except.error.inj h]
    exact errorHandler_shaped e
  · exact absurd h (by simp)

theorem createSpaceHandler_shaped (env : Env) (amb : Ambient) (st : ServerState) (req : Req) :
    wellShaped (createSpaceHandler env amb st req).1 = true := by
  unfold createSpaceHandler
  repeat (first | rfl | split | dsimp only)

theorem loginHandler_shaped (env : Env) (amb : Ambient) (st : ServerState) (req : Req)
    (s : String) : wellShaped (loginHandler env amb st req s).1 = true := by
  unfold loginHandler
  repeat (first | rfl | split | dsimp only)

theorem getSpaceHandler_shaped (env : Env) (st : ServerState) (req : Req) (s : String) :
    wellShaped (getSpaceHandler env st req s).1 = true := by
  unfold getSpaceHandler
  repeat (first | rfl | split | dsimp only)

theorem addContentHandler_shaped (amb : Ambient) (st : ServerState) (req : Req) (s : String) :
    wellShaped (addContentHandler amb st req s).1 = true := by
  unfold addContentHandler
  repeat (first | rfl | split | dsimp only)

theorem updateContentHandler_shaped (env : Env) (st : ServerState) (req : Req)
    (s c : String) : wellShaped (updateContentHandler env st req s c).1 = true := by
  unfold updateContentHandler
  repeat (first | rfl | split | dsimp only)

theorem deleteContentHandler_shaped (env : Env) (st : ServerState) (s c : String) :
    wellShaped (deleteContentHandler env st s c).1 = true := by
  unfold deleteContentHandler
  repeat (first | rfl | split | dsimp only)

theorem addImagesHandler_shaped (env : Env) (st : ServerState) (req : Req) (s c : String) :
    wellShaped (addImagesHandler env st req s c).1 = true := by
  unfold addImagesHandler
  repeat (first | rfl | split | dsimp only)

theorem deleteImageHandler_shaped (env : Env) (st : ServerState) (s c i : String) :
    wellShaped (deleteImageHandler env st s c i).1 = true := by
  unfold deleteImageHandler
  repeat (first | rfl | split | dsimp only)

/-- Every response of the server is well shaped. -/
theorem app_shaped (env : Env) (amb : Ambient) (st : ServerState) (req : Req) :
    wellShaped (app env amb st req).1 = true := by
  unfold app
  cases hg : gate env amb.now req with
  | error res => exact gate_shaped env amb.now req res hg
  | ok req1 =>
    dsimp only
    unfold routeHandler
    split
    · exact createSpaceHandler_shaped env amb st req1
    · rfl
    · exact loginHandler_shaped env amb st req1 _
    · exact getSpaceHandler_shaped env st req1 _
    · cases hu : uploadArray env amb st req1 with
      | error e => exact uploadArray_shaped env amb st req1 e hu
      | ok r => exact addContentHandler_shaped amb r.2 r.1 _
    · exact updateContentHandler_shaped env st req1 _ _
    · exact deleteContentHandler_shaped env st _ _
    · cases hu : uploadArray env amb st req1 with
      | error e => exact uploadArray_shaped env amb st req1 e hu
      | ok r => exact addImagesHandler_shaped env r.2 r.1 _ _
    · exact deleteImageHandler_shaped env st _ _ _

theorem wellShaped_spec (r : Response) (h : wellShaped r = true) :
    r.status ∈ [200, 201, 400, 401, 403, 404, 409, 500]
      ∧ (r.status ∈ [400, 401, 403, 404, 409, 500] →
          ∃ msg ∈ failureMessages, r.body = .error msg)
      ∧ (r.status = 500 → r.body = .error "Internal server error")
      ∧ (∀ msg, r.body = .error msg → msg ∈ failureMessages) := by
  obtain ⟨status, body⟩ := r
  cases body with
  | error msg =>
    by_cases h5 : status = 500
    · subst h5
      have hm : msg = "Internal server error" := by simpa [wellShaped] using h
      subst hm
      refine ⟨by decide, fun _ => ⟨_, by decide, rfl⟩, fun _ => rfl, ?_⟩
      intro m hm
      injection hm with hm
      rw [← hm]; decide
    · have h12 : status ∈ [400, 401, 403, 404, 409] ∧ msg ∈ failureMessages := by
        simpa [wellShaped, h5] using h
      obtain ⟨h1, h2⟩ := h12
      refine ⟨?_, fun _ => ⟨msg, h2, rfl⟩, fun e => absurd e h5, ?_⟩
      · simp only [List.mem_cons, List.mem_singleton, List.not_mem_nil, or_false] at h1 ⊢
        omega
      · intro m hm
        injection hm with hm
        rw [← hm]; exact h2
  | _ =>
    have hs : status = 200 ∨ status = 201 := by simpa [wellShaped] using h
    refine ⟨?_, ?_, ?_, fun m hm => by cases hm⟩
    · simp only [List.mem_cons, List.mem_singleton, List.not_mem_nil, or_false]
      omega
    · intro h2
      simp only [List.mem_cons, List.mem_singleton, List.not_mem_nil, or_false] at h2
      omega
    · intro h2
      have h3 : status = 500 := h2
      omega

/-- The four outcomes of the error-handling middleware. -/
theorem errorHandler_cases (e : ServerError) :
    (e.isMulterError = true → e.code = "LIMIT_FILE_SIZE" →
        errorHandler e = ⟨400, .error "File too large. Maximum size is 5MB."⟩)
      ∧ (e.isMulterError = true → e.code = "LIMIT_FILE_COUNT" →
        errorHandler e = ⟨400, .error "Too many files. Maximum is 6 files."⟩)
      ∧ (¬ (e.isMulterError = true
            ∧ (e.code = "LIMIT_FILE_SIZE" ∨ e.code = "LIMIT_FILE_COUNT")) →
          (e.message = "Only image files are allowed" →
              errorHandler e = ⟨400, .error "Only image files are allowed"⟩)
            ∧ (e.message ≠ "Only image files are allowed" →
              errorHandler e = ⟨500, .error "Internal server error"⟩)) := by
  refine ⟨fun h1 h2 => ?_, fun h1 h2 => ?_, fun h => ⟨fun hm => ?_, fun hm => ?_⟩⟩
  · simp [errorHandler, h1, h2]
  · simp [errorHandler, h1, h2]
  · have h1 : ¬ (e.isMulterError = true ∧ e.code = "LIMIT_FILE_SIZE") :=
      fun x => h ⟨x.1, Or.inl x.2⟩
    have h2 : ¬ (e.isMulterError = true ∧ e.code = "LIMIT_FILE_COUNT") :=
      fun x => h ⟨x.1, Or.inr x.2⟩
    simp only [errorHandler, h1, h2, if_false, hm, if_true]
  · have h1 : ¬ (e.isMulterError = true ∧ e.code = "LIMIT_FILE_SIZE") :=
      fun x => h ⟨x.1, Or.inl x.2⟩
    have h2 : ¬ (e.isMulterError = true ∧ e.code = "LIMIT_FILE_COUNT") :=
      fun x => h ⟨x.1, Or.inr x.2⟩
    simp only [errorHandler, h1, h2, if_false, hm]

/-- An error of the upload is answered by the error-handling middleware and nothing
is stored. -/
theorem routeHandler_upload_error (env : Env) (amb : Ambient) (st : ServerState) (req1 : Req)
    (e : ServerError)
    (hr : (∃ s, req1.route = .addContent s) ∨ (∃ s c, req1.route = .addImages s c))
    (h : storeFiles env amb.now 0 req1.uploads amb.random = .error e) :
    routeHandler env amb st req1 = (errorHandler e, st) := by
  have hu : uploadArray env amb st req1 = .error (errorHandler e) := by
    simp [uploadArray, h]
  rcases hr with ⟨s, hr⟩ | ⟨s, c, hr⟩ <;> simp only [routeHandler, hr, hu]

/-- A `save()` that throws in the creation handler is answered 500. -/
theorem createSpaceHandler_save_throws (env : Env) (amb : Ambient) (st : ServerState)
    (req : Req) (name v a : String)
    (hn : req.name = some name) (hv : req.viewPassword = some v)
    (ha : req.adminPassword = some a)
    (hname : nameRegexTest name = true) (hvl : 6 ≤ jsLength v) (hal : 6 ≤ jsLength a)
    (hfree : findSpace st name = none)
    (hs : saveSpace st (newSpace env amb name v a) = none) :
    createSpaceHandler env amb st req = (⟨500, .error "Internal server error"⟩, st) := by
  have hne := ne_empty_of_nameRegexTest name hname
  have hvne := ne_empty_of_jsLength v hvl
  have hane := ne_empty_of_jsLength a hal
  have htrim := jsTrim_of_nameChars name (nameRegexTest_sound name hname).1
  have hnotlt_v : ¬ jsLength v < 6 := by omega
  have hnotlt_a : ¬ jsLength a < 6 := by omega
  unfold newSpace at hs
  simp [createSpaceHandler, hn, hv, ha, truthy, hne, hvne, hane, hname, hnotlt_v, hnotlt_a,
    hfree, htrim, hs, internalError]

/-- C21: every response of the server has status 200, 201, 400, 401, 403, 404, 409
or 500; with a failure status its body is `error: <message>` and the message is one
of the fixed strings written in `server.js`; with status 500 the message is
`Internal server error`; no error body holds any other text, whatever the message of
the error that was caught. Every unexpected failure is answered 500 `Internal server
error`: an error passed to the error-handling middleware that is not one of its
three mapped cases (which are answered their 400), a gate stage reading an undefined
payload, and, in each handler, every call that throws: the `save()` of a new space,
the listing query, the validation of a new content, the cast of `contentId` in the
four content routes, and `path.join` on an image without `storedName`. -/
theorem C21_failure_responses_shaped (env : Env) (amb : Ambient) (st : ServerState)
    (req : Req) :
    ((app env amb st req).1.status ∈ [200, 201, 400, 401, 403, 404, 409, 500]
      ∧ ((app env amb st req).1.status ∈ [400, 401, 403, 404, 409, 500] →
          ∃ msg ∈ failureMessages, (app env amb st req).1.body = .error msg)
      ∧ ((app env amb st req).1.status = 500 →
          (app env amb st req).1.body = .error "Internal server error")
      ∧ (∀ msg, (app env amb st req).1.body = .error msg → msg ∈ failureMessages))
    ∧ (∀ e : ServerError,
        (e.isMulterError = true → e.code = "LIMIT_FILE_SIZE" →
          errorHandler e = ⟨400, .error "File too large. Maximum size is 5MB."⟩)
        ∧ (e.isMulterError = true → e.code = "LIMIT_FILE_COUNT" →
          errorHandler e = ⟨400, .error "Too many files. Maximum is 6 files."⟩)
        ∧ (¬ (e.isMulterError = true
              ∧ (e.code = "LIMIT_FILE_SIZE" ∨ e.code = "LIMIT_FILE_COUNT")) →
            (e.message = "Only image files are allowed" →
                errorHandler e = ⟨400, .error "Only image files are allowed"⟩)
              ∧ (e.message ≠ "Only image files are allowed" →
                errorHandler e = ⟨500, .error "Internal server error"⟩)))
    ∧ (∀ r : Req, r.tokenPayload = none →
        authorizeSpace r = .error ⟨500, .error "Internal server error"⟩
          ∧ requireAdmin r = .error ⟨500, .error "Internal server error"⟩)
    ∧ (∀ req1 : Req, gate env amb.now req = .ok req1 →
        (∀ e, ((∃ s, req.route = .addContent s) ∨ (∃ s c, req.route = .addImages s c)) →
            storeFiles env amb.now 0 req1.uploads amb.random = .error e →
            app env amb st req = (errorHandler e, st))
        ∧ (∀ name v a, req.route = .createSpace → req1.name = some name →
            req1.viewPassword = some v → req1.adminPassword = some a →
            nameRegexTest name = true → 6 ≤ jsLength v → 6 ≤ jsLength a →
            findSpace st name = none → saveSpace st (newSpace env amb name v a) = none →
            app env amb st req = (⟨500, .error "Internal server error"⟩, st))
        ∧ (∀ s space, req.route = .getSpace s → findSpace st s = some space →
            env.findContents st.contents space._id
                (do
                  let p ← req1.page.getD (some 1)
                  let l ← req1.limit.getD (some 10)
                  pure ((p - 1) * l))
                (req1.limit.getD (some 10)) = none →
            app env amb st req = (⟨500, .error "Internal server error"⟩, st))
        ∧ (∀ s req2 st1 space, req.route = .addContent s →
            uploadArray env amb st req1 = .ok (req2, st1) → findSpace st1 s = some space →
            5000 < jsLength (jsTrim (textOrEmpty req2.text)) →
            app env amb st req = (⟨500, .error "Internal server error"⟩, st1))
        ∧ (∀ s cid space, req.route = .updateContent s cid → findSpace st s = some space →
            env.castObjectId cid = none →
            app env amb st req = (⟨500, .error "Internal server error"⟩, st))
        ∧ (∀ s cid space, req.route = .deleteContent s cid → findSpace st s = some space →
            env.castObjectId cid = none →
            app env amb st req = (⟨500, .error "Internal server error"⟩, st))
        ∧ (∀ s cid space id content files, req.route = .deleteContent s cid →
            findSpace st s = some space → env.castObjectId cid = some id →
            findContent st id space._id = some content →
            unlinkImages env content.images st.files = .error files →
            app env amb st req
              = (⟨500, .error "Internal server error"⟩,
                 { st with contents := st.contents.erase content, files := files }))
        ∧ (∀ s cid req2 st1 space, req.route = .addImages s cid →
            uploadArray env amb st req1 = .ok (req2, st1) → findSpace st1 s = some space →
            env.castObjectId cid = none →
            app env amb st req = (⟨500, .error "Internal server error"⟩, st1))
        ∧ (∀ s cid i space, req.route = .deleteImage s cid i → findSpace st s = some space →
            env.castObjectId cid = none →
            app env amb st req = (⟨500, .error "Internal server error"⟩, st))) := by
  refine ⟨wellShaped_spec _ (app_shaped env amb st req), errorHandler_cases, ?_, ?_⟩
  · intro r hr
    exact ⟨by simp [authorizeSpace, hr], by simp [requireAdmin, hr]⟩
  · intro req1 hg
    have happ := app_of_gate_ok env amb st req req1 hg
    have hroute := gate_ok_route env amb.now req req1 hg
    refine ⟨?_, ?_, ?_, ?_, ?_, ?_, ?_, ?_, ?_⟩
    · intro e hr h
      rw [happ]
      refine routeHandler_upload_error env amb st req1 e ?_ h
      rw [hroute]; exact hr
    · intro name v a hr hn hv ha hname hvl hal hfree hs
      have hr1 : req1.route = .createSpace := hroute.trans hr
      rw [happ]
      simp only [routeHandler, hr1]
      exact createSpaceHandler_save_throws env amb st req1 name v a hn hv ha hname hvl hal
        hfree hs
    · intro s space hr hsp hq
      have hr1 : req1.route = .getSpace s := hroute.trans hr
      rw [happ]
      simp only [routeHandler, hr1]
      unfold getSpaceHandler
      simp only [hsp]
      rw [hq]
      rfl
    · intro s req2 st1 space hr hu hsp htext
      have hr1 : req1.route = .addContent s := hroute.trans hr
      rw [happ]
      simp only [routeHandler, hr1, hu]
      simp [addContentHandler, hsp, htext, internalError]
    · intro s cid space hr hsp hid
      have hr1 : req1.route = .updateContent s cid := hroute.trans hr
      rw [happ]
      simp only [routeHandler, hr1]
      simp [updateContentHandler, hsp, hid, internalError]
    · intro s cid space hr hsp hid
      have hr1 : req1.route = .deleteContent s cid := hroute.trans hr
      rw [happ]
      simp only [routeHandler, hr1]
      simp [deleteContentHandler, hsp, hid, internalError]
    · intro s cid space id content files hr hsp hid hc hu
      have hr1 : req1.route = .deleteContent s cid := hroute.trans hr
      rw [happ]
      simp only [routeHandler, hr1]
      simp [deleteContentHandler, hsp, hid, hc, hu, internalError]
    · intro s cid req2 st1 space hr hu hsp hid
      have hr1 : req1.route = .addImages s cid := hroute.trans hr
      rw [happ]
      simp only [routeHandler, hr1, hu]
      simp [addImagesHandler, hsp, hid, internalError]
    · intro s cid i space hr hsp hid
      have hr1 : req1.route = .deleteImage s cid i := hroute.trans hr
      rw [happ]
      simp only [routeHandler, hr1]
      simp [deleteImageHandler, hsp, hid, internalError]

theorem C21_failure_responses_shaped_witness :
    refEnv.castObjectId "not-an-id" = none
      ∧ app refEnv refAmbient stateA reqDeleteImageBadId
          = (⟨500, .error "Internal server error"⟩, stateA)
      ∧ errorHandler limitUnexpectedFile = ⟨500, .error "Internal server error"⟩
      ∧ (app refEnv refAmbient stateA reqUnexpectedField).1
          = ⟨500, .error "Internal server error"⟩ :=
  ⟨by decide,
    ((C21_failure_responses_shaped refEnv refAmbient stateA
        reqDeleteImageBadId).2.2.2
      (passed reqDeleteImageBadId ⟨"A", "admin"⟩)
      rfl).2.2.2.2.2.2.2.2 "A" "not-an-id" "1-r.png" _ rfl rfl (by decide),
    (((C21_failure_responses_shaped refEnv refAmbient stateA reqUnexpectedField).2.1
      limitUnexpectedFile).2.2 (by decide)).2 (by decide),
    by decide⟩

/-! ## Login: determinism -/

/-- C22: the outcome of a login (status and resolved role) on a stored space and a
non-empty password is a function of the password and of the two stored hashes only:
two attempts, at any times, on any stores and under any space names, with the same
password against spaces holding the same hashes resolve the same outcome. -/
theorem C22_login_deterministic (env : Env) (amb1 amb2 : Ambient) (st1 st2 : ServerState)
    (req1 req2 : Req) (sn1 sn2 p : String) (sp1 sp2 : Space)
    (hr1 : req1.route = .login sn1) (hr2 : req2.route = .login sn2)
    (hp1 : req1.password = some p) (hp2 : req2.password = some p) (hne : p ≠ "")
    (hf1 : findSpace st1 sn1 = some sp1) (hf2 : findSpace st2 sn2 = some sp2)
    (ha : sp1.adminPasswordHash = sp2.adminPasswordHash)
    (hv : sp1.viewPasswordHash = sp2.viewPasswordHash) :
    loginOutcome (app env amb1 st1 req1).1 = loginOutcome (app env amb2 st2 req2).1
      ∧ loginOutcome (app env amb1 st1 req1).1
          = (if env.bcryptCompare p sp1.adminPasswordHash = true then (200, some "admin")
             else if env.bcryptCompare p sp1.viewPasswordHash = true then (200, some "viewer")
             else (401, none)) := by
  have key : ∀ (amb : Ambient) (st : ServerState) (req : Req) (sn : String) (sp : Space),
      req.route = .login sn → req.password = some p → findSpace st sn = some sp →
      loginOutcome (app env amb st req).1
        = (if env.bcryptCompare p sp.adminPasswordHash = true then (200, some "admin")
           else if env.bcryptCompare p sp.viewPasswordHash = true then (200, some "viewer")
           else (401, none)) := by
    intro amb st req sn sp hr hp hf
    rw [app_login env amb st req sn hr,
      loginHandler_found env amb st (arriving req) sn p sp hp hne hf]
    split
    · rfl
    · split <;> rfl
  refine ⟨?_, key amb1 st1 req1 sn1 sp1 hr1 hp1 hf1⟩
  rw [key amb1 st1 req1 sn1 sp1 hr1 hp1 hf1, key amb2 st2 req2 sn2 sp2 hr2 hp2 hf2, ha, hv]

theorem C22_login_deterministic_witness :
    loginOutcome (app refEnv refAmbient stateA (loginReq "A" "viewpass1")).1
        = loginOutcome
            (app refEnv { refAmbient with now := 2000000 } stateA (loginReq "A" "viewpass1")).1
      ∧ loginOutcome (app refEnv refAmbient stateA (loginReq "A" "viewpass1")).1
        = (200, some "viewer") :=
  ⟨(C22_login_deterministic refEnv refAmbient { refAmbient with now := 2000000 } stateA stateA
      (loginReq "A" "viewpass1") (loginReq "A" "viewpass1") "A" "A" "viewpass1" _ _ rfl rfl rfl
      rfl (by decide) rfl rfl rfl rfl).1,
    by decide⟩

/-! ## Deleting an image -/

/-- A request with a verified admin token of the space reaches the handler of a
route that changes content. -/
theorem app_admin (env : Env) (amb : Ambient) (st : ServerState) (req : Req) (t : String)
    (c : Claims) (hmut : req.route.mutating = true)
    (ht : bearerToken req.authorization = some t) (hne : t ≠ "")
    (hv : env.jwtVerify t env.JWT_SECRET amb.now = some c)
    (hs : req.route.spaceName = some c.spaceName) (hrole : c.role = "admin") :
    app env amb st req = routeHandler env amb st (passed req c) := by
  have hgate : gate env amb.now req = .ok (passed req c) := by
    rw [gate_mutating env amb.now req hmut,
      authenticate_arriving env amb.now req t c ht hne hv]
    simp only [bind, Except.bind, authorizeSpace_match req c hs, requireAdmin_admin req c hrole]
  exact app_of_gate_ok env amb st req _ hgate

/-- The delete-image handler on a stored content. -/
theorem deleteImageHandler_found (env : Env) (st : ServerState) (s cid i : String)
    (space : Space) (id : ObjectId) (content : Content)
    (hsp : findSpace st s = some space) (hid : env.castObjectId cid = some id)
    (hc : findContent st id space._id = some content) :
    deleteImageHandler env st s cid i
      = (⟨200, .message "Image deleted"⟩,
         { putContent st
             { content with
               images := content.images.filter fun img => img.storedName ≠ some i } with
           files := unlink st.files (unlinkPath env i) }) := by
  simp [deleteImageHandler, hsp, hid, hc, putContent]

theorem findContent_some (st : ServerState) (id sid : ObjectId) (c : Content)
    (h : findContent st id sid = some c) : c._id = id ∧ c.spaceId = sid := by
  unfold findContent at h
  have := List.find?_some h
  simpa using this

theorem find_map_replace (l : List Content) (id sid : ObjectId) (c u : Content)
    (h : l.find? (fun c => decide (c._id = id ∧ c.spaceId = sid)) = some c)
    (hid : u._id = id) (hsid : u.spaceId = sid) :
    (l.map fun d => if d._id = u._id then u else d).find?
        (fun c => decide (c._id = id ∧ c.spaceId = sid)) = some u := by
  induction l with
  | nil => simp at h
  | cons d ds ih =>
    by_cases hd : d._id = id
    · simp [List.find?, hd, hid, hsid]
    · have hd3 : ¬ d._id = u._id := by rw [hid]; exact hd
      simp only [List.find?, hd, false_and, decide_False] at h
      simp only [List.map_cons, hd3, if_false, List.find?, hd, false_and, decide_False]
      exact ih h

/-- The document written back is the one found afterwards. -/
theorem findContent_putContent (st : ServerState) (id sid : ObjectId) (c u : Content)
    (h : findContent st id sid = some c) (hid : u._id = id) (hsid : u.spaceId = sid) :
    findContent (putContent st u) id sid = some u :=
  find_map_replace st.contents id sid c u h hid hsid

/-- C23: a delete-image request with a verified admin token of the space, on a
stored content, is answered 200 `Image deleted` and asks to remove the file
`path.join(__dirname, 'uploads', imageName)`, the name being the path parameter as
it came: nothing in the hypotheses relates it to the images of the content. After
the request that path is not among the files and every other file is still there. -/
theorem C23_delete_image_unlinks_parameter (env : Env) (amb : Ambient) (st : ServerState)
    (req : Req) (t : String) (c : Claims) (s cid imageName : String)
    (space : Space) (id : ObjectId) (content : Content)
    (hr : req.route = .deleteImage s cid imageName)
    (ht : bearerToken req.authorization = some t) (hne : t ≠ "")
    (hv : env.jwtVerify t env.JWT_SECRET amb.now = some c)
    (hs : c.spaceName = s) (hrole : c.role = "admin")
    (hsp : findSpace st s = some space) (hid : env.castObjectId cid = some id)
    (hc : findContent st id space._id = some content) :
    (app env amb st req).1 = ⟨200, .message "Image deleted"⟩
      ∧ (app env amb st req).2.files
          = unlink st.files (env.pathJoin (env.pathJoin env.dirname "uploads") imageName)
      ∧ env.pathJoin (env.pathJoin env.dirname "uploads") imageName
          ∉ (app env amb st req).2.files
      ∧ ∀ p ∈ st.files, p ≠ env.pathJoin (env.pathJoin env.dirname "uploads") imageName →
          p ∈ (app env amb st req).2.files := by
  have hmut : req.route.mutating = true := by rw [hr]; rfl
  have hsn : req.route.spaceName = some c.spaceName := by rw [hr, hs]; rfl
  have happ : app env amb st req = deleteImageHandler env st s cid imageName := by
    rw [app_admin env amb st req t c hmut ht hne hv hsn hrole]
    have hr2 : (passed req c).route = .deleteImage s cid imageName := hr
    simp only [routeHandler, hr2]
  rw [happ, deleteImageHandler_found env st s cid imageName space id content hsp hid hc]
  refine ⟨rfl, rfl, ?_, ?_⟩
  · simp [unlink, unlinkPath]
  · intro p hp hne2
    simp [unlink, unlinkPath, hp, hne2]

theorem C23_delete_image_unlinks_parameter_witness :
    (stateB.contents.all fun c =>
        c.images.all fun img => decide (img.storedName ≠ some "other.png")) = true
      ∧ app refEnv refAmbient stateB (reqDeleteImage "other.png")
        = (⟨200, .message "Image deleted"⟩, stateA) :=
  ⟨by decide,
    Prod.ext
      (C23_delete_image_unlinks_parameter refEnv refAmbient stateB (reqDeleteImage "other.png")
        adminTokenA ⟨"A", "admin"⟩ "A" "1" "other.png" _ 1 _ rfl (by decide) (by decide)
        (by decide) rfl rfl rfl (by decide) rfl).1
      (by decide)⟩

/-- C24: after a delete-image request answered 200 (verified admin token of the
space, stored content), the content found under the same id holds the previous image
list filtered: no entry left has `storedName` equal to `imageName`, every other entry
is kept, unchanged and in the original order; `text`, `spaceId` and `_id` are
unchanged, and so is every content with another id. -/
theorem C24_delete_image_filters_list (env : Env) (amb : Ambient) (st : ServerState)
    (req : Req) (t : String) (c : Claims) (s cid imageName : String)
    (space : Space) (id : ObjectId) (content : Content)
    (hr : req.route = .deleteImage s cid imageName)
    (ht : bearerToken req.authorization = some t) (hne : t ≠ "")
    (hv : env.jwtVerify t env.JWT_SECRET amb.now = some c)
    (hs : c.spaceName = s) (hrole : c.role = "admin")
    (hsp : findSpace st s = some space) (hid : env.castObjectId cid = some id)
    (hc : findContent st id space._id = some content) :
    ∃ updated, findContent (app env amb st req).2 id space._id = some updated
      ∧ updated.images = content.images.filter (fun img => img.storedName ≠ some imageName)
      ∧ (∀ img ∈ updated.images, img.storedName ≠ some imageName)
      ∧ (∀ img ∈ content.images, img.storedName ≠ some imageName → img ∈ updated.images)
      ∧ updated.images.Sublist content.images
      ∧ updated.text = content.text ∧ updated.spaceId = content.spaceId
      ∧ updated._id = content._id
      ∧ ∀ d ∈ st.contents, d._id ≠ id → d ∈ (app env amb st req).2.contents := by
  have hmut : req.route.mutating = true := by rw [hr]; rfl
  have hsn : req.route.spaceName = some c.spaceName := by rw [hr, hs]; rfl
  have happ : app env amb st req = deleteImageHandler env st s cid imageName := by
    rw [app_admin env amb st req t c hmut ht hne hv hsn hrole]
    have hr2 : (passed req c).route = .deleteImage s cid imageName := hr
    simp only [routeHandler, hr2]
  obtain ⟨hcid, hcsid⟩ := findContent_some st id space._id content hc
  rw [happ, deleteImageHandler_found env st s cid imageName space id content hsp hid hc]
  refine ⟨{ content with
      images := content.images.filter fun img => img.storedName ≠ some imageName },
    ?_, rfl, ?_, ?_, List.filter_sublist _, rfl, rfl, rfl, ?_⟩
  · exact findContent_putContent st id space._id content _ hc hcid hcsid
  · intro img him
    have := (List.mem_filter.mp him).2
    simpa using this
  · intro img him hne2
    exact List.mem_filter.mpr ⟨him, by simpa using hne2⟩
  · intro d hd hdid
    show d ∈ (st.contents.map fun x => if x._id = content._id then _ else x)
    refine List.mem_map.mpr ⟨d, hd, ?_⟩
    have : ¬ d._id = content._id := by rw [hcid]; exact hdid
    simp [this]

theorem C24_delete_image_filters_list_witness :
    findContent stateA 1 1
        = some { _id := 1, spaceId := 1, text := "hello",
                 images := [{ filename := some "1-r.png", originalName := some "a.png",
                              storedName := some "1-r.png", mimeType := some "image/png",
                              size := some 10 }],
                 createdAt := 5 }
      ∧ ∃ updated, findContent (app refEnv refAmbient stateA (reqDeleteImage "1-r.png")).2 1 1
          = some updated ∧ updated.images = [] ∧ updated.text = "hello" :=
  ⟨by decide,
    match C24_delete_image_filters_list refEnv refAmbient stateA (reqDeleteImage "1-r.png")
      adminTokenA ⟨"A", "admin"⟩ "A" "1" "1-r.png"
      { _id := 1, name := "A", viewPasswordHash := "s$viewpass1",
        adminPasswordHash := "ss$adminpass1", createdAt := 0 } 1
      { _id := 1, spaceId := 1, text := "hello",
        images := [{ filename := some "1-r.png", originalName := some "a.png",
                     storedName := some "1-r.png", mimeType := some "image/png",
                     size := some 10 }],
        createdAt := 5 }
      rfl (by decide) (by decide) (by decide) rfl rfl (by decide) (by decide) (by decide) with
    | ⟨u, h1, h2, _, _, _, h3, _⟩ => ⟨u, h1, by rw [h2]; decide, h3⟩⟩

/-! ## The browser client -/

theorem loadSpace_requests (fetch : Req → Option Response) (cs : ClientState)
    (sp : Option String) :
    ∃ rest, (loadSpace fetch cs sp).requests = cs.requests ++ rest := by
  unfold loadSpace
  dsimp only
  repeat' split
  all_goals first
    | exact ⟨_, rfl⟩
    | exact ⟨[], (List.append_nil _).symm⟩

/-- C25: `handleCreateSpace` of the client shows an error, sends nothing and leaves
`userToken` and `userRole` as they are when a password has fewer than 6 code units
or the two passwords are equal; otherwise the first thing it sends is the creation
request with the current space and the two passwords; so a creation request is sent
only when both passwords have at least 6 code units and differ. -/
theorem C25_client_checks_before_post (fetch : Req → Option Response) (cs : ClientState)
    (v a : String) :
    ((jsLength v < 6 ∨ jsLength a < 6 ∨ v = a) →
        (handleCreateSpace fetch cs v a).requests = cs.requests
          ∧ (handleCreateSpace fetch cs v a).userToken = cs.userToken
          ∧ (handleCreateSpace fetch cs v a).userRole = cs.userRole
          ∧ ∃ msg, (handleCreateSpace fetch cs v a).messages = cs.messages ++ [(msg, "error")])
      ∧ (6 ≤ jsLength v → 6 ≤ jsLength a → v ≠ a →
          ∃ rest, (handleCreateSpace fetch cs v a).requests
            = cs.requests
              ++ { route := .createSpace, name := cs.currentSpace, viewPassword := some v,
                   adminPassword := some a } :: rest)
      ∧ ((handleCreateSpace fetch cs v a).requests ≠ cs.requests →
          6 ≤ jsLength v ∧ 6 ≤ jsLength a ∧ v ≠ a) := by
  have hbad : (jsLength v < 6 ∨ jsLength a < 6 ∨ v = a) →
      (handleCreateSpace fetch cs v a).requests = cs.requests
        ∧ (handleCreateSpace fetch cs v a).userToken = cs.userToken
        ∧ (handleCreateSpace fetch cs v a).userRole = cs.userRole
        ∧ ∃ msg, (handleCreateSpace fetch cs v a).messages
            = cs.messages ++ [(msg, "error")] := by
    intro h
    unfold handleCreateSpace
    by_cases h1 : jsLength v < 6 ∨ jsLength a < 6
    · rw [if_pos h1]
      exact ⟨rfl, rfl, rfl, _, rfl⟩
    · have h2 : v = a := by
        rcases h with h | h | h
        · exact absurd (Or.inl h) h1
        · exact absurd (Or.inr h) h1
        · exact h
      rw [if_neg h1, if_pos h2]
      exact ⟨rfl, rfl, rfl, _, rfl⟩
  refine ⟨hbad, ?_, ?_⟩
  · intro hv ha hne
    have h1 : ¬ (jsLength v < 6 ∨ jsLength a < 6) := by omega
    unfold handleCreateSpace
    rw [if_neg h1, if_neg hne]
    dsimp only
    split
    · exact ⟨[], rfl⟩
    · split
      · obtain ⟨rest, hrest⟩ := loadSpace_requests fetch _ _
        exact ⟨rest, by rw [hrest]; simp [showMessage]⟩
      · exact ⟨[], rfl⟩
  · intro hchg
    by_contra hcon
    have : jsLength v < 6 ∨ jsLength a < 6 ∨ v = a := by
      by_cases h1 : jsLength v < 6
      · exact Or.inl h1
      · by_cases h2 : jsLength a < 6
        · exact Or.inr (Or.inl h2)
        · by_cases h3 : v = a
          · exact Or.inr (Or.inr h3)
          · exact absurd ⟨by omega, by omega, h3⟩ hcon
    exact hchg (hbad this).1

theorem C25_client_checks_before_post_witness :
    handleCreateSpace refFetch clientFresh "samepass1" "samepass1"
        = { clientFresh with
            messages := [("View and Admin passwords should be different", "error")] }
      ∧ (handleCreateSpace refFetch clientFresh "viewpass1" "adminpass1").requests
        = [createReq "demo-space" "viewpass1" "adminpass1",
           { route := .getSpace "demo-space",
             authorization := some "Bearer k.4600.admin.demo-space" }]
      ∧ (handleCreateSpace refFetch clientFresh "short" "adminpass1").requests = [] :=
  ⟨by decide, by decide,
    ((C25_client_checks_before_post refFetch clientFresh "short" "adminpass1").1
      (Or.inl (by decide))).1⟩

/-! ## The Authorization header -/

theorem jsSplit_ne_nil (sep : Char) (l : List Char) : jsSplit sep l ≠ [] := by
  cases l with
  | nil => simp [jsSplit]
  | cons c cs =>
    unfold jsSplit
    split
    · simp
    · split <;> simp

theorem jsSplit_word (w t : List Char) (hw : ' ' ∉ w) :
    jsSplit ' ' (w ++ ' ' :: t) = w :: jsSplit ' ' t := by
  induction w with
  | nil => simp [jsSplit]
  | cons c cs ih =>
    have hc : c ≠ ' ' := fun e => hw (e ▸ List.mem_cons_self _ _)
    have hcs : ' ' ∉ cs := fun e => hw (List.mem_cons_of_mem _ e)
    simp [jsSplit, hc, ih hcs]

/-- The token read from a header `w t` whose first word has no space: the part of
`t` before its first space. -/
theorem bearerToken_word (w t : String) (hw : ' ' ∉ w.data) :
    bearerToken (some (w ++ " " ++ t)) = some ⟨(jsSplit ' ' t.data).headD []⟩ := by
  have hd : (w ++ " " ++ t).data = w.data ++ ' ' :: t.data := by
    simp [String.data_append]
  have hne : w ++ " " ++ t ≠ "" := by
    intro e
    have := congrArg String.data e
    rw [hd] at this
    simp at this
  simp only [bearerToken, hne, if_false, hd, jsSplit_word w.data t.data hw]
  cases hj : jsSplit ' ' t.data with
  | nil => exact absurd hj (jsSplit_ne_nil _ _)
  | cons x xs => simp

theorem authenticateToken_congr (env : Env) (now : Nat) (r1 r2 : Req)
    (h : bearerToken r1.authorization = bearerToken r2.authorization) :
    (authenticateToken env now r1).map (fun r => r.tokenPayload)
      = (authenticateToken env now r2).map (fun r => r.tokenPayload) := by
  unfold authenticateToken
  rw [h]
  dsimp only
  repeat' split
  all_goals rfl

/-- C26: `authenticateToken` reads the token as the second element of the header
split on single spaces and never looks at the first word: a header `w t` whose word
`w` has no space gives the same token, the same response or the same claims as
`Bearer t`; a header without a space, or whose second element is empty, is answered
401 `Access token required`. -/
theorem C26_scheme_word_ignored (env : Env) (now : Nat) (req : Req) (w t : String)
    (hw : ' ' ∉ w.data) :
    bearerToken (some (w ++ " " ++ t)) = bearerToken (some ("Bearer " ++ t))
      ∧ (' ' ∉ t.data → bearerToken (some (w ++ " " ++ t)) = some t)
      ∧ (authenticateToken env now { req with authorization := some (w ++ " " ++ t) }).map
            (fun r => r.tokenPayload)
          = (authenticateToken env now { req with authorization := some ("Bearer " ++ t) }).map
            (fun r => r.tokenPayload)
      ∧ (∀ h : String, ' ' ∉ h.data →
          authenticateToken env now { req with authorization := some h }
            = .error ⟨401, .error "Access token required"⟩)
      ∧ (∀ h : String, (jsSplit ' ' h.data)[1]? = some [] →
          authenticateToken env now { req with authorization := some h }
            = .error ⟨401, .error "Access token required"⟩) := by
  have hb : bearerToken (some (w ++ " " ++ t)) = bearerToken (some ("Bearer " ++ t)) := by
    have h2 := bearerToken_word "Bearer" t (by decide)
    have e : ("Bearer" : String) ++ " " ++ t = "Bearer " ++ t := by
      apply String.ext
      simp [String.data_append]
    rw [e] at h2
    rw [bearerToken_word w t hw, h2]
  refine ⟨hb, ?_, authenticateToken_congr env now _ _ hb, ?_, ?_⟩
  · intro ht
    rw [bearerToken_word w t hw, jsSplit_nosep ' ' t.data ht]
    rfl
  · intro h hh
    apply authenticate_missing
    by_cases he : h = ""
    · right; simp [bearerToken, he]
    · left
      simp [bearerToken, he, jsSplit_nosep ' ' h.data hh]
  · intro h hh
    apply authenticate_missing
    right
    by_cases he : h = ""
    · simp [bearerToken, he]
    · simp only [bearerToken, he, if_false, hh]
      rfl

theorem C26_scheme_word_ignored_witness :
    bearerToken (some "Token k.4600.admin.A") = some "k.4600.admin.A"
      ∧ authenticateToken refEnv refAmbient.now
          { reqAdminDelete with authorization := some "Bearer  k.4600.admin.A" }
        = .error ⟨401, .error "Access token required"⟩
      ∧ authenticateToken refEnv refAmbient.now
          { reqAdminDelete with authorization := some "Bearer" }
        = .error ⟨401, .error "Access token required"⟩ :=
  ⟨(C26_scheme_word_ignored refEnv refAmbient.now reqAdminDelete "Token" "k.4600.admin.A"
      (by decide)).2.1 (by decide),
    (C26_scheme_word_ignored refEnv refAmbient.now reqAdminDelete "Token" "k.4600.admin.A"
      (by decide)).2.2.2.2 "Bearer  k.4600.admin.A" (by decide),
    (C26_scheme_word_ignored refEnv refAmbient.now reqAdminDelete "Token" "k.4600.admin.A"
      (by decide)).2.2.2.1 "Bearer" (by decide)⟩

/-! ## The name validators -/

theorem handleGoName_ok_iff (input name : String) :
    handleGoName input = .ok name ↔ (name = jsTrim input ∧ nameRegexTest name = true) := by
  unfold handleGoName
  dsimp only
  by_cases he : jsTrim input = ""
  · rw [if_pos he]
    constructor
    · intro h; exact absurd h (by simp)
    · rintro ⟨h1, h2⟩
      rw [h1, he] at h2
      exact absurd h2 (by decide)
  · rw [if_neg he]
    by_cases ht : nameRegexTest (jsTrim input) = true
    · have ht2 := ht
      unfold nameRegexTest at ht2
      dsimp only at ht2
      simp only [ht2, Bool.not_true, Bool.false_eq_true, if_false]
      constructor
      · intro h
        have := Except.ok.inj h
        exact ⟨this.symm, by rw [← this]; exact ht⟩
      · rintro ⟨h1, _⟩
        rw [h1]
    · have ht2 := ht
      unfold nameRegexTest at ht2
      dsimp only at ht2
      simp only [ht2, Bool.not_eq_true, Bool.not_false, if_true]
      constructor
      · intro h; exact absurd h (by simp)
      · rintro ⟨h1, h2⟩
        rw [h1] at h2
        exact absurd h2 ht

/-- C27: the name checks agree. `validateSpaceName` of `script_old.js` is the test of
the creation route; `handleGo` of `script.js` goes on exactly with the trimmed inputs
that pass that test, and goes on with every name that passes it; a name that passes
the test is left as it is by the `trim` of the schema, has between 3 and 40 code
units and only characters of the class, so its document passes the validation of
the Space schema and the space is stored under exactly the submitted name. -/
theorem C27_name_validators_agree (input name : String) :
    validateSpaceName name = nameRegexTest name
      ∧ (handleGoName input = .ok name ↔ (name = jsTrim input ∧ nameRegexTest name = true))
      ∧ (nameRegexTest name = true → handleGoName name = .ok name)
      ∧ (nameRegexTest name = true →
          jsTrim name = name ∧ 3 ≤ jsLength name ∧ jsLength name ≤ 40 ∧ name ≠ ""
            ∧ name.data.all nameChar = true)
      ∧ (nameRegexTest name = true → ∀ (id t : Nat) (vh ah : String), vh ≠ "" → ah ≠ "" →
          spaceValid { _id := id, name := jsTrim name, viewPasswordHash := vh,
                       adminPasswordHash := ah, createdAt := t } = true)
      ∧ (nameRegexTest name = true → ∀ (env : Env) (amb : Ambient) (st : ServerState)
          (v a : String), 6 ≤ jsLength v → 6 ≤ jsLength a → findSpace st name = none →
          (∀ x r s, env.bcryptHash x r s ≠ "") →
          (app env amb st (createReq name v a)).2.spaces
            = st.spaces ++ [newSpace env amb name v a]
            ∧ (newSpace env amb name v a).name = name) := by
  have hfacts : nameRegexTest name = true →
      jsTrim name = name ∧ 3 ≤ jsLength name ∧ jsLength name ≤ 40 ∧ name ≠ ""
        ∧ name.data.all nameChar = true := by
    intro h
    obtain ⟨hall, h3, h40⟩ := nameRegexTest_sound name h
    have hlen := jsLength_of_name name hall
    exact ⟨jsTrim_of_nameChars name hall, by omega, by omega,
      ne_empty_of_nameRegexTest name h, hall⟩
  refine ⟨rfl, handleGoName_ok_iff input name, ?_, hfacts, ?_, ?_⟩
  · intro h
    exact (handleGoName_ok_iff name name).2 ⟨(hfacts h).1.symm, h⟩
  · intro h id t vh ah hvh hah
    obtain ⟨htrim, h3, h40, hne, hall⟩ := hfacts h
    rw [htrim]
    simp only [spaceValid, Bool.and_eq_true, bne_iff_ne, ne_eq, decide_eq_true_eq]
    exact ⟨⟨⟨⟨⟨hne, h3⟩, h40⟩, hall⟩, hvh⟩, hah⟩
  · intro h env amb st v a hv ha hfree hh
    rw [app_createSpace env amb st _ rfl,
      createSpaceHandler_ok env amb st (arriving (createReq name v a)) name v a rfl rfl rfl h
        hv ha hfree hh]
    exact ⟨rfl, rfl⟩

theorem C27_name_validators_agree_witness :
    handleGoName "  demo-space " = .ok "demo-space"
      ∧ handleGoName "demo-space" = .ok "demo-space"
      ∧ jsTrim "demo-space" = "demo-space"
      ∧ spaceValid { _id := 1, name := jsTrim "demo-space", viewPasswordHash := "s$viewpass1",
                     adminPasswordHash := "ss$adminpass1", createdAt := 0 } = true :=
  ⟨(C27_name_validators_agree "  demo-space " "demo-space").2.1.2 ⟨by decide, by decide⟩,
    (C27_name_validators_agree "" "demo-space").2.2.1 (by decide),
    ((C27_name_validators_agree "" "demo-space").2.2.2.1 (by decide)).1,
    (C27_name_validators_agree "" "demo-space").2.2.2.2.1 (by decide) 1 0 "s$viewpass1"
      "ss$adminpass1" (by decide) (by decide)⟩

/-! ## Escaping -/

theorem replaceAll_append (c : Char) (r a b : List Char) :
    replaceAll c r (a ++ b) = replaceAll c r a ++ replaceAll c r b := by
  induction a with
  | nil => rfl
  | cons x xs ih =>
    have h1 : replaceAll c r (x :: (xs ++ b))
        = (if x = c then r else [x]) ++ replaceAll c r (xs ++ b) := rfl
    have h2 : replaceAll c r (x :: xs) = (if x = c then r else [x]) ++ replaceAll c r xs := rfl
    rw [List.cons_append, h1, h2, ih, List.append_assoc]

theorem replaceAll_single (c : Char) (r : List Char) (x : Char) :
    replaceAll c r [x] = if x = c then r else [x] := by
  simp [replaceAll]

/-- The five replacements in sequence, on characters. -/
theorem escapeHtml_data (s : String) :
    (escapeHtml s).data
      = replaceAll '\'' "&#039;".data
          (replaceAll '"' "&quot;".data
            (replaceAll '>' "&gt;".data
              (replaceAll '<' "&lt;".data
                (replaceAll '&' "&amp;".data s.data)))) := rfl

theorem escape_single (c : Char) :
    replaceAll '\'' "&#039;".data
        (replaceAll '"' "&quot;".data
          (replaceAll '>' "&gt;".data
            (replaceAll '<' "&lt;".data
              (replaceAll '&' "&amp;".data [c]))))
      = escapeChar c := by
  unfold escapeChar
  by_cases h1 : c = '&'
  · subst h1; decide
  by_cases h2 : c = '<'
  · subst h2; decide
  by_cases h3 : c = '>'
  · subst h3; decide
  by_cases h4 : c = '"'
  · subst h4; decide
  by_cases h5 : c = '\''
  · subst h5; decide
  simp [replaceAll_single, h1, h2, h3, h4, h5]

/-- The five replacements in sequence are one pass that writes each character or
its entity. -/
theorem escapeHtml_flatMap (l : List Char) :
    replaceAll '\'' "&#039;".data
        (replaceAll '"' "&quot;".data
          (replaceAll '>' "&gt;".data
            (replaceAll '<' "&lt;".data
              (replaceAll '&' "&amp;".data l))))
      = l.flatMap escapeChar := by
  induction l with
  | nil => rfl
  | cons c cs ih =>
    have hc : c :: cs = [c] ++ cs := rfl
    rw [hc]
    simp only [replaceAll_append]
    rw [escape_single, ih]
    rfl

theorem escapeChar_clean (c : Char) :
    ∀ x ∈ escapeChar c, x ≠ '<' ∧ x ≠ '>' ∧ x ≠ '"' ∧ x ≠ '\'' := by
  unfold escapeChar
  by_cases h1 : c = '&'
  · subst h1; decide
  by_cases h2 : c = '<'
  · subst h2; decide
  by_cases h3 : c = '>'
  · subst h3; decide
  by_cases h4 : c = '"'
  · subst h4; decide
  by_cases h5 : c = '\''
  · subst h5; decide
  simp [h1, h2, h3, h4, h5]

theorem ampersandsOk_escapeChar (c : Char) (rest : List Char) :
    ampersandsOk (escapeChar c ++ rest) = ampersandsOk rest := by
  unfold escapeChar
  by_cases h1 : c = '&'
  · subst h1; simp [ampersandsOk, entityFollows, dropLeading]
  by_cases h2 : c = '<'
  · subst h2; simp [ampersandsOk, entityFollows, dropLeading]
  by_cases h3 : c = '>'
  · subst h3; simp [ampersandsOk, entityFollows, dropLeading]
  by_cases h4 : c = '"'
  · subst h4; simp [ampersandsOk, entityFollows, dropLeading]
  by_cases h5 : c = '\''
  · subst h5; simp [ampersandsOk, entityFollows, dropLeading]
  simp [h1, h2, h3, h4, h5, ampersandsOk]

theorem readEntity_other (c : Char) (rest : List Char) (h : c ≠ '&') :
    readEntity (c :: rest) = none := by
  have h2 : ¬ '&' = c := fun e => h e.symm
  simp [readEntity, dropLeading, h2]

theorem readEntity_escapeChar (c : Char) (rest : List Char)
    (h : c = '&' ∨ c = '<' ∨ c = '>' ∨ c = '"' ∨ c = '\'') :
    readEntity (escapeChar c ++ rest) = some (c, rest) := by
  rcases h with h | h | h | h | h <;> subst h <;>
    simp [readEntity, escapeChar, dropLeading]

theorem escapeChar_length_pos (c : Char) : 1 ≤ (escapeChar c).length := by
  unfold escapeChar
  repeat' split
  all_goals first
    | decide
    | simp

/-- Reading the entities back undoes the escaping. -/
theorem unescapeAux_flatMap (l : List Char) :
    ∀ n, (l.flatMap escapeChar).length ≤ n → unescapeAux n (l.flatMap escapeChar) = l := by
  induction l with
  | nil =>
    intro n _
    cases n <;> rfl
  | cons c cs ih =>
    intro n hn
    have hfm : (c :: cs).flatMap escapeChar = escapeChar c ++ cs.flatMap escapeChar := rfl
    rw [hfm] at hn ⊢
    rw [List.length_append] at hn
    have hpos := escapeChar_length_pos c
    cases n with
    | zero => omega
    | succ m =>
      have hm : (cs.flatMap escapeChar).length ≤ m := by omega
      by_cases hsp : c = '&' ∨ c = '<' ∨ c = '>' ∨ c = '"' ∨ c = '\''
      · have hre := readEntity_escapeChar c (cs.flatMap escapeChar) hsp
        cases hcase : escapeChar c ++ cs.flatMap escapeChar with
        | nil =>
          have := congrArg List.length hcase
          rw [List.length_append] at this
          simp only [List.length_nil] at this
          omega
        | cons x xs =>
          rw [hcase] at hre
          simp only [unescapeAux, hre]
          rw [ih m hm]
      · have h1 : c ≠ '&' := fun e => hsp (Or.inl e)
        have hec : escapeChar c = [c] := by
          unfold escapeChar
          simp only [not_or] at hsp
          simp [hsp.1, hsp.2.1, hsp.2.2.1, hsp.2.2.2.1, hsp.2.2.2.2]
        rw [hec]
        show unescapeAux (m + 1) (c :: cs.flatMap escapeChar) = c :: cs
        simp only [unescapeAux, readEntity_other c _ h1]
        rw [ih m hm]

theorem flatMap_cons_escape (c : Char) (cs : List Char) :
    (c :: cs).flatMap escapeChar = escapeChar c ++ cs.flatMap escapeChar := rfl

theorem escapeHtml_eq_flatMap (s : String) :
    (escapeHtml s).data = s.data.flatMap escapeChar := by
  rw [escapeHtml_data, escapeHtml_flatMap]

theorem flatMap_escape_clean (l : List Char) :
    ∀ x ∈ l.flatMap escapeChar, x ≠ '<' ∧ x ≠ '>' ∧ x ≠ '"' ∧ x ≠ '\'' := by
  induction l with
  | nil => intro x hx; cases hx
  | cons c cs ih =>
    intro x hx
    rw [flatMap_cons_escape] at hx
    rcases List.mem_append.mp hx with h | h
    · exact escapeChar_clean c x h
    · exact ih x h

theorem flatMap_escape_ampersands (l : List Char) :
    ampersandsOk (l.flatMap escapeChar) = true := by
  induction l with
  | nil => rfl
  | cons c cs ih => rw [flatMap_cons_escape, ampersandsOk_escapeChar, ih]

theorem flatMap_escape_plain (l : List Char)
    (h : ∀ x ∈ l, x ≠ '&' ∧ x ≠ '<' ∧ x ≠ '>' ∧ x ≠ '"' ∧ x ≠ '\'') :
    l.flatMap escapeChar = l := by
  induction l with
  | nil => rfl
  | cons c cs ih =>
    have hc := h c (List.mem_cons_self _ _)
    have hec : escapeChar c = [c] := by
      unfold escapeChar
      simp [hc.1, hc.2.1, hc.2.2.1, hc.2.2.2.1, hc.2.2.2.2]
    rw [flatMap_cons_escape, hec, ih fun x hx => h x (List.mem_cons_of_mem _ hx)]
    rfl

/-- C28: for every string `s`, `escapeHtml(s)` of `script_old.js` holds none of the
characters `<`, `>`, double quote and apostrophe; every `&` in it is followed by
`amp;`, `lt;`, `gt;`, `quot;` or `#039;`; replacing the five entities back, from the
left, gives `s` again, so the function is injective; and a string without the five
special characters is returned unchanged. -/
theorem C28_escapeHtml_properties (s : String) :
    (∀ x ∈ (escapeHtml s).data, x ≠ '<' ∧ x ≠ '>' ∧ x ≠ '"' ∧ x ≠ '\'')
      ∧ ampersandsOk (escapeHtml s).data = true
      ∧ unescapeHtml (escapeHtml s).data = s.data
      ∧ (∀ s2 : String, escapeHtml s = escapeHtml s2 → s = s2)
      ∧ ((∀ x ∈ s.data, x ≠ '&' ∧ x ≠ '<' ∧ x ≠ '>' ∧ x ≠ '"' ∧ x ≠ '\'') →
          escapeHtml s = s) := by
  have hinv : ∀ u : String, unescapeHtml (escapeHtml u).data = u.data := by
    intro u
    rw [escapeHtml_eq_flatMap]
    exact unescapeAux_flatMap u.data _ (Nat.le_refl _)
  refine ⟨?_, ?_, hinv s, ?_, ?_⟩
  · rw [escapeHtml_eq_flatMap]
    exact flatMap_escape_clean s.data
  · rw [escapeHtml_eq_flatMap]
    exact flatMap_escape_ampersands s.data
  · intro s2 h
    apply String.ext
    rw [← hinv s, ← hinv s2, h]
  · intro h
    apply String.ext
    rw [escapeHtml_eq_flatMap]
    exact flatMap_escape_plain s.data h

theorem C28_escapeHtml_properties_witness :
    escapeHtml "a<b & &lt; 'c'" = "a&lt;b &amp; &amp;lt; &#039;c&#039;"
      ∧ unescapeHtml (escapeHtml "a<b & &lt; 'c'").data = "a<b & &lt; 'c'".data
      ∧ escapeHtml "plain text" = "plain text" :=
  ⟨by decide, (C28_escapeHtml_properties "a<b & &lt; 'c'").2.2.1,
    (C28_escapeHtml_properties "plain text").2.2.2.2 (by decide)⟩

/-! ## Image records and file paths -/

theorem addedImage_eq (f : StoredFile) :
    addedImage f = { filename := none, originalName := some f.originalname,
                     storedName := some f.filename, mimeType := none, size := some f.size } := by
  simp [addedImage, castImage, strField, numField, List.lookup]

theorem createdImage_eq (f : StoredFile) :
    createdImage f = { filename := some f.filename, originalName := some f.originalname,
                       storedName := some f.filename, mimeType := some f.mimetype,
                       size := some f.size } := by
  simp [createdImage, castImage, strField, numField, List.lookup]

theorem uploadArray_contents (env : Env) (amb : Ambient) (st st1 : ServerState)
    (req req1 : Req) (h : uploadArray env amb st req = .ok (req1, st1)) :
    st1.contents = st.contents := by
  unfold uploadArray at h
  split at h
  · exact absurd h (by simp)
  · injection h with h
    injection h with _ h
    rw [← h]

/-- The add-images handler on a stored content and at least one file. -/
theorem addImagesHandler_found (env : Env) (st : ServerState) (req : Req) (s cid : String)
    (space : Space) (id : ObjectId) (content : Content)
    (hsp : findSpace st s = some space) (hid : env.castObjectId cid = some id)
    (hc : findContent st id space._id = some content) (hf : req.files ≠ []) :
    addImagesHandler env st req s cid
      = (⟨200, .content { content with images := content.images ++ req.files.map addedImage }⟩,
         putContent st { content with images := content.images ++ req.files.map addedImage }) := by
  have hf2 : req.files.isEmpty = false := by
    cases hfi : req.files with
    | nil => exact absurd hfi hf
    | cons x xs => rfl
  simp only [addImagesHandler, hsp, hid, hc, hf2, Bool.false_eq_true, if_false]
  rfl

/-- C29 (the code where the claim fails): an add-images request with a verified admin
token, on a stored content and with files that pass the upload, is answered 200 and
the existing images are kept in order before the new records; each new record
carries the stored name, the original name and the size, but its `mimeType` and its
`filename` are absent: the route writes the MIME type under the key `mimetype`,
which the schema does not declare, while the add-content route writes `mimeType`
and `filename`. -/
theorem C29_add_images_drops_mime_type (env : Env) (amb : Ambient) (st st1 : ServerState)
    (req req1 : Req) (t : String) (c : Claims) (s cid : String)
    (space : Space) (id : ObjectId) (content : Content)
    (hr : req.route = .addImages s cid)
    (ht : bearerToken req.authorization = some t) (hne : t ≠ "")
    (hv : env.jwtVerify t env.JWT_SECRET amb.now = some c)
    (hs : c.spaceName = s) (hrole : c.role = "admin")
    (hu : uploadArray env amb st (passed req c) = .ok (req1, st1))
    (hf : req1.files ≠ [])
    (hsp : findSpace st s = some space) (hid : env.castObjectId cid = some id)
    (hc : findContent st id space._id = some content) :
    (app env amb st req).1
        = ⟨200, .content { content with images := content.images ++ req1.files.map addedImage }⟩
      ∧ (∀ f ∈ req1.files,
          (addedImage f).storedName = some f.filename
            ∧ (addedImage f).originalName = some f.originalname
            ∧ (addedImage f).size = some f.size
            ∧ (addedImage f).mimeType = none ∧ (addedImage f).filename = none
            ∧ (createdImage f).mimeType = some f.mimetype
            ∧ (createdImage f).filename = some f.filename) := by
  have hmut : req.route.mutating = true := by rw [hr]; rfl
  have hsn : req.route.spaceName = some c.spaceName := by rw [hr, hs]; rfl
  have hsp1 : findSpace st1 s = some space := by
    unfold findSpace at hsp ⊢
    rw [uploadArray_spaces env amb st st1 _ req1 hu]; exact hsp
  have hc1 : findContent st1 id space._id = some content := by
    unfold findContent at hc ⊢
    rw [uploadArray_contents env amb st st1 _ req1 hu]; exact hc
  constructor
  · rw [app_admin env amb st req t c hmut ht hne hv hsn hrole]
    have hr2 : (passed req c).route = .addImages s cid := hr
    simp only [routeHandler, hr2, hu]
    rw [addImagesHandler_found env st1 req1 s cid space id content hsp1 hid hc1 hf]
  · intro f _
    rw [addedImage_eq, createdImage_eq]
    exact ⟨rfl, rfl, rfl, rfl, rfl, rfl, rfl⟩

theorem C29_add_images_drops_mime_type_witness :
    (app refEnv refAmbient stateA reqAddImages).1
      = ⟨200, .content
          { _id := 1, spaceId := 1, text := "hello",
            images :=
              [{ filename := some "1-r.png", originalName := some "a.png",
                 storedName := some "1-r.png", mimeType := some "image/png", size := some 10 },
               { filename := none, originalName := some "b.png",
                 storedName := some "1000000-r1.png", mimeType := none, size := some 20 }],
            createdAt := 5 }⟩ :=
  (C29_add_images_drops_mime_type refEnv refAmbient stateA
    { stateA with files := stateA.files ++ ["/app/uploads/1000000-r1.png"] }
    reqAddImages
    { passed reqAddImages ⟨"A", "admin"⟩ with
      files := [{ originalname := "b.png", mimetype := "image/png", size := 20,
                  filename := "1000000-r1.png" }] }
    adminTokenA ⟨"A", "admin"⟩ "A" "1"
    { _id := 1, name := "A", viewPasswordHash := "s$viewpass1",
      adminPasswordHash := "ss$adminpass1", createdAt := 0 } 1
    { _id := 1, spaceId := 1, text := "hello",
      images := [{ filename := some "1-r.png", originalName := some "a.png",
                   storedName := some "1-r.png", mimeType := some "image/png",
                   size := some 10 }],
      createdAt := 5 }
    rfl (by decide) (by decide) (by decide) rfl rfl rfl (by decide) (by decide) (by decide)
    (by decide)).1

/-- With `UPLOAD_DIR` unset or empty, the path the delete routes unlink is the path
under which the upload stores the file. -/
theorem unlinkPath_default (env : Env) (name : String)
    (h : env.UPLOAD_DIR = none ∨ env.UPLOAD_DIR = some "") :
    unlinkPath env name = env.pathJoin (uploadDir env) name := by
  rcases h with h | h <;> simp [unlinkPath, uploadDir, h]

/-- C30 (the code where the claim fails): with `UPLOAD_DIR` set to a directory `d`,
the upload stores a file under `path.join(d, name)` while the delete routes ask to
remove `path.join(__dirname, 'uploads', name)`; where the two paths differ, the
stored file is still on disk after the unlink. -/
theorem C30_delete_path_ignores_upload_dir (env : Env) (d name : String)
    (hd : env.UPLOAD_DIR = some d) (hne : d ≠ "")
    (hdiff : env.pathJoin d name ≠ env.pathJoin (env.pathJoin env.dirname "uploads") name) :
    env.pathJoin (uploadDir env) name = env.pathJoin d name
      ∧ unlinkPath env name = env.pathJoin (env.pathJoin env.dirname "uploads") name
      ∧ unlinkPath env name ≠ env.pathJoin (uploadDir env) name
      ∧ ∀ files : List String, env.pathJoin (uploadDir env) name ∈ files →
          env.pathJoin (uploadDir env) name ∈ unlink files (unlinkPath env name) := by
  have hup : uploadDir env = d := by simp [uploadDir, hd, hne]
  refine ⟨by rw [hup], rfl, ?_, ?_⟩
  · rw [hup]; exact fun e => hdiff e.symm
  · intro files hmem
    rw [hup] at hmem ⊢
    have hne2 : env.pathJoin d name ≠ unlinkPath env name := hdiff
    simp [unlink, hmem, hne2]

theorem C30_delete_path_ignores_upload_dir_witness :
    (app refEnvData refAmbient2 stateA reqAddContent).2.files
        = ["/app/uploads/1-r.png", "/data/1000000-r1.png"]
      ∧ (app refEnvData refAmbient (app refEnvData refAmbient2 stateA reqAddContent).2
          reqDeleteContent2).1 = ⟨200, .message "Content deleted"⟩
      ∧ (app refEnvData refAmbient (app refEnvData refAmbient2 stateA reqAddContent).2
          reqDeleteContent2).2.files = ["/app/uploads/1-r.png", "/data/1000000-r1.png"]
      ∧ unlinkPath refEnvData "1000000-r1.png" ≠ "/data/1000000-r1.png" :=
  ⟨by decide, by decide, by decide,
    (C30_delete_path_ignores_upload_dir refEnvData "/data" "1000000-r1.png" rfl (by decide)
      (by decide)).2.2.1⟩

end Minetext
